import Mathlib

/-!
# The modal editor of `src/vi/vi.c`

A shallow embedding of the editor engine: the line buffer, the cursor model,
the three mode handlers, the command interpreter, file load and save, and the
key decoder `read_key`.

Conventions of the embedding.

* A C string is the list of its bytes before the terminating NUL, a byte is a
  `Nat` below 256, and a C `int` is an `Int` (no value of a session comes
  near the limits of a machine `int`: they are bounded by line lengths and
  line counts).  Where a statement ranges over every state, so also over
  offsets next to `INT_MAX`, the 32-bit arithmetic is made explicit with
  `wrap_int` (`adjust_viewport_int`).
* The global record `E` is passed explicitly as a value of `Editor`.  The
  array `E.lines` with its count `E.line_count` is one list, `line_count`
  being its length; `lines_alloc` and `ensure_lines_capacity` only manage
  memory and are left out, and `malloc` never fails.
* The file system is reached through `FS`: what `fopen(path, "r")` yields and
  whether `fopen(path, "w")` succeeds.  What `save_file` writes is recorded in
  the field `written`, newest first.
* `read(STDIN_FILENO, &c, 1)` consumes one element of a list of read
  outcomes: `some b` is a byte, `none` is a read that returned nothing.
* The terminal output is a value of `Out`: the bytes handed to `write` so
  far and the content of `s_out_buf`.  A loop that calls `out_char` once per
  round is `out_chars` on the characters of its rounds.
* The indices that the handlers hand to the line and text operations are
  listed by the functions `.._log`, which follow the control flow of the
  function they are named after and record each access (`Access`) with the
  line count or line length at that moment.
-/

set_option linter.unusedVariables false
set_option linter.unusedTactic false
set_option linter.unreachableTactic false

namespace Vi

/-! ## Configuration and constants -/

/-- Size of the line buffer `fgets` fills in `load_file`. -/
abbrev MAX_LINE_LEN : Nat := 1024
/-- Size of `E.cmd_buf`. -/
abbrev CMD_BUF_SIZE : Int := 64
/-- Size of the escape buffer of `read_key`. -/
abbrev ESC_BUF_SIZE : Nat := 8

abbrev MODE_NORMAL : Int := 0
abbrev MODE_INSERT : Int := 1
abbrev MODE_COMMAND : Int := 2

abbrev KEY_NONE : Int := 0
abbrev KEY_UP : Int := 1000
abbrev KEY_DOWN : Int := 1001
abbrev KEY_LEFT : Int := 1002
abbrev KEY_RIGHT : Int := 1003
abbrev KEY_HOME : Int := 1004
abbrev KEY_END : Int := 1005
abbrev KEY_DELETE : Int := 1006
abbrev KEY_BACKSPACE : Int := 1007
abbrev KEY_ENTER : Int := 1008
abbrev KEY_ESC : Int := 1009

/-- Bytes of a string literal of the source. -/
def str (s : String) : List Nat := s.toList.map Char.toNat

/-- Decimal text that the conversion `%d` prints. -/
def fmt_d (n : Int) : List Nat := str (toString n)

/-- Result of `snprintf(E.status, sizeof(E.status), ...)`: the formatted text cut
to the 127 bytes that fit `char status[128]`. -/
def snprintf_status (text : List Nat) : List Nat := text.take 127

/-- Result of `strncpy(E.filepath, path, sizeof(E.filepath) - 1)` on the zeroed
or shorter-filled `char filepath[256]`: at most 255 bytes of `path`. -/
def strncpy_filepath (path : List Nat) : List Nat := path.take 255

/-! ## Editor state -/

/-- The global record `E`, with the files written so far. -/
structure Editor where
  lines : List (List Nat)
  cur_row : Int
  cur_col : Int
  top_line : Int
  left_col : Int
  mode : Int
  modified : Int
  running : Int
  filepath : List Nat
  status : List Nat
  cmd_buf : List Nat
  cmd_len : Int
  screen_rows : Int
  screen_cols : Int
  written : List (List Nat × List Nat)
  deriving DecidableEq, Repr

/-- The field `E.line_count`. -/
def Editor.line_count (E : Editor) : Int := E.lines.length

/-- The file system as the editor sees it. -/
structure FS where
  fopen_r : List Nat → Option (List Nat)
  fopen_w : List Nat → Bool

/-! ## Line management -/

/-- Source `insert_line_at`: the lines from `idx` on move up by one and a copy
of `text` is stored at `idx`. -/
def insert_line_at (idx : Int) (text : List Nat) (E : Editor) : Editor :=
  { E with lines := E.lines.take idx.toNat ++ [text] ++ E.lines.drop idx.toNat }

/-- Source `delete_line_at`. -/
def delete_line_at (idx : Int) (E : Editor) : Editor :=
  if idx < 0 ∨ idx ≥ E.line_count then E
  else
    let E1 := { E with lines := E.lines.eraseIdx idx.toNat }
    if E1.line_count = 0 then insert_line_at 0 [] E1 else E1

/-! ## File I/O -/

/-- Bytes that one call `fgets(line, k + 1, f)` stores: at most `k`, stopping
after a newline. -/
def fgets_chunk : Nat → List Nat → List Nat
  | 0, _ => []
  | _, [] => []
  | k + 1, b :: rest => if b = 10 then [b] else b :: fgets_chunk k rest

/-- Library `fgets(line, size, f)` on the unread bytes `f`: `none` is the NULL
at end of file, otherwise the bytes stored and the bytes left unread. -/
def fgets (size : Nat) (f : List Nat) : Option (List Nat × List Nat) :=
  let chunk := fgets_chunk (size - 1) f
  if chunk = [] then none else some (chunk, f.drop chunk.length)

/-- C string held by a buffer: its bytes before the first NUL (what `strlen`
measures and `line_dup` copies). -/
def c_str (buf : List Nat) : List Nat := buf.takeWhile (fun b => b ≠ 0)

/-- The loop of `load_file` that strips trailing newline and CR bytes. -/
def strip_eol (line : List Nat) : List Nat :=
  line.rdropWhile (fun b => b = 10 ∨ b = 13)

/-- The loop `while (fgets(line, sizeof(line), f))` of `load_file`. -/
def load_lines (f : List Nat) (E : Editor) : Editor :=
  match h : fgets MAX_LINE_LEN f with
  | none => E
  | some (line, rest) =>
    load_lines rest (insert_line_at E.line_count (strip_eol (c_str line)) E)
termination_by f.length
decreasing_by
  simp only [fgets] at h
  split at h
  · exact absurd h (by simp)
  · rename_i hne
    simp only [Option.some.injEq, Prod.mk.injEq] at h
    obtain ⟨-, rfl⟩ := h
    have h1 : 0 < (fgets_chunk (MAX_LINE_LEN - 1) f).length :=
      List.length_pos.mpr hne
    have h2 : f ≠ [] := by
      intro hf
      apply hne
      subst hf
      simp [fgets_chunk]
    have h3 : 0 < f.length := List.length_pos.mpr h2
    simp only [List.length_drop]
    omega

/-- Source `load_file`. -/
def load_file (fs : FS) (path : List Nat) (E : Editor) : Int × Editor :=
  match fs.fopen_r path with
  | none =>
    (1, { insert_line_at 0 [] E with status := snprintf_status (str "[New File]") })
  | some f =>
    let E1 := load_lines f E
    let E2 := if E1.line_count = 0 then insert_line_at 0 [] E1 else E1
    (1, { E2 with status :=
            snprintf_status (str "\"" ++ path ++ str "\" " ++ fmt_d E2.line_count ++ str " lines") })

/-- Bytes that the loop `fprintf(f, "%s\n", E.lines[i])` of `save_file` writes. -/
def file_bytes (lines : List (List Nat)) : List Nat :=
  lines.flatMap (fun l => l ++ [10])

/-- Test `path && path[0]` on the argument of `save_file`; `none` is NULL. -/
def path_given (path : Option (List Nat)) : Bool :=
  match path with
  | some p => !(p == [])
  | none => false

/-- The path `save_file` opens: after `if (!path || !path[0]) path = E.filepath`. -/
def save_target (path : Option (List Nat)) (E : Editor) : List Nat :=
  if path_given path then path.getD [] else E.filepath

/-- Source `save_file`; `path = none` is the call `save_file(NULL)`.  The test
`path != E.filepath` holds exactly when a non-empty path was passed. -/
def save_file (fs : FS) (path : Option (List Nat)) (E : Editor) : Int × Editor :=
  let p := save_target path E
  if p = [] then
    (0, { E with status := snprintf_status (str "No filename") })
  else if fs.fopen_w p = false then
    (0, { E with status := snprintf_status (str "Cannot write: " ++ p) })
  else
    let fp := if path_given path then strncpy_filepath p else E.filepath
    (1, { E with
            written := (p, file_bytes E.lines) :: E.written
            modified := 0
            filepath := fp
            status := snprintf_status
              (str "\"" ++ fp ++ str "\" " ++ fmt_d E.line_count ++ str " lines written") })

/-! ## Cursor movement -/

/-- Source `line_len`. -/
def line_len (row : Int) (E : Editor) : Int :=
  if row < 0 ∨ row ≥ E.line_count then 0
  else ((E.lines.getD row.toNat []).length : Int)

/-- Source `clamp_cursor`. -/
def clamp_cursor (E : Editor) : Editor :=
  let r1 := if E.cur_row < 0 then 0 else E.cur_row
  let r2 := if r1 ≥ E.line_count then E.line_count - 1 else r1
  let r3 := if r2 < 0 then 0 else r2
  let len := line_len r3 E
  let c1 :=
    if E.mode = MODE_INSERT then
      (if E.cur_col > len then len else E.cur_col)
    else
      (if len = 0 then 0 else if E.cur_col ≥ len then len - 1 else E.cur_col)
  let c2 := if c1 < 0 then 0 else c1
  { E with cur_row := r3, cur_col := c2 }

/-- Source `move_up`. -/
def move_up (E : Editor) : Editor :=
  clamp_cursor (if E.cur_row > 0 then { E with cur_row := E.cur_row - 1 } else E)

/-- Source `move_down`. -/
def move_down (E : Editor) : Editor :=
  clamp_cursor
    (if E.cur_row < E.line_count - 1 then { E with cur_row := E.cur_row + 1 } else E)

/-- Source `move_left`. -/
def move_left (E : Editor) : Editor :=
  clamp_cursor (if E.cur_col > 0 then { E with cur_col := E.cur_col - 1 } else E)

/-- Source `move_right`. -/
def move_right (E : Editor) : Editor :=
  clamp_cursor { E with cur_col := E.cur_col + 1 }

/-! ## Text editing -/

/-- The line `E.lines[E.cur_row]`. -/
def cur_line (E : Editor) : List Nat := E.lines.getD E.cur_row.toNat []

/-- Source `insert_char`. -/
def insert_char (c : Nat) (E : Editor) : Editor :=
  let line := cur_line E
  let new_line := line.take E.cur_col.toNat ++ [c] ++ line.drop E.cur_col.toNat
  { E with
      lines := E.lines.set E.cur_row.toNat new_line
      cur_col := E.cur_col + 1
      modified := 1 }

/-- Source `delete_char_at`. -/
def delete_char_at (col : Int) (E : Editor) : Editor :=
  let line := cur_line E
  let len : Int := line.length
  if col < 0 ∨ col ≥ len then E
  else
    { E with
        lines := E.lines.set E.cur_row.toNat (line.eraseIdx col.toNat)
        modified := 1 }

/-- Source `backspace_char`. -/
def backspace_char (E : Editor) : Editor :=
  if E.cur_col > 0 then
    let E1 := { E with cur_col := E.cur_col - 1 }
    delete_char_at E1.cur_col E1
  else if E.cur_row > 0 then
    let prev_len := line_len (E.cur_row - 1) E
    let prev := E.lines.getD (E.cur_row - 1).toNat []
    let curr := E.lines.getD E.cur_row.toNat []
    let E1 := { E with lines := E.lines.set (E.cur_row - 1).toNat (prev ++ curr) }
    let E2 := delete_line_at E1.cur_row E1
    { E2 with cur_row := E2.cur_row - 1, cur_col := prev_len, modified := 1 }
  else E

/-- Source `insert_newline`. -/
def insert_newline (E : Editor) : Editor :=
  let line := cur_line E
  let rest := line.drop E.cur_col.toNat
  let E1 := { E with lines := E.lines.set E.cur_row.toNat (line.take E.cur_col.toNat) }
  let E2 := insert_line_at (E1.cur_row + 1) rest E1
  { E2 with cur_row := E2.cur_row + 1, cur_col := 0, modified := 1 }

/-! ## Screen rendering -/

/-- Source `adjust_viewport`, with every sum and difference exact.  This is what
the code computes as long as its `int` operations stay within `INT_MIN` ..
`INT_MAX`; `adjust_viewport_int` below gives the result of the machine for
every state. -/
def adjust_viewport (E : Editor) : Editor :=
  let text_rows := E.screen_rows - 1
  let text_cols := E.screen_cols
  let top1 := if E.cur_row < E.top_line then E.cur_row else E.top_line
  let top2 := if E.cur_row ≥ top1 + text_rows then E.cur_row - text_rows + 1 else top1
  let left1 := if E.cur_col < E.left_col then E.cur_col else E.left_col
  let left2 := if E.cur_col ≥ left1 + text_cols then E.cur_col - text_cols + 1 else left1
  { E with top_line := top2, left_col := left2 }

/-- Largest value of a 32-bit `int`. -/
abbrev INT_MAX : Int := 2147483647
/-- Smallest value of a 32-bit `int`. -/
abbrev INT_MIN : Int := -2147483648

/-- A value that a 32-bit `int` holds. -/
def is_int (x : Int) : Prop := INT_MIN ≤ x ∧ x ≤ INT_MAX

instance (x : Int) : Decidable (is_int x) := by
  unfold is_int; infer_instance

/-- Result of an `int` addition or subtraction on the machine: the exact result
reduced to 32 bits in two's complement.  Within `INT_MIN` .. `INT_MAX` this is
the exact result; beyond, where C leaves the operation undefined, it is the
value the add and subtract instructions of the machine give. -/
def wrap_int (x : Int) : Int := (x + 2147483648) % 4294967296 - 2147483648

/-- Source `adjust_viewport` with the arithmetic of the machine: `text_rows`,
`E.top_line + text_rows`, `E.cur_row - text_rows + 1` and the same for the
columns are `int` operations, whose result is reduced to 32 bits.  The sum
`E.top_line + text_rows` or `E.left_col + text_cols` passes `INT_MAX` when the
offset is within a screen of it. -/
def adjust_viewport_int (E : Editor) : Editor :=
  let text_rows := wrap_int (E.screen_rows - 1)
  let text_cols := E.screen_cols
  let top1 := if E.cur_row < E.top_line then E.cur_row else E.top_line
  let top2 :=
    if E.cur_row ≥ wrap_int (top1 + text_rows) then
      wrap_int (wrap_int (E.cur_row - text_rows) + 1)
    else top1
  let left1 := if E.cur_col < E.left_col then E.cur_col else E.left_col
  let left2 :=
    if E.cur_col ≥ wrap_int (left1 + text_cols) then
      wrap_int (wrap_int (E.cur_col - text_cols) + 1)
    else left1
  { E with top_line := top2, left_col := left2 }

/-! ## Mode handlers -/

/-- The `switch (key)` of `handle_normal`; the byte codes are the character
constants of its cases. -/
def handle_normal_switch (key : Int) (E : Editor) : Editor :=
  if key = 104 ∨ key = KEY_LEFT then move_left E            -- case 'h'
  else if key = 106 ∨ key = KEY_DOWN then move_down E       -- case 'j'
  else if key = 107 ∨ key = KEY_UP then move_up E           -- case 'k'
  else if key = 108 ∨ key = KEY_RIGHT then move_right E     -- case 'l'
  else if key = 48 ∨ key = KEY_HOME then { E with cur_col := 0 }   -- case '0'
  else if key = 36 ∨ key = KEY_END then                     -- case '$'
    clamp_cursor { E with cur_col := line_len E.cur_row E }
  else if key = 105 then { E with mode := MODE_INSERT }     -- case 'i'
  else if key = 97 then                                     -- case 'a'
    { clamp_cursor { E with cur_col := E.cur_col + 1 } with mode := MODE_INSERT }
  else if key = 65 then                                     -- case 'A'
    { E with cur_col := line_len E.cur_row E, mode := MODE_INSERT }
  else if key = 111 then                                    -- case 'o'
    let E1 := insert_line_at (E.cur_row + 1) [] E
    { E1 with cur_row := E1.cur_row + 1, cur_col := 0, mode := MODE_INSERT, modified := 1 }
  else if key = 79 then                                     -- case 'O'
    let E1 := insert_line_at E.cur_row [] E
    { E1 with cur_col := 0, mode := MODE_INSERT, modified := 1 }
  else if key = 120 then                                    -- case 'x'
    if line_len E.cur_row E > 0 then clamp_cursor (delete_char_at E.cur_col E) else E
  else if key = 100 then                                    -- case 'd'
    clamp_cursor (delete_line_at E.cur_row E)
  else if key = 58 then                                     -- case ':'
    { E with mode := MODE_COMMAND, cmd_buf := [], cmd_len := 0 }
  else if key = 71 then                                     -- case 'G'
    clamp_cursor { E with cur_row := E.line_count - 1 }
  else if key = 103 then { E with cur_row := 0, cur_col := 0 }   -- case 'g'
  else E

/-- Source `handle_normal`: the status is cleared, then the key is handled. -/
def handle_normal (key : Int) (E : Editor) : Editor :=
  handle_normal_switch key { E with status := [] }

/-- Source `handle_insert`. -/
def handle_insert (key : Int) (E : Editor) : Editor :=
  if key = KEY_ESC then
    let E1 := { E with mode := MODE_NORMAL }
    clamp_cursor (if E1.cur_col > 0 then { E1 with cur_col := E1.cur_col - 1 } else E1)
  else if key = KEY_UP then move_up E
  else if key = KEY_DOWN then move_down E
  else if key = KEY_LEFT then move_left E
  else if key = KEY_RIGHT then move_right E
  else if key = KEY_BACKSPACE then backspace_char E
  else if key = KEY_DELETE then delete_char_at E.cur_col E
  else if key = KEY_ENTER then insert_newline E
  else if key = KEY_HOME then { E with cur_col := 0 }
  else if key = KEY_END then { E with cur_col := line_len E.cur_row E }
  else if key ≥ 32 ∧ key < 127 then insert_char key.toNat E
  else E

/-- The loop `while (*cmd == ' ') cmd++` of `exec_command`. -/
def skip_spaces (cmd : List Nat) : List Nat := cmd.dropWhile (fun b => b = 32)

/-- Source `exec_command`.  `strncmp(cmd, "w ", 2) == 0` holds when the first
two bytes of `cmd` are `w` and a space. -/
def exec_command (fs : FS) (E : Editor) : Editor :=
  let cmd := skip_spaces E.cmd_buf
  if cmd = str "q" then
    if E.modified ≠ 0 then
      { E with status :=
          snprintf_status (str "No write since last change (add ! to override)") }
    else { E with running := 0 }
  else if cmd = str "q!" then { E with running := 0 }
  else if cmd = str "w" then (save_file fs none E).2
  else if cmd.take 2 = str "w " then (save_file fs (some (cmd.drop 2)) E).2
  else if cmd = str "wq" ∨ cmd = str "x" then
    let r := save_file fs none E
    if r.1 ≠ 0 then { r.2 with running := 0 } else r.2
  else if cmd ≠ [] then
    { E with status := snprintf_status (str "Unknown command: " ++ cmd) }
  else E

/-- Source `handle_command`.  The field `cmd_buf` is the C string held by the
array: storing `key` at index `cmd_len` and a NUL after it leaves the first
`cmd_len` bytes followed by `key`, and storing a NUL at `cmd_len - 1` leaves the
first `cmd_len - 1` bytes (`cmd_len` never exceeds the length of the string). -/
def handle_command (fs : FS) (key : Int) (E : Editor) : Editor :=
  if key = KEY_ESC then { E with mode := MODE_NORMAL, status := [] }
  else if key = KEY_ENTER then { exec_command fs E with mode := MODE_NORMAL }
  else if key = KEY_BACKSPACE then
    if E.cmd_len > 0 then
      { E with cmd_buf := E.cmd_buf.take (E.cmd_len - 1).toNat, cmd_len := E.cmd_len - 1 }
    else { E with mode := MODE_NORMAL }
  else if key ≥ 32 ∧ key < 127 ∧ E.cmd_len < CMD_BUF_SIZE - 1 then
    { E with cmd_buf := E.cmd_buf.take E.cmd_len.toNat ++ [key.toNat],
             cmd_len := E.cmd_len + 1 }
  else E

/-! ## Main -/

/-- The `switch (E.mode)` of the main loop, which hands a key to the handler of
the current mode. -/
def dispatch_key (fs : FS) (key : Int) (E : Editor) : Editor :=
  if E.mode = MODE_NORMAL then handle_normal key E
  else if E.mode = MODE_INSERT then handle_insert key E
  else if E.mode = MODE_COMMAND then handle_command fs key E
  else E

/-- The record `E` after `memset(&E, 0, sizeof(E))`, with nothing written yet. -/
def editor_zero : Editor :=
  { lines := [], cur_row := 0, cur_col := 0, top_line := 0, left_col := 0,
    mode := 0, modified := 0, running := 0, filepath := [], status := [],
    cmd_buf := [], cmd_len := 0, screen_rows := 0, screen_cols := 0, written := [] }

/-- The part of `main` before the loop: `argv1` is `argv[1]` when `argc >= 2`,
and `rows`, `cols` are what `plat_get_size` reports. -/
def main_init (fs : FS) (argv1 : Option (List Nat)) (rows cols : Int) : Editor :=
  let E := { editor_zero with
    running := 1, mode := MODE_NORMAL, screen_rows := rows, screen_cols := cols }
  match argv1 with
  | some path => (load_file fs path { E with filepath := strncpy_filepath path }).2
  | none => { insert_line_at 0 [] E with status := snprintf_status (str "[No Name]") }

/-- Keys that `read_key` can hand to the handlers: a printable character or one
of the special keys `KEY_UP` .. `KEY_ESC`. -/
def decoded_key (key : Int) : Prop :=
  (32 ≤ key ∧ key < 127) ∨ (KEY_UP ≤ key ∧ key ≤ KEY_ESC)

instance (key : Int) : Decidable (decoded_key key) := by
  unfold decoded_key; infer_instance

/-- States of a session: the state `main` starts the loop in, and every state
obtained from such a state by the steps of the loop, which are the scroll of
the viewport that `draw_screen` makes through `adjust_viewport` and the handling
of a decoded key.  The file system may answer differently at each key. -/
inductive Reachable : Editor → Prop
  | init (fs : FS) (argv1 : Option (List Nat)) (rows cols : Int) :
      Reachable (main_init fs argv1 rows cols)
  | draw (E : Editor) : Reachable E → Reachable (adjust_viewport E)
  | step (fs : FS) (key : Int) (E : Editor) :
      Reachable E → decoded_key key → Reachable (dispatch_key fs key E)

/-- Run of `dispatch_key` over a sequence of keys, first key first. -/
def run_keys (fs : FS) (keys : List Int) (E : Editor) : Editor :=
  keys.foldl (fun s k => dispatch_key fs k s) E

/-! ## Input handling -/

/-- The static variables `esc_buf` and `esc_len` of `read_key`. -/
structure Decoder where
  esc_buf : List Nat
  esc_len : Nat
  deriving DecidableEq, Repr

/-- One call `read(STDIN_FILENO, &c, 1)`: the outcome and the outcomes left.
With no outcome left the read returns nothing. -/
def read_byte : List (Option Nat) → Option Nat × List (Option Nat)
  | [] => (none, [])
  | r :: rest => (r, rest)

/-- Value of a `char` holding the byte `b`, for either signedness of `char`. -/
def char_val (char_signed : Bool) (b : Nat) : Int :=
  if char_signed ∧ b ≥ 128 then (b : Int) - 256 else b

/-- Test `memcmp(buf, pat, n) == 0`. -/
def memcmp_eq (buf pat : List Nat) (n : Nat) : Bool := buf.take n == pat.take n

/-- The end of the escape branch of `read_key`: reset on a full buffer, and
no key. -/
def esc_pending (buf : List Nat) (len : Nat) (inp : List (Option Nat)) :
    Int × Decoder × List (Option Nat) :=
  if len ≥ ESC_BUF_SIZE - 1 then (KEY_NONE, { esc_buf := buf, esc_len := 0 }, inp)
  else (KEY_NONE, { esc_buf := buf, esc_len := len }, inp)

/-- Source `read_key`: the key returned, the static variables afterwards and the
read outcomes not consumed. -/
def read_key (char_signed : Bool) (d : Decoder) (inp : List (Option Nat)) :
    Int × Decoder × List (Option Nat) :=
  match read_byte inp with
  | (none, inp1) => (KEY_NONE, d, inp1)
  | (some c, inp1) =>
    if d.esc_len > 0 ∨ char_val char_signed c = 27 then
      let buf := d.esc_buf.set d.esc_len c
      let len := d.esc_len + 1
      let hit (key : Int) : Int × Decoder × List (Option Nat) :=
        (key, { esc_buf := buf, esc_len := 0 }, inp1)
      if len ≥ 3 ∧ memcmp_eq buf [27, 91, 65] 3 then hit KEY_UP           -- "\033[A"
      else if len ≥ 3 ∧ memcmp_eq buf [27, 91, 66] 3 then hit KEY_DOWN    -- "\033[B"
      else if len ≥ 3 ∧ memcmp_eq buf [27, 91, 67] 3 then hit KEY_RIGHT   -- "\033[C"
      else if len ≥ 3 ∧ memcmp_eq buf [27, 91, 68] 3 then hit KEY_LEFT    -- "\033[D"
      else if len ≥ 3 ∧ memcmp_eq buf [27, 91, 72] 3 then hit KEY_HOME    -- "\033[H"
      else if len ≥ 3 ∧ memcmp_eq buf [27, 91, 70] 3 then hit KEY_END     -- "\033[F"
      else if len ≥ 3 ∧ memcmp_eq buf [27, 79, 72] 3 then hit KEY_HOME    -- "\033OH"
      else if len ≥ 3 ∧ memcmp_eq buf [27, 79, 70] 3 then hit KEY_END     -- "\033OF"
      else if len ≥ 4 ∧ memcmp_eq buf [27, 91, 51, 126] 4 then hit KEY_DELETE  -- "\033[3~"
      else if len ≥ 4 ∧ memcmp_eq buf [27, 91, 49, 126] 4 then hit KEY_HOME    -- "\033[1~"
      else if len ≥ 4 ∧ memcmp_eq buf [27, 91, 52, 126] 4 then hit KEY_END     -- "\033[4~"
      else if len = 1 then
        match read_byte inp1 with
        | (none, inp2) => (KEY_ESC, { esc_buf := buf, esc_len := 0 }, inp2)
        | (some c2, inp2) => esc_pending (buf.set len c2) (len + 1) inp2
      else esc_pending buf len inp1
    else
      let v := char_val char_signed c
      if v = 127 ∨ v = 8 then (KEY_BACKSPACE, d, inp1)
      else if v = 13 ∨ v = 10 then (KEY_ENTER, d, inp1)
      else if v ≥ 32 ∧ v < 127 then (v, d, inp1)
      else (KEY_NONE, d, inp1)

/-- Successive calls of `read_key`, `n` of them: the keys returned in order
(`KEY_NONE` included), the static variables and the outcomes left at the end. -/
def read_keys (char_signed : Bool) :
    Nat → Decoder → List (Option Nat) → List Int × Decoder × List (Option Nat)
  | 0, d, inp => ([], d, inp)
  | n + 1, d, inp =>
    let r := read_key char_signed d inp
    let rs := read_keys char_signed n r.2.1 r.2.2
    (r.1 :: rs.1, rs.2)

/-- The table of `read_key`: the byte sequences it compares the escape buffer
with, each with the key it returns, in the order of the source. -/
def esc_table : List (List Nat × Int) :=
  [ ([27, 91, 65], KEY_UP),          -- ESC [ A
    ([27, 91, 66], KEY_DOWN),        -- ESC [ B
    ([27, 91, 67], KEY_RIGHT),       -- ESC [ C
    ([27, 91, 68], KEY_LEFT),        -- ESC [ D
    ([27, 91, 72], KEY_HOME),        -- ESC [ H
    ([27, 91, 70], KEY_END),         -- ESC [ F
    ([27, 79, 72], KEY_HOME),        -- ESC O H
    ([27, 79, 70], KEY_END),         -- ESC O F
    ([27, 91, 51, 126], KEY_DELETE), -- ESC [ 3 ~
    ([27, 91, 49, 126], KEY_HOME),   -- ESC [ 1 ~
    ([27, 91, 52, 126], KEY_END) ]   -- ESC [ 4 ~

/-- The arrow key named by the final byte of an arrow sequence: `A` Up, `B` Down,
`C` Right, `D` Left. -/
def arrow_key (c : Nat) : Int :=
  if c = 65 then KEY_UP else if c = 66 then KEY_DOWN
  else if c = 67 then KEY_RIGHT else if c = 68 then KEY_LEFT else KEY_NONE

/-- The save commands of the command line: `w`, `w <path>`, `wq` and `x`. -/
def is_save_command (cmd : List Nat) : Prop :=
  cmd = str "w" ∨ cmd.take 2 = str "w " ∨ cmd = str "wq" ∨ cmd = str "x"

/-- A line that `load_file` reads back as it is: it holds no newline and no NUL
byte, does not end in a CR, and fits the buffer of `fgets` together with its
newline and the terminating NUL. -/
def plain_line (l : List Nat) : Prop :=
  (∀ b ∈ l, b ≠ 10 ∧ b ≠ 0) ∧ l.getLast? ≠ some 13 ∧ l.length + 2 ≤ MAX_LINE_LEN

/-- Trailing-newline normalization: a final newline is added to a content that
does not end with one. -/
def add_final_newline (content : List Nat) : List Nat :=
  if content.getLast? = some 10 then content else content ++ [10]

/-- The keys of the scenario: `i`, `h`, `i`, Esc, then `:` `w out.txt` Enter, then
`:` `q` Enter. -/
def scenario_keys : List Int :=
  [105, 104, 105, KEY_ESC, 58, 119, 32, 111, 117, 116, 46, 116, 120, 116, KEY_ENTER,
   58, 113, KEY_ENTER]

/-- A file system for the examples: every path holds the one line `a` and can
be written. -/
def fs_demo : FS := { fopen_r := fun _ => some [97, 10], fopen_w := fun _ => true }

/-- A file system in which every path holds the line `a` ended by CR and newline. -/
def fs_crlf : FS := { fopen_r := fun _ => some [97, 13, 10], fopen_w := fun _ => true }

/-- A file system in which every path holds one line of 1023 bytes `a`, ended by
a newline. -/
def fs_long : FS :=
  { fopen_r := fun _ => some (file_bytes [List.replicate 1023 97]), fopen_w := fun _ => true }

/-- The state in which `main` starts the loop on the file `f` of `fs_demo`. -/
def demo_start : Editor :=
  { editor_zero with
    lines := [[97]], running := 1, filepath := [102],
    status := snprintf_status (str "\"" ++ [102] ++ str "\" " ++ fmt_d 1 ++ str " lines"),
    screen_rows := 24, screen_cols := 80 }

/-- The per-mode clamp of the cursor: the row is on a line; in Insert mode the
column is between 0 and the length of the current line; in Normal and Command
mode it is between 0 and `max 0 (length - 1)`. -/
def cursor_in_clamp (E : Editor) : Prop :=
  0 ≤ E.cur_row ∧ E.cur_row < E.line_count ∧
  ((E.mode = MODE_INSERT ∧ 0 ≤ E.cur_col ∧ E.cur_col ≤ ((cur_line E).length : Int)) ∨
   ((E.mode = MODE_NORMAL ∨ E.mode = MODE_COMMAND) ∧
      0 ≤ E.cur_col ∧ E.cur_col ≤ max 0 (((cur_line E).length : Int) - 1)))

/-- A modified state in Command mode whose command line holds `w`. -/
def demo_unsaved : Editor :=
  { demo_start with modified := 1, mode := MODE_COMMAND, cmd_buf := str "w", cmd_len := 1 }

/-- The commands `exec_command` recognises, on the command line without its
leading spaces: `q`, `q!`, `w`, `w` and a space followed by a path, `wq`, `x`. -/
def is_recognised_command (cmd : List Nat) : Prop :=
  cmd = str "q" ∨ cmd = str "q!" ∨ cmd = str "w" ∨ cmd.take 2 = str "w " ∨
  cmd = str "wq" ∨ cmd = str "x"

instance (cmd : List Nat) : Decidable (is_recognised_command cmd) := by
  unfold is_recognised_command; infer_instance

/-! ## Output buffering -/

/-- Size of `s_out_buf`. -/
abbrev OUT_BUF_SIZE : Nat := 8192

/-- The escape code `ESC_HOME`. -/
def ESC_HOME : List Nat := 27 :: str "[H"
/-- The escape code `ESC_CURSOR_HIDE`. -/
def ESC_CURSOR_HIDE : List Nat := 27 :: str "[?25l"
/-- The escape code `ESC_CURSOR_SHOW`. -/
def ESC_CURSOR_SHOW : List Nat := 27 :: str "[?25h"
/-- The escape code `ESC_RESET`. -/
def ESC_RESET : List Nat := 27 :: str "[0m"
/-- The escape code `ESC_REVERSE`. -/
def ESC_REVERSE : List Nat := 27 :: str "[7m"

/-- The output of the program: the bytes handed to `write` so far, in order,
and the bytes waiting in `s_out_buf`, whose number is `s_out_pos`. -/
structure Out where
  sent : List Nat
  buf : List Nat
  deriving DecidableEq, Repr

/-- All bytes put out so far, written or still waiting, in order. -/
def Out.emitted (o : Out) : List Nat := o.sent ++ o.buf

/-- Source `out_flush`. -/
def out_flush (o : Out) : Out :=
  if o.buf.length > 0 then { sent := o.sent ++ o.buf, buf := [] } else o

/-- Source `out_str`. -/
def out_str (s : List Nat) (o : Out) : Out :=
  let len := s.length
  let o1 := if o.buf.length + len ≥ OUT_BUF_SIZE then out_flush o else o
  if len < OUT_BUF_SIZE then { o1 with buf := o1.buf ++ s }
  else
    let o2 := out_flush o1
    { o2 with sent := o2.sent ++ s }

/-- Source `out_char`. -/
def out_char (c : Nat) (o : Out) : Out :=
  let o1 := if o.buf.length ≥ OUT_BUF_SIZE - 1 then out_flush o else o
  { o1 with buf := o1.buf ++ [c] }

/-- Source `out_int`: the decimal text always fits `char buf[16]`. -/
def out_int (n : Int) (o : Out) : Out := out_str (fmt_d n) o

/-- Source `out_goto`. -/
def out_goto (row col : Int) (o : Out) : Out :=
  out_char 72 (out_int (col + 1) (out_char 59 (out_int (row + 1) (out_str [27, 91] o))))

/-- A loop whose body is one call of `out_char`: the characters put out, in
order. -/
def out_chars (cs : List Nat) (o : Out) : Out := cs.foldl (fun a c => out_char c a) o

/-- The bytes that `out_goto(row, col)` puts out: the cursor-positioning
sequence `ESC [ row+1 ; col+1 H`. -/
def goto_text (row col : Int) : List Nat :=
  [27, 91] ++ fmt_d (row + 1) ++ [59] ++ fmt_d (col + 1) ++ [72]

/-! ## Drawing -/

/-- The body of the loop over the text rows in `draw_screen`, for the screen
row `y`.  The state is the one after `adjust_viewport`, in which `top_line` and
`left_col` are not negative. -/
def draw_text_row (E : Editor) (y : Int) (o : Out) : Out :=
  let text_cols := E.screen_cols
  let file_row := E.top_line + y
  let o1 := out_goto y 0 o
  if file_row < E.line_count then
    let line := E.lines.getD file_row.toNat []
    let len : Int := line.length
    let start := E.left_col
    if start < len then
      let chars := if len - start > text_cols then text_cols else len - start
      let o2 := out_chars
        ((List.range chars.toNat).map
          (fun (i : Nat) => line.getD (start + (i : Int)).toNat 0)) o1
      out_chars (List.replicate (text_cols - chars).toNat 32) o2
    else out_chars (List.replicate text_cols.toNat 32) o1
  else
    out_chars (List.replicate (text_cols - 1).toNat 32) (out_char 126 o1)

/-- The loop `for (int y = 0; y < text_rows; y++)` of `draw_screen`. -/
def draw_text_rows (E : Editor) (o : Out) : Out :=
  (List.range (E.screen_rows - 1).toNat).foldl
    (fun (a : Out) (y : Nat) => draw_text_row E (y : Int) a) o

/-- The text `status_left` of `draw_screen`, cut to the 127 bytes that fit
`char status_left[128]`. -/
def status_left (E : Editor) : List Nat :=
  let mode_str :=
    if E.mode = MODE_INSERT then str "-- INSERT --"
    else if E.mode = MODE_COMMAND then str ":" else []
  let text :=
    if E.mode = MODE_COMMAND then str ":" ++ E.cmd_buf
    else if E.status ≠ [] then E.status
    else
      mode_str ++ str " " ++ (if E.filepath ≠ [] then E.filepath else str "[No Name]")
        ++ (if E.modified ≠ 0 then str " [+]" else [])
  text.take 127

/-- The text `status_right` of `draw_screen`: row and column, counted from 1. -/
def status_right (E : Editor) : List Nat :=
  (fmt_d (E.cur_row + 1) ++ str "," ++ fmt_d (E.cur_col + 1)).take 63

/-- One of the loops `for (i = 0; i < len && pos < status_width; i++, pos++)`
of `draw_screen` over the text `s`: the new `pos` and the output. -/
def out_upto (s : List Nat) (pos width : Int) (o : Out) : Int × Out :=
  let cs := s.take (width - pos).toNat
  (pos + (cs.length : Int), out_chars cs o)

/-- The status line of `draw_screen`, from `out_goto(E.screen_rows - 1, 0)` to
`out_str(ESC_RESET)`. -/
def draw_status (E : Editor) (o : Out) : Out :=
  let o1 := out_str ESC_REVERSE (out_goto (E.screen_rows - 1) 0 o)
  let left_len : Int := (status_left E).length
  let right_len : Int := (status_right E).length
  let status_width := E.screen_cols - 1
  let padding :=
    if status_width - left_len - right_len < 0 then 0
    else status_width - left_len - right_len
  let r1 := out_upto (status_left E) 0 status_width o1
  let r2 := out_upto (List.replicate padding.toNat 32) r1.1 status_width r1.2
  let r3 := out_upto (status_right E) r2.1 status_width r2.2
  out_str ESC_RESET r3.2

/-- Source `draw_screen`: the state with the viewport adjusted, and the output. -/
def draw_screen (E : Editor) (o : Out) : Editor × Out :=
  let E1 := adjust_viewport E
  let o1 := out_str ESC_CURSOR_HIDE (out_str ESC_HOME o)
  let o2 := draw_text_rows E1 o1
  let o3 := draw_status E1 o2
  let o4 := out_goto (E1.cur_row - E1.top_line) (E1.cur_col - E1.left_col) o3
  (E1, out_flush (out_str ESC_CURSOR_SHOW o4))

/-- The output before any byte is put out. -/
def out_empty : Out := { sent := [], buf := [] }

/-- The characters of a text row as the specification words them: for a row on
a Document line, the bytes of the line from `left_col` on, cut to `screen_cols`
and padded with spaces to `screen_cols`; for a row beyond the last line, `~`
followed by spaces. -/
def text_row_spec (E : Editor) (y : Int) : List Nat :=
  if E.top_line + y < E.line_count then
    ((E.lines.getD (E.top_line + y).toNat []).drop E.left_col.toNat).take E.screen_cols.toNat
      ++ List.replicate
           (E.screen_cols.toNat
             - (((E.lines.getD (E.top_line + y).toNat []).drop E.left_col.toNat).take
                 E.screen_cols.toNat).length) 32
  else 126 :: List.replicate (E.screen_cols.toNat - 1) 32

/-! ## Accesses to the line buffer -/

/-- What an operation does with an index it is handed: `line idx count` is a
read or write of `E.lines[idx]` while `E.line_count` is `count`; `insert idx
count` is a call `insert_line_at(idx, ..)` while `E.line_count` is `count`;
`offset off len` is the use of the byte offset `off` in a line of length `len`;
`refused` is the early return of a range check (`line_len`, `delete_line_at`,
`delete_char_at`), after which the operation does nothing. -/
inductive Access where
  | line (idx count : Int)
  | insert (idx count : Int)
  | offset (off len : Int)
  | refused
  deriving DecidableEq, Repr

/-- An access within its range: a line index in `[0, line_count)`, an insert
index in `[0, line_count]`, a byte offset in `[0, len]`, the terminating NUL
being at `len`.  A refused call is none of these. -/
def Access.in_range : Access → Prop
  | Access.line idx count => 0 ≤ idx ∧ idx < count
  | Access.insert idx count => 0 ≤ idx ∧ idx ≤ count
  | Access.offset off len => 0 ≤ off ∧ off ≤ len
  | Access.refused => False

instance (a : Access) : Decidable a.in_range := by
  cases a <;> unfold Access.in_range <;> infer_instance

/-- Accesses of `line_len(row)`. -/
def line_len_log (row : Int) (E : Editor) : List Access :=
  if row < 0 ∨ row ≥ E.line_count then [Access.refused]
  else [Access.line row E.line_count]

/-- Accesses of `insert_line_at(idx, text)`, which has no range check. -/
def insert_line_at_log (idx : Int) (E : Editor) : List Access :=
  [Access.insert idx E.line_count]

/-- Accesses of `delete_line_at(idx)`. -/
def delete_line_at_log (idx : Int) (E : Editor) : List Access :=
  if idx < 0 ∨ idx ≥ E.line_count then [Access.refused]
  else
    let E1 := { E with lines := E.lines.eraseIdx idx.toNat }
    [Access.line idx E.line_count]
      ++ (if E1.line_count = 0 then insert_line_at_log 0 E1 else [])

/-- Accesses of `clamp_cursor`: the call `line_len(E.cur_row)` on the clamped
row. -/
def clamp_cursor_log (E : Editor) : List Access :=
  line_len_log (clamp_cursor E).cur_row E

/-- Accesses of `move_up`. -/
def move_up_log (E : Editor) : List Access :=
  clamp_cursor_log (if E.cur_row > 0 then { E with cur_row := E.cur_row - 1 } else E)

/-- Accesses of `move_down`. -/
def move_down_log (E : Editor) : List Access :=
  clamp_cursor_log
    (if E.cur_row < E.line_count - 1 then { E with cur_row := E.cur_row + 1 } else E)

/-- Accesses of `move_left`. -/
def move_left_log (E : Editor) : List Access :=
  clamp_cursor_log (if E.cur_col > 0 then { E with cur_col := E.cur_col - 1 } else E)

/-- Accesses of `move_right`. -/
def move_right_log (E : Editor) : List Access :=
  clamp_cursor_log { E with cur_col := E.cur_col + 1 }

/-- Accesses of `insert_char`: the line `E.lines[E.cur_row]`, copied up to the
offset `E.cur_col` and from it on. -/
def insert_char_log (E : Editor) : List Access :=
  [Access.line E.cur_row E.line_count, Access.offset E.cur_col ((cur_line E).length : Int)]

/-- Accesses of `delete_char_at(col)`: the line `E.lines[E.cur_row]`, then the
range check, then the move of the bytes from `col + 1` to `col`. -/
def delete_char_at_log (col : Int) (E : Editor) : List Access :=
  let len : Int := (cur_line E).length
  [Access.line E.cur_row E.line_count]
    ++ (if col < 0 ∨ col ≥ len then [Access.refused]
        else [Access.offset col len, Access.offset (col + 1) len])

/-- Accesses of `backspace_char`. -/
def backspace_char_log (E : Editor) : List Access :=
  if E.cur_col > 0 then
    let E1 := { E with cur_col := E.cur_col - 1 }
    delete_char_at_log E1.cur_col E1
  else if E.cur_row > 0 then
    let prev := E.lines.getD (E.cur_row - 1).toNat []
    let curr := E.lines.getD E.cur_row.toNat []
    let E1 := { E with lines := E.lines.set (E.cur_row - 1).toNat (prev ++ curr) }
    line_len_log (E.cur_row - 1) E
      ++ [Access.line (E.cur_row - 1) E.line_count, Access.line E.cur_row E.line_count]
      ++ delete_line_at_log E1.cur_row E1
  else []

/-- Accesses of `insert_newline`. -/
def insert_newline_log (E : Editor) : List Access :=
  let line := cur_line E
  let E1 := { E with lines := E.lines.set E.cur_row.toNat (line.take E.cur_col.toNat) }
  [Access.line E.cur_row E.line_count, Access.offset E.cur_col (line.length : Int)]
    ++ insert_line_at_log (E1.cur_row + 1) E1

/-- Accesses of the `switch (key)` of `handle_normal`, case by case. -/
def handle_normal_switch_log (key : Int) (E : Editor) : List Access :=
  if key = 104 ∨ key = KEY_LEFT then move_left_log E
  else if key = 106 ∨ key = KEY_DOWN then move_down_log E
  else if key = 107 ∨ key = KEY_UP then move_up_log E
  else if key = 108 ∨ key = KEY_RIGHT then move_right_log E
  else if key = 48 ∨ key = KEY_HOME then []
  else if key = 36 ∨ key = KEY_END then
    line_len_log E.cur_row E ++ clamp_cursor_log { E with cur_col := line_len E.cur_row E }
  else if key = 105 then []
  else if key = 97 then clamp_cursor_log { E with cur_col := E.cur_col + 1 }
  else if key = 65 then line_len_log E.cur_row E
  else if key = 111 then insert_line_at_log (E.cur_row + 1) E
  else if key = 79 then insert_line_at_log E.cur_row E
  else if key = 120 then
    line_len_log E.cur_row E
      ++ (if line_len E.cur_row E > 0 then
            delete_char_at_log E.cur_col E ++ clamp_cursor_log (delete_char_at E.cur_col E)
          else [])
  else if key = 100 then
    delete_line_at_log E.cur_row E ++ clamp_cursor_log (delete_line_at E.cur_row E)
  else if key = 58 then []
  else if key = 71 then clamp_cursor_log { E with cur_row := E.line_count - 1 }
  else if key = 103 then []
  else []

/-- Accesses of `handle_normal`. -/
def handle_normal_log (key : Int) (E : Editor) : List Access :=
  handle_normal_switch_log key { E with status := [] }

/-- Accesses of `handle_insert`, case by case. -/
def handle_insert_log (key : Int) (E : Editor) : List Access :=
  if key = KEY_ESC then
    let E1 := { E with mode := MODE_NORMAL }
    clamp_cursor_log (if E1.cur_col > 0 then { E1 with cur_col := E1.cur_col - 1 } else E1)
  else if key = KEY_UP then move_up_log E
  else if key = KEY_DOWN then move_down_log E
  else if key = KEY_LEFT then move_left_log E
  else if key = KEY_RIGHT then move_right_log E
  else if key = KEY_BACKSPACE then backspace_char_log E
  else if key = KEY_DELETE then delete_char_at_log E.cur_col E
  else if key = KEY_ENTER then insert_newline_log E
  else if key = KEY_HOME then []
  else if key = KEY_END then line_len_log E.cur_row E
  else if key ≥ 32 ∧ key < 127 then insert_char_log E
  else []

/-- Accesses of `save_file`: the loop over `E.lines[i]` for `i` below
`E.line_count`, reached when the file is open. -/
def save_file_log (fs : FS) (path : Option (List Nat)) (E : Editor) : List Access :=
  let p := save_target path E
  if p = [] then []
  else if fs.fopen_w p = false then []
  else (List.range E.lines.length).map (fun (i : Nat) => Access.line (i : Int) E.line_count)

/-- Accesses of `exec_command`: those of the `save_file` call it makes. -/
def exec_command_log (fs : FS) (E : Editor) : List Access :=
  let cmd := skip_spaces E.cmd_buf
  if cmd = str "q" then []
  else if cmd = str "q!" then []
  else if cmd = str "w" then save_file_log fs none E
  else if cmd.take 2 = str "w " then save_file_log fs (some (cmd.drop 2)) E
  else if cmd = str "wq" ∨ cmd = str "x" then save_file_log fs none E
  else []

/-- Accesses of `handle_command`: only Enter reaches the lines, through
`exec_command`. -/
def handle_command_log (fs : FS) (key : Int) (E : Editor) : List Access :=
  if key = KEY_ESC then []
  else if key = KEY_ENTER then exec_command_log fs E
  else []

/-- Accesses made while the main loop handles a key. -/
def dispatch_key_log (fs : FS) (key : Int) (E : Editor) : List Access :=
  if E.mode = MODE_NORMAL then handle_normal_log key E
  else if E.mode = MODE_INSERT then handle_insert_log key E
  else if E.mode = MODE_COMMAND then handle_command_log fs key E
  else []

/-! ## Invariant of the session states -/

/-- What every session state satisfies: at least one line, the cursor row on a
line, the mode one of the three, the column within the clamp of the mode, and
`cmd_len` the length of the command string. -/
structure Inv (E : Editor) : Prop where
  lines_ne : 1 ≤ E.line_count
  row_lo : 0 ≤ E.cur_row
  row_hi : E.cur_row < E.line_count
  mode_ok : E.mode = MODE_NORMAL ∨ E.mode = MODE_INSERT ∨ E.mode = MODE_COMMAND
  col_lo : 0 ≤ E.cur_col
  col_ins : E.mode = MODE_INSERT → E.cur_col ≤ ((cur_line E).length : Int)
  col_nor : E.mode ≠ MODE_INSERT → E.cur_col ≤ max 0 (((cur_line E).length : Int) - 1)
  cmd_ok : E.cmd_len = (E.cmd_buf.length : Int)

/-! ## Lemmas on the line buffer and the cursor -/

theorem line_len_eq (E : Editor) (row : Int) (h0 : 0 ≤ row) (h1 : row < E.line_count) :
    line_len row E = ((E.lines.getD row.toNat []).length : Int) := by
  unfold line_len
  rw [if_neg]
  omega

theorem clamp_cursor_row (E : Editor) (h1 : 1 ≤ E.line_count) :
    (clamp_cursor E).cur_row = max 0 (min E.cur_row (E.line_count - 1)) := by
  simp only [clamp_cursor]
  split_ifs <;> omega

theorem clamp_cursor_col (E : Editor) (h1 : 1 ≤ E.line_count) :
    (clamp_cursor E).cur_col =
      if E.mode = MODE_INSERT then
        max 0 (min E.cur_col ((cur_line (clamp_cursor E)).length : Int))
      else max 0 (min E.cur_col (((cur_line (clamp_cursor E)).length : Int) - 1)) := by
  have hr := clamp_cursor_row E h1
  have hl : line_len (clamp_cursor E).cur_row E
      = ((cur_line (clamp_cursor E)).length : Int) :=
    line_len_eq E _ (by omega) (by omega)
  have hc : (clamp_cursor E).cur_col =
      (let len := line_len (clamp_cursor E).cur_row E
       let c1 :=
        if E.mode = MODE_INSERT then
          (if E.cur_col > len then len else E.cur_col)
        else
          (if len = 0 then 0 else if E.cur_col ≥ len then len - 1 else E.cur_col)
       if c1 < 0 then 0 else c1) := rfl
  rw [hc, hl]
  simp only []
  split_ifs <;> omega

theorem clamp_cursor_inv (E : Editor) (h1 : 1 ≤ E.line_count)
    (hm : E.mode = MODE_NORMAL ∨ E.mode = MODE_INSERT ∨ E.mode = MODE_COMMAND)
    (hc : E.cmd_len = (E.cmd_buf.length : Int)) : Inv (clamp_cursor E) := by
  have hr := clamp_cursor_row E h1
  have hcol := clamp_cursor_col E h1
  have hlines : (clamp_cursor E).line_count = E.line_count := rfl
  have hmode : (clamp_cursor E).mode = E.mode := rfl
  constructor
  · rw [hlines]; exact h1
  · omega
  · rw [hlines]; omega
  · exact hm
  · rw [hcol]; split_ifs <;> omega
  · intro h; rw [hmode] at h; rw [hcol, if_pos h]; omega
  · intro h; rw [hmode] at h; rw [hcol, if_neg h]; omega
  · exact hc

theorem Inv.of_same {E E2 : Editor} (h : Inv E) (hl : E2.lines = E.lines)
    (hr : E2.cur_row = E.cur_row) (hc : E2.cur_col = E.cur_col) (hm : E2.mode = E.mode)
    (hb : E2.cmd_buf = E.cmd_buf) (hn : E2.cmd_len = E.cmd_len) : Inv E2 := by
  obtain ⟨a1, a2, a3, a4, a5, a6, a7, a8⟩ := h
  constructor <;> simp only [cur_line, Editor.line_count, hl, hr, hc, hm, hb, hn] at * <;>
    assumption

theorem getD_set_self (l : List (List Nat)) (i : Nat) (x d : List Nat) (h : i < l.length) :
    (l.set i x).getD i d = x := by
  simp [List.getD_eq_getElem?_getD, h]

theorem insert_line_at_count (idx : Int) (text : List Nat) (E : Editor) :
    (insert_line_at idx text E).line_count = E.line_count + 1 := by
  have h := congrArg List.length (List.take_append_drop idx.toNat E.lines)
  rw [List.length_append] at h
  simp only [insert_line_at, Editor.line_count, List.length_append, List.length_cons,
    List.length_nil]
  omega

theorem delete_line_at_count (idx : Int) (E : Editor) (h : 1 ≤ E.line_count) :
    1 ≤ (delete_line_at idx E).line_count := by
  unfold delete_line_at
  simp only [Editor.line_count, insert_line_at] at *
  split_ifs with h1 h2
  · exact h
  · simp
  · dsimp only at h2 ⊢
    omega

theorem delete_char_at_fields (col : Int) (E : Editor) :
    (delete_char_at col E).line_count = E.line_count ∧
    (delete_char_at col E).cur_row = E.cur_row ∧
    (delete_char_at col E).cur_col = E.cur_col ∧
    (delete_char_at col E).mode = E.mode ∧
    (delete_char_at col E).cmd_buf = E.cmd_buf ∧
    (delete_char_at col E).cmd_len = E.cmd_len := by
  unfold delete_char_at
  simp only [Editor.line_count]
  split_ifs <;> simp

theorem delete_line_at_fields (idx : Int) (E : Editor) :
    (delete_line_at idx E).cur_row = E.cur_row ∧
    (delete_line_at idx E).cur_col = E.cur_col ∧
    (delete_line_at idx E).mode = E.mode ∧
    (delete_line_at idx E).cmd_buf = E.cmd_buf ∧
    (delete_line_at idx E).cmd_len = E.cmd_len := by
  unfold delete_line_at insert_line_at
  simp only [Editor.line_count]
  split_ifs <;> simp


theorem ite_cases {P : Editor → Prop} {c : Prop} [Decidable c] {a b : Editor}
    (ha : c → P a) (hb : ¬c → P b) : P (if c then a else b) := by
  split_ifs with h
  · exact ha h
  · exact hb h

theorem handle_normal_switch_inv (key : Int) (E : Editor) (h : Inv E)
    (hm : E.mode = MODE_NORMAL) : Inv (handle_normal_switch key E) := by
  obtain ⟨a1, a2, a3, a4, a5, a6, a7, a8⟩ := h
  have a7 := a7 (by rw [hm]; decide)
  have hlen : line_len E.cur_row E = ((cur_line E).length : Int) := line_len_eq E _ a2 a3
  unfold handle_normal_switch
  refine ite_cases (P := Inv) (fun _ => ?_) (fun _ => ?_)
  · -- h
    unfold move_left
    apply clamp_cursor_inv
    · split_ifs <;> exact a1
    · split_ifs <;> exact a4
    · split_ifs <;> exact a8
  refine ite_cases (P := Inv) (fun _ => ?_) (fun _ => ?_)
  · unfold move_down
    apply clamp_cursor_inv
    · split_ifs <;> exact a1
    · split_ifs <;> exact a4
    · split_ifs <;> exact a8
  refine ite_cases (P := Inv) (fun _ => ?_) (fun _ => ?_)
  · unfold move_up
    apply clamp_cursor_inv
    · split_ifs <;> exact a1
    · split_ifs <;> exact a4
    · split_ifs <;> exact a8
  refine ite_cases (P := Inv) (fun _ => ?_) (fun _ => ?_)
  · unfold move_right
    exact clamp_cursor_inv _ a1 a4 a8
  refine ite_cases (P := Inv) (fun _ => ?_) (fun _ => ?_)
  · -- 0
    constructor <;> simp only [cur_line, Editor.line_count] at * <;>
      first | assumption | omega | (intros; omega)
  refine ite_cases (P := Inv) (fun _ => ?_) (fun _ => ?_)
  · -- $
    exact clamp_cursor_inv _ a1 a4 a8
  refine ite_cases (P := Inv) (fun _ => ?_) (fun _ => ?_)
  · -- i
    constructor <;> simp only [cur_line, Editor.line_count] at * <;>
      first | assumption | omega | (intros; omega) | simp
  refine ite_cases (P := Inv) (fun _ => ?_) (fun _ => ?_)
  · -- a
    have hc := clamp_cursor_inv { E with cur_col := E.cur_col + 1 } a1 a4 a8
    obtain ⟨b1, b2, b3, b4, b5, b6, b7, b8⟩ := hc
    have hmm : (clamp_cursor { E with cur_col := E.cur_col + 1 }).mode = MODE_NORMAL := hm
    have b7 := b7 (by rw [hmm]; decide)
    constructor <;> simp only [cur_line, Editor.line_count] at * <;>
      first | assumption | omega | (intros; omega) | simp
  refine ite_cases (P := Inv) (fun _ => ?_) (fun _ => ?_)
  · -- A
    rw [hlen]
    constructor <;> simp only [cur_line, Editor.line_count] at * <;>
      first | assumption | omega | (intros; omega) | simp
  refine ite_cases (P := Inv) (fun _ => ?_) (fun _ => ?_)
  · -- o
    have hc := insert_line_at_count (E.cur_row + 1) [] E
    have hr : (insert_line_at (E.cur_row + 1) [] E).cur_row = E.cur_row := rfl
    have hb : (insert_line_at (E.cur_row + 1) [] E).cmd_buf = E.cmd_buf := rfl
    have hn : (insert_line_at (E.cur_row + 1) [] E).cmd_len = E.cmd_len := rfl
    constructor <;> dsimp only <;> (try simp only [hc, hr, hb, hn]) <;>
      simp only [Editor.line_count] at * <;>
      first | assumption | omega | (intros; omega) | simp
  refine ite_cases (P := Inv) (fun _ => ?_) (fun _ => ?_)
  · -- O
    have hc := insert_line_at_count E.cur_row [] E
    have hr : (insert_line_at E.cur_row [] E).cur_row = E.cur_row := rfl
    have hb : (insert_line_at E.cur_row [] E).cmd_buf = E.cmd_buf := rfl
    have hn : (insert_line_at E.cur_row [] E).cmd_len = E.cmd_len := rfl
    constructor <;> dsimp only <;> (try simp only [hc, hr, hb, hn]) <;>
      simp only [Editor.line_count] at * <;>
      first | assumption | omega | (intros; omega) | simp
  refine ite_cases (P := Inv) (fun _ => ?_) (fun _ => ?_)
  · -- x
    refine ite_cases (P := Inv) (fun _ => ?_) (fun _ => ?_)
    · obtain ⟨c1, c2, c3, c4, c5, c6⟩ := delete_char_at_fields E.cur_col E
      exact clamp_cursor_inv _ (by rw [c1]; exact a1) (by rw [c4]; exact a4)
        (by rw [c6, c5]; exact a8)
    · constructor <;> first | assumption | (intro; assumption)
  refine ite_cases (P := Inv) (fun _ => ?_) (fun _ => ?_)
  · -- d
    obtain ⟨c2, c3, c4, c5, c6⟩ := delete_line_at_fields E.cur_row E
    exact clamp_cursor_inv _ (delete_line_at_count _ _ a1) (by rw [c4]; exact a4)
        (by rw [c6, c5]; exact a8)
  refine ite_cases (P := Inv) (fun _ => ?_) (fun _ => ?_)
  · -- :
    constructor <;> simp only [cur_line, Editor.line_count] at * <;>
      first | assumption | omega | (intros; omega) | simp
  refine ite_cases (P := Inv) (fun _ => ?_) (fun _ => ?_)
  · -- G
    exact clamp_cursor_inv _ a1 a4 a8
  refine ite_cases (P := Inv) (fun _ => ?_) (fun _ => ?_)
  · -- g
    constructor <;> simp only [cur_line, Editor.line_count] at * <;>
      first | assumption | omega | (intros; omega) | simp
  · constructor <;> first | assumption | (intro; assumption)

theorem handle_normal_inv (key : Int) (E : Editor) (h : Inv E) (hm : E.mode = MODE_NORMAL) :
    Inv (handle_normal key E) :=
  handle_normal_switch_inv key _ (h.of_same rfl rfl rfl rfl rfl rfl) hm

theorem delete_char_at_inv (c : Int) (E : Editor) (h1 : 1 ≤ E.line_count)
    (h2 : 0 ≤ E.cur_row) (h3 : E.cur_row < E.line_count) (hm : E.mode = MODE_INSERT)
    (h5 : 0 ≤ E.cur_col) (h6 : E.cur_col ≤ ((cur_line E).length : Int))
    (h7 : E.cur_col ≤ c) (h8 : E.cmd_len = (E.cmd_buf.length : Int)) :
    Inv (delete_char_at c E) := by
  unfold delete_char_at
  dsimp only
  split_ifs with hc
  · constructor <;>
      first | assumption | (right; left; assumption) | (intro; assumption)
            | (intro hne; exact absurd hm hne)
  · have hr : E.cur_row.toNat < E.lines.length := by
      simp only [Editor.line_count] at h3; omega
    have hline : cur_line { E with
        lines := E.lines.set E.cur_row.toNat ((cur_line E).eraseIdx c.toNat), modified := 1 }
        = (cur_line E).eraseIdx c.toNat := getD_set_self _ _ _ _ hr
    have hlen : ((cur_line E).eraseIdx c.toNat).length = (cur_line E).length - 1 := by
      rw [List.length_eraseIdx, if_pos (by omega)]
    constructor
    · simp only [Editor.line_count, List.length_set] at *; exact h1
    · exact h2
    · simp only [Editor.line_count, List.length_set] at *; exact h3
    · right; left; exact hm
    · exact h5
    · intro _
      rw [hline, hlen]
      dsimp only
      omega
    · intro hne; exact absurd hm hne
    · exact h8

theorem insert_char_inv (c : Nat) (E : Editor) (h : Inv E) (hm : E.mode = MODE_INSERT) :
    Inv (insert_char c E) := by
  obtain ⟨a1, a2, a3, a4, a5, a6, a7, a8⟩ := h
  have a6 := a6 hm
  unfold insert_char
  dsimp only
  have hr : E.cur_row.toNat < E.lines.length := by
    simp only [Editor.line_count] at a3; omega
  have hline : cur_line { E with
      lines := E.lines.set E.cur_row.toNat
        ((cur_line E).take E.cur_col.toNat ++ [c] ++ (cur_line E).drop E.cur_col.toNat),
      cur_col := E.cur_col + 1, modified := 1 }
      = (cur_line E).take E.cur_col.toNat ++ [c] ++ (cur_line E).drop E.cur_col.toNat :=
    getD_set_self _ _ _ _ hr
  have hlen : ((cur_line E).take E.cur_col.toNat ++ [c]
      ++ (cur_line E).drop E.cur_col.toNat).length = (cur_line E).length + 1 := by
    have h := congrArg List.length (List.take_append_drop E.cur_col.toNat (cur_line E))
    rw [List.length_append] at h
    simp only [List.length_append, List.length_cons, List.length_nil]
    omega
  constructor
  · simp only [Editor.line_count, List.length_set] at *; exact a1
  · exact a2
  · simp only [Editor.line_count, List.length_set] at *; exact a3
  · right; left; exact hm
  · dsimp only; omega
  · intro _
    rw [hline, hlen]
    dsimp only
    omega
  · intro hne; exact absurd hm hne
  · exact a8

theorem insert_newline_inv (E : Editor) (h : Inv E) (hm : E.mode = MODE_INSERT) :
    Inv (insert_newline E) := by
  obtain ⟨a1, a2, a3, a4, a5, a6, a7, a8⟩ := h
  unfold insert_newline
  dsimp only
  have hc := insert_line_at_count (E.cur_row + 1) ((cur_line E).drop E.cur_col.toNat)
    { E with lines := E.lines.set E.cur_row.toNat ((cur_line E).take E.cur_col.toNat) }
  have hcount : ({ E with
      lines := E.lines.set E.cur_row.toNat ((cur_line E).take E.cur_col.toNat) }
      : Editor).line_count = E.line_count := by
    simp only [Editor.line_count, List.length_set]
  rw [hcount] at hc
  constructor
  · show 1 ≤ (insert_line_at _ _ _).line_count
    rw [hc]; omega
  · show 0 ≤ E.cur_row + 1
    omega
  · show E.cur_row + 1 < (insert_line_at _ _ _).line_count
    rw [hc]; omega
  · right; left; exact hm
  · exact le_refl 0
  · intro _; dsimp only; omega
  · intro hne; exact absurd hm hne
  · exact a8

theorem delete_line_at_lines (idx : Int) (E : Editor) (h0 : 0 ≤ idx)
    (h1 : idx < E.line_count) (h2 : 2 ≤ E.line_count) :
    (delete_line_at idx E).lines = E.lines.eraseIdx idx.toNat := by
  unfold delete_line_at
  rw [if_neg (by omega)]
  dsimp only
  rw [if_neg]
  simp only [Editor.line_count] at *
  rw [List.length_eraseIdx, if_pos (by omega)]
  omega

theorem getD_eraseIdx_set (l : List (List Nat)) (i : Nat) (x : List Nat)
    (h : i + 1 < l.length) : ((l.set i x).eraseIdx (i + 1)).getD i [] = x := by
  rw [List.getD_eq_getElem?_getD, List.getElem?_eraseIdx]
  simp only [lt_add_iff_pos_right, zero_lt_one, if_true]
  rw [List.getElem?_set_self (by omega)]
  rfl

theorem backspace_char_inv (E : Editor) (h : Inv E) (hm : E.mode = MODE_INSERT) :
    Inv (backspace_char E) := by
  obtain ⟨a1, a2, a3, a4, a5, a6, a7, a8⟩ := h
  have a6 := a6 hm
  unfold backspace_char
  refine ite_cases (P := Inv) (fun hc => ?_) (fun hc => ?_)
  · exact delete_char_at_inv _ _ a1 a2 a3 hm (by dsimp only; omega)
      (by show E.cur_col - 1 ≤ ((cur_line E).length : Int); omega) (le_refl _) a8
  refine ite_cases (P := Inv) (fun hr => ?_) (fun hr => ?_)
  · dsimp only
    have hcnt : 2 ≤ E.line_count := by omega
    generalize hE1 : ({ E with
        lines := E.lines.set (E.cur_row - 1).toNat
          (E.lines.getD (E.cur_row - 1).toNat [] ++ E.lines.getD E.cur_row.toNat []) }
        : Editor) = E1
    have hE1l : E1.lines = E.lines.set (E.cur_row - 1).toNat
        (E.lines.getD (E.cur_row - 1).toNat [] ++ E.lines.getD E.cur_row.toNat []) := by
      rw [← hE1]
    have hE1r : E1.cur_row = E.cur_row := by rw [← hE1]
    have hE1m : E1.mode = E.mode := by rw [← hE1]
    have hE1b : E1.cmd_buf = E.cmd_buf := by rw [← hE1]
    have hE1n : E1.cmd_len = E.cmd_len := by rw [← hE1]
    have hcnt1 : E1.line_count = E.line_count := by
      simp only [Editor.line_count, hE1l, List.length_set]
    obtain ⟨c2, c3, c4, c5, c6⟩ := delete_line_at_fields E.cur_row E1
    have hl := delete_line_at_lines E.cur_row E1
      a2 (by rw [hcnt1]; exact a3) (by rw [hcnt1]; exact hcnt)
    rw [hE1l] at hl
    have hplen : line_len (E.cur_row - 1) E
        = ((E.lines.getD (E.cur_row - 1).toNat []).length : Int) :=
      line_len_eq E _ (by omega) (by omega)
    simp only [Editor.line_count] at a1 a3 hcnt
    have e1 : E.cur_row.toNat = (E.cur_row - 1).toNat + 1 := by omega
    have e2 : (E.cur_row - 1).toNat + 1 < E.lines.length := by omega
    have hcount : ((E.lines.set (E.cur_row - 1).toNat
        (E.lines.getD (E.cur_row - 1).toNat [] ++ E.lines.getD E.cur_row.toNat [])).eraseIdx
          E.cur_row.toNat).length = E.lines.length - 1 := by
      rw [List.length_eraseIdx, List.length_set, if_pos (by omega)]
    constructor
    · simp only [Editor.line_count, hl, hcount]
      omega
    · dsimp only; rw [c2, hE1r]; omega
    · simp only [Editor.line_count, hl, hcount]
      rw [c2, hE1r]; omega
    · dsimp only; rw [c4, hE1m]; exact a4
    · dsimp only; rw [hplen]; omega
    · intro _
      simp only [cur_line, hl, c2, hE1r, hplen]
      rw [e1, getD_eraseIdx_set _ _ _ e2, List.length_append]
      push_cast
      omega
    · intro hne; dsimp only at hne; rw [c4, hE1m] at hne; exact absurd hm hne
    · dsimp only; rw [c5, c6, hE1b, hE1n]; exact a8
  · exact ⟨a1, a2, a3, a4, a5, fun _ => a6, a7, a8⟩

theorem handle_insert_inv (key : Int) (E : Editor) (h : Inv E) (hm : E.mode = MODE_INSERT) :
    Inv (handle_insert key E) := by
  have h0 := h
  obtain ⟨a1, a2, a3, a4, a5, a6, a7, a8⟩ := h
  have a6 := a6 hm
  have hlen : line_len E.cur_row E = ((cur_line E).length : Int) := line_len_eq E _ a2 a3
  unfold handle_insert
  refine ite_cases (P := Inv) (fun _ => ?_) (fun _ => ?_)
  · -- Esc
    dsimp only
    apply clamp_cursor_inv
    · split_ifs <;> exact a1
    · split_ifs <;> exact Or.inl rfl
    · split_ifs <;> exact a8
  refine ite_cases (P := Inv) (fun _ => ?_) (fun _ => ?_)
  · unfold move_up
    apply clamp_cursor_inv
    · split_ifs <;> exact a1
    · split_ifs <;> exact a4
    · split_ifs <;> exact a8
  refine ite_cases (P := Inv) (fun _ => ?_) (fun _ => ?_)
  · unfold move_down
    apply clamp_cursor_inv
    · split_ifs <;> exact a1
    · split_ifs <;> exact a4
    · split_ifs <;> exact a8
  refine ite_cases (P := Inv) (fun _ => ?_) (fun _ => ?_)
  · unfold move_left
    apply clamp_cursor_inv
    · split_ifs <;> exact a1
    · split_ifs <;> exact a4
    · split_ifs <;> exact a8
  refine ite_cases (P := Inv) (fun _ => ?_) (fun _ => ?_)
  · unfold move_right
    exact clamp_cursor_inv _ a1 a4 a8
  refine ite_cases (P := Inv) (fun _ => ?_) (fun _ => ?_)
  · exact backspace_char_inv E h0 hm
  refine ite_cases (P := Inv) (fun _ => ?_) (fun _ => ?_)
  · exact delete_char_at_inv _ _ a1 a2 a3 hm a5 a6 (le_refl _) a8
  refine ite_cases (P := Inv) (fun _ => ?_) (fun _ => ?_)
  · exact insert_newline_inv E h0 hm
  refine ite_cases (P := Inv) (fun _ => ?_) (fun _ => ?_)
  · -- Home
    constructor <;> simp only [cur_line, Editor.line_count] at * <;>
      first | assumption | omega | (intros; omega) | simp
  refine ite_cases (P := Inv) (fun _ => ?_) (fun _ => ?_)
  · -- End
    rw [hlen]
    constructor <;> simp only [cur_line, Editor.line_count] at * <;>
      first | assumption | omega | (intros; omega) | simp
            | (intro hne; exact absurd hm hne)
  refine ite_cases (P := Inv) (fun _ => ?_) (fun _ => ?_)
  · exact insert_char_inv _ E h0 hm
  · exact h0

/-- What `save_file` leaves alone: the lines, the cursor, the viewport, the
mode, the running flag, the command buffer and the screen size. -/
theorem save_file_frame (fs : FS) (path : Option (List Nat)) (E : Editor) :
    (save_file fs path E).2.lines = E.lines ∧
    (save_file fs path E).2.cur_row = E.cur_row ∧
    (save_file fs path E).2.cur_col = E.cur_col ∧
    (save_file fs path E).2.mode = E.mode ∧
    (save_file fs path E).2.cmd_buf = E.cmd_buf ∧
    (save_file fs path E).2.cmd_len = E.cmd_len ∧
    (save_file fs path E).2.running = E.running := by
  unfold save_file
  dsimp only
  split_ifs <;> exact ⟨rfl, rfl, rfl, rfl, rfl, rfl, rfl⟩

/-- What `exec_command` leaves alone. -/
theorem exec_command_frame (fs : FS) (E : Editor) :
    (exec_command fs E).lines = E.lines ∧
    (exec_command fs E).cur_row = E.cur_row ∧
    (exec_command fs E).cur_col = E.cur_col ∧
    (exec_command fs E).mode = E.mode ∧
    (exec_command fs E).cmd_buf = E.cmd_buf ∧
    (exec_command fs E).cmd_len = E.cmd_len := by
  obtain ⟨s1, s2, s3, s4, s5, s6, -⟩ := save_file_frame fs none E
  obtain ⟨t1, t2, t3, t4, t5, t6, -⟩ :=
    save_file_frame fs (some ((skip_spaces E.cmd_buf).drop 2)) E
  unfold exec_command
  dsimp only
  split_ifs <;>
    first
      | exact ⟨rfl, rfl, rfl, rfl, rfl, rfl⟩
      | exact ⟨s1, s2, s3, s4, s5, s6⟩
      | exact ⟨t1, t2, t3, t4, t5, t6⟩

theorem handle_command_inv (fs : FS) (key : Int) (E : Editor) (h : Inv E)
    (hm : E.mode = MODE_COMMAND) : Inv (handle_command fs key E) := by
  have h0 := h
  obtain ⟨a1, a2, a3, a4, a5, a6, a7, a8⟩ := h
  have a7 := a7 (by rw [hm]; decide)
  have hnorm : ∀ E2 : Editor, E2.lines = E.lines → E2.cur_row = E.cur_row →
      E2.cur_col = E.cur_col → E2.mode = MODE_NORMAL → E2.cmd_buf = E.cmd_buf →
      E2.cmd_len = E.cmd_len → Inv E2 := by
    intro E2 e1 e2 e3 e4 e5 e6
    constructor <;> simp only [cur_line, Editor.line_count, e1, e2, e3, e4, e5, e6] <;>
      simp only [cur_line, Editor.line_count] at * <;>
      first | assumption | (intro; assumption) | simp
  unfold handle_command
  refine ite_cases (P := Inv) (fun _ => ?_) (fun _ => ?_)
  · exact hnorm _ rfl rfl rfl rfl rfl rfl
  refine ite_cases (P := Inv) (fun _ => ?_) (fun _ => ?_)
  · obtain ⟨e1, e2, e3, e4, e5, e6⟩ := exec_command_frame fs E
    exact hnorm _ e1 e2 e3 rfl e5 e6
  refine ite_cases (P := Inv) (fun _ => ?_) (fun _ => ?_)
  · refine ite_cases (P := Inv) (fun hl => ?_) (fun _ => ?_)
    · constructor <;> simp only [cur_line, Editor.line_count] at * <;>
        first | assumption | (intro; assumption)
              | (simp only [List.length_take]; omega)
    · exact hnorm _ rfl rfl rfl rfl rfl rfl
  refine ite_cases (P := Inv) (fun _ => ?_) (fun _ => ?_)
  · constructor <;> simp only [cur_line, Editor.line_count] at * <;>
      first | assumption | (intro; assumption)
            | (simp only [List.length_append, List.length_take, List.length_cons,
                List.length_nil]; omega)
  · exact h0

theorem dispatch_key_inv (fs : FS) (key : Int) (E : Editor) (h : Inv E) :
    Inv (dispatch_key fs key E) := by
  unfold dispatch_key
  refine ite_cases (P := Inv) (fun hm => ?_) (fun _ => ?_)
  · exact handle_normal_inv key E h hm
  refine ite_cases (P := Inv) (fun hm => ?_) (fun _ => ?_)
  · exact handle_insert_inv key E h hm
  refine ite_cases (P := Inv) (fun hm => ?_) (fun _ => ?_)
  · exact handle_command_inv fs key E h hm
  · exact h

/-! ## Lemmas on loading -/

theorem load_lines_none (f : List Nat) (E : Editor) (h : fgets MAX_LINE_LEN f = none) :
    load_lines f E = E := by
  rw [load_lines]
  split
  · rfl
  · rename_i heq
    rw [h] at heq
    exact absurd heq (by simp)

theorem load_lines_some (f : List Nat) (E : Editor) (line rest : List Nat)
    (h : fgets MAX_LINE_LEN f = some (line, rest)) :
    load_lines f E
      = load_lines rest (insert_line_at E.line_count (strip_eol (c_str line)) E) := by
  rw [load_lines]
  split
  · rename_i heq
    rw [h] at heq
    exact absurd heq (by simp)
  · rename_i l r heq
    rw [h] at heq
    simp only [Option.some.injEq, Prod.mk.injEq] at heq
    obtain ⟨rfl, rfl⟩ := heq
    rfl

theorem insert_line_at_end (text : List Nat) (E : Editor) :
    insert_line_at E.line_count text E = { E with lines := E.lines ++ [text] } := by
  simp [insert_line_at, Editor.line_count]

theorem fgets_rest_length (size : Nat) (f line rest : List Nat)
    (h : fgets size f = some (line, rest)) : rest.length < f.length := by
  simp only [fgets] at h
  split at h
  · exact absurd h (by simp)
  · rename_i hne
    simp only [Option.some.injEq, Prod.mk.injEq] at h
    obtain ⟨-, rfl⟩ := h
    have h1 : 0 < (fgets_chunk (size - 1) f).length := List.length_pos.mpr hne
    have h2 : f ≠ [] := by
      intro hf
      apply hne
      subst hf
      cases (size - 1) <;> rfl
    have h3 : 0 < f.length := List.length_pos.mpr h2
    simp only [List.length_drop]
    omega

theorem load_lines_frame_aux (n : Nat) : ∀ f : List Nat, f.length ≤ n →
    ∀ E : Editor, ∃ ls, load_lines f E = { E with lines := E.lines ++ ls } := by
  induction n with
  | zero =>
    intro f hn E
    cases hf : fgets MAX_LINE_LEN f with
    | none => exact ⟨[], by rw [load_lines_none f E hf]; simp⟩
    | some p =>
      have hlt := fgets_rest_length _ _ _ _ hf
      omega
  | succ n ih =>
    intro f hn E
    cases hf : fgets MAX_LINE_LEN f with
    | none => exact ⟨[], by rw [load_lines_none f E hf]; simp⟩
    | some p =>
      obtain ⟨line, rest⟩ := p
      have hlt := fgets_rest_length _ _ _ _ hf
      obtain ⟨ls, hls⟩ := ih rest (by omega)
        (insert_line_at E.line_count (strip_eol (c_str line)) E)
      refine ⟨strip_eol (c_str line) :: ls, ?_⟩
      rw [load_lines_some f E line rest hf, hls, insert_line_at_end]
      simp

/-- The loop of `load_file` only appends lines. -/
theorem load_lines_frame (f : List Nat) (E : Editor) :
    ∃ ls, load_lines f E = { E with lines := E.lines ++ ls } :=
  load_lines_frame_aux f.length f (le_refl _) E

theorem load_file_inv (fs : FS) (path : List Nat) (E : Editor) (h1 : E.lines = [])
    (h2 : E.cur_row = 0) (h3 : E.cur_col = 0) (h4 : E.mode = MODE_NORMAL)
    (h5 : E.cmd_buf = []) (h6 : E.cmd_len = 0) : Inv (load_file fs path E).2 := by
  unfold load_file
  cases fs.fopen_r path with
  | none =>
    dsimp only
    constructor <;>
      simp [Editor.line_count, insert_line_at, cur_line, h1, h2, h3, h4, h5, h6]
  | some f =>
    dsimp only
    obtain ⟨ls, hls⟩ := load_lines_frame f E
    rw [hls, h1]
    cases ls with
    | nil =>
      constructor <;>
        simp [Editor.line_count, insert_line_at, cur_line, h1, h2, h3, h4, h5, h6]
    | cons l ls =>
      simp only [Editor.line_count, List.nil_append, List.length_cons]
      rw [if_neg (by omega)]
      constructor <;>
        simp [Editor.line_count, insert_line_at, cur_line, h1, h2, h3, h4, h5, h6]

theorem main_init_inv (fs : FS) (argv1 : Option (List Nat)) (rows cols : Int) :
    Inv (main_init fs argv1 rows cols) := by
  unfold main_init
  cases argv1 with
  | none =>
    dsimp only
    constructor <;> simp [Editor.line_count, insert_line_at, editor_zero, cur_line]
  | some path =>
    dsimp only
    exact load_file_inv fs path _ rfl rfl rfl rfl rfl rfl

theorem reachable_inv (E : Editor) (h : Reachable E) : Inv E := by
  induction h with
  | init fs argv1 rows cols => exact main_init_inv fs argv1 rows cols
  | draw E _ ih => exact ih.of_same rfl rfl rfl rfl rfl rfl
  | step fs key E _ _ ih => exact dispatch_key_inv fs key E ih

/-! ## Session invariants -/

/-- Handling a sequence of decoded keys leads from a session state to a session
state. -/
theorem run_keys_reachable (fs : FS) (keys : List Int) :
    ∀ E : Editor, Reachable E → (∀ k ∈ keys, decoded_key k) →
      Reachable (run_keys fs keys E) := by
  induction keys with
  | nil =>
    intro E h _
    exact h
  | cons k ks ih =>
    intro E h hk
    exact ih (dispatch_key fs k E)
      (Reachable.step fs k E h (hk k (List.mem_cons_self k ks)))
      (fun x hx => hk x (List.mem_cons_of_mem k hx))

/-- C1: every session state reachable from an initial state (unnamed start, new
file, or loaded file, the empty file included) by handling decoded keys holds at
least one line. -/
theorem line_count_ge_one (E : Editor) (h : Reachable E) : 1 ≤ E.line_count :=
  (reachable_inv E h).lines_ne

theorem line_count_ge_one_witness :
    Reachable (dispatch_key fs_demo 100 (main_init fs_demo (some [102]) 24 80)) ∧
    1 ≤ (dispatch_key fs_demo 100 (main_init fs_demo (some [102]) 24 80)).line_count :=
  ⟨Reachable.step _ _ _ (Reachable.init _ _ _ _) (by decide),
   line_count_ge_one _ (Reachable.step _ _ _ (Reachable.init _ _ _ _) (by decide))⟩

/-- C2: after a decoded key is handled in a reachable session state the cursor
satisfies the clamp of the mode: the row is on a line; in Insert mode the column
is between 0 and the length of the current line; in Normal and Command mode it is
between 0 and `max 0 (length - 1)`. -/
theorem cursor_clamped_after_key (fs : FS) (key : Int) (E : Editor) (h : Reachable E)
    (hk : decoded_key key) : cursor_in_clamp (dispatch_key fs key E) := by
  obtain ⟨a1, a2, a3, a4, a5, a6, a7, a8⟩ := reachable_inv _ (Reachable.step fs key E h hk)
  refine ⟨a2, a3, ?_⟩
  rcases a4 with hm | hm | hm
  · exact Or.inr ⟨Or.inl hm, a5, a7 (by rw [hm]; decide)⟩
  · exact Or.inl ⟨hm, a5, a6 hm⟩
  · exact Or.inr ⟨Or.inr hm, a5, a7 (by rw [hm]; decide)⟩

theorem cursor_clamped_after_key_witness :
    Reachable (main_init fs_demo (some [102]) 24 80) ∧ decoded_key 65 ∧
    cursor_in_clamp (dispatch_key fs_demo 65 (main_init fs_demo (some [102]) 24 80)) :=
  ⟨Reachable.init _ _ _ _, by decide,
   cursor_clamped_after_key fs_demo 65 _ (Reachable.init fs_demo (some [102]) 24 80)
      (by decide)⟩

theorem main_init_demo : main_init fs_demo (some [102]) 24 80 = demo_start := by
  unfold main_init load_file
  simp only [fs_demo]
  rw [load_lines_some _ _ [97, 10] [] (by decide), load_lines_none _ _ (by decide)]
  decide

/-- C3, at the failing input: in the state loaded from a file holding the one
line `a`, the key `d` changes the Document (the line is deleted and the single
empty line put in its place) and leaves the modified flag clear. -/
theorem delete_line_modified_clear :
    Reachable (main_init fs_demo (some [102]) 24 80) ∧ decoded_key 100 ∧
    (main_init fs_demo (some [102]) 24 80).mode = MODE_NORMAL ∧
    (main_init fs_demo (some [102]) 24 80).lines = [[97]] ∧
    (dispatch_key fs_demo 100 (main_init fs_demo (some [102]) 24 80)).lines = [[]] ∧
    (dispatch_key fs_demo 100 (main_init fs_demo (some [102]) 24 80)).modified = 0 := by
  refine ⟨Reachable.init _ _ _ _, by decide, ?_⟩
  rw [main_init_demo]
  decide

/-! ## The modified flag -/

theorem clamp_cursor_modified (E : Editor) : (clamp_cursor E).modified = E.modified := rfl

theorem delete_char_at_modified (c : Int) (E : Editor) (h : E.modified ≠ 0) :
    (delete_char_at c E).modified ≠ 0 := by
  unfold delete_char_at
  dsimp only
  split_ifs
  · exact h
  · exact one_ne_zero

theorem delete_line_at_modified (idx : Int) (E : Editor) :
    (delete_line_at idx E).modified = E.modified := by
  unfold delete_line_at insert_line_at
  dsimp only
  split_ifs <;> rfl

theorem handle_normal_modified (key : Int) (E : Editor) (h : E.modified ≠ 0) :
    (handle_normal key E).modified ≠ 0 := by
  have h1 := delete_char_at_modified E.cur_col { E with status := [] } h
  have h2 := delete_line_at_modified E.cur_row { E with status := [] }
  unfold handle_normal handle_normal_switch
  repeat' (refine ite_cases (P := fun X : Editor => X.modified ≠ 0) (fun _ => ?_) (fun _ => ?_))
  all_goals
    first
      | exact h
      | exact h1
      | exact one_ne_zero
      | (show (delete_line_at _ _).modified ≠ 0; rw [h2]; exact h)

theorem backspace_char_modified (E : Editor) (h : E.modified ≠ 0) :
    (backspace_char E).modified ≠ 0 := by
  unfold backspace_char
  refine ite_cases (P := fun X : Editor => X.modified ≠ 0) (fun _ => ?_) (fun _ => ?_)
  · exact delete_char_at_modified _ { E with cur_col := E.cur_col - 1 } h
  refine ite_cases (P := fun X : Editor => X.modified ≠ 0) (fun _ => ?_) (fun _ => ?_)
  · exact one_ne_zero
  · exact h

theorem handle_insert_modified (key : Int) (E : Editor) (h : E.modified ≠ 0) :
    (handle_insert key E).modified ≠ 0 := by
  have h1 := delete_char_at_modified E.cur_col E h
  have h2 := backspace_char_modified E h
  unfold handle_insert
  repeat' (refine ite_cases (P := fun X : Editor => X.modified ≠ 0) (fun _ => ?_) (fun _ => ?_))
  all_goals
    first
      | exact h
      | exact h1
      | exact h2
      | exact one_ne_zero

theorem save_file_no_name (fs : FS) (path : Option (List Nat)) (E : Editor)
    (h : save_target path E = []) :
    save_file fs path E = (0, { E with status := snprintf_status (str "No filename") }) := by
  unfold save_file
  dsimp only
  rw [if_pos h]

theorem save_file_cannot_write (fs : FS) (path : Option (List Nat)) (E : Editor)
    (h1 : save_target path E ≠ []) (h2 : fs.fopen_w (save_target path E) = false) :
    save_file fs path E
      = (0, { E with
                status := snprintf_status (str "Cannot write: " ++ save_target path E) }) := by
  unfold save_file
  dsimp only
  rw [if_neg h1, if_pos h2]

theorem save_file_ok (fs : FS) (path : Option (List Nat)) (E : Editor)
    (h1 : save_target path E ≠ []) (h2 : fs.fopen_w (save_target path E) = true) :
    save_file fs path E
      = (1, { E with
                written := (save_target path E, file_bytes E.lines) :: E.written
                modified := 0
                filepath :=
                  if path_given path then strncpy_filepath (save_target path E)
                  else E.filepath
                status := snprintf_status
                  (str "\"" ++
                    (if path_given path then strncpy_filepath (save_target path E)
                     else E.filepath)
                    ++ str "\" " ++ fmt_d E.line_count ++ str " lines written") }) := by
  unfold save_file
  dsimp only
  rw [if_neg h1, if_neg (by rw [h2]; decide)]

/-- A successful `save_file` is the only way it clears the flag: the target is
not empty, it could be opened, and the lines were written to it. -/
theorem save_file_cleared (fs : FS) (path : Option (List Nat)) (E : Editor)
    (hm : E.modified ≠ 0) (hc : (save_file fs path E).2.modified = 0) :
    save_target path E ≠ [] ∧ fs.fopen_w (save_target path E) = true ∧
    (save_file fs path E).1 = 1 ∧
    (save_file fs path E).2.written
      = (save_target path E, file_bytes E.lines) :: E.written := by
  by_cases h1 : save_target path E = []
  · rw [save_file_no_name fs path E h1] at hc
    exact absurd hc hm
  · cases h2 : fs.fopen_w (save_target path E) with
    | false =>
      rw [save_file_cannot_write fs path E h1 h2] at hc
      exact absurd hc hm
    | true =>
      rw [save_file_ok fs path E h1 h2]
      exact ⟨h1, rfl, rfl, rfl⟩

/-- A failing `save_file` (no file name, or the file cannot be opened) returns 0
and changes the status only, to a message that is not empty. -/
theorem save_file_failed (fs : FS) (path : Option (List Nat)) (E : Editor)
    (h : save_target path E = [] ∨ fs.fopen_w (save_target path E) = false) :
    (save_file fs path E).1 = 0 ∧
    (save_file fs path E).2.modified = E.modified ∧
    (save_file fs path E).2.filepath = E.filepath ∧
    (save_file fs path E).2.written = E.written ∧
    (save_file fs path E).2.status ≠ [] := by
  by_cases h1 : save_target path E = []
  · rw [save_file_no_name fs path E h1]
    exact ⟨rfl, rfl, rfl, rfl, by dsimp only; decide⟩
  · have h2 : fs.fopen_w (save_target path E) = false := by
      rcases h with h | h
      · exact absurd h h1
      · exact h
    rw [save_file_cannot_write fs path E h1 h2]
    refine ⟨rfl, rfl, rfl, rfl, ?_⟩
    simp [snprintf_status, str]

theorem exec_command_cleared (fs : FS) (E : Editor) (hm : E.modified ≠ 0)
    (hc : (exec_command fs E).modified = 0) :
    is_save_command (skip_spaces E.cmd_buf) ∧
    ∃ p, p ≠ [] ∧ fs.fopen_w p = true ∧
      (exec_command fs E).written = (p, file_bytes E.lines) :: E.written := by
  unfold exec_command at hc ⊢
  dsimp only at hc ⊢
  by_cases h1 : skip_spaces E.cmd_buf = str "q"
  · rw [if_pos h1, if_pos hm] at hc
    exact absurd hc hm
  rw [if_neg h1] at hc ⊢
  by_cases h2 : skip_spaces E.cmd_buf = str "q!"
  · rw [if_pos h2] at hc
    exact absurd hc hm
  rw [if_neg h2] at hc ⊢
  by_cases h3 : skip_spaces E.cmd_buf = str "w"
  · rw [if_pos h3] at hc ⊢
    obtain ⟨s1, s2, -, s4⟩ := save_file_cleared fs none E hm hc
    exact ⟨Or.inl h3, _, s1, s2, s4⟩
  rw [if_neg h3] at hc ⊢
  by_cases h4 : (skip_spaces E.cmd_buf).take 2 = str "w "
  · rw [if_pos h4] at hc ⊢
    obtain ⟨s1, s2, -, s4⟩ := save_file_cleared fs _ E hm hc
    exact ⟨Or.inr (Or.inl h4), _, s1, s2, s4⟩
  rw [if_neg h4] at hc ⊢
  by_cases h5 : skip_spaces E.cmd_buf = str "wq" ∨ skip_spaces E.cmd_buf = str "x"
  · rw [if_pos h5] at hc ⊢
    have hs : (save_file fs none E).2.modified = 0 := by
      by_cases h6 : (save_file fs none E).1 ≠ 0
      · rw [if_pos h6] at hc; exact hc
      · rw [if_neg h6] at hc; exact hc
    obtain ⟨s1, s2, s3, s4⟩ := save_file_cleared fs none E hm hs
    rw [if_pos (by rw [s3]; decide)]
    refine ⟨?_, _, s1, s2, s4⟩
    rcases h5 with h5 | h5
    · exact Or.inr (Or.inr (Or.inl h5))
    · exact Or.inr (Or.inr (Or.inr h5))
  rw [if_neg h5] at hc
  by_cases h6 : skip_spaces E.cmd_buf ≠ []
  · rw [if_pos h6] at hc
    exact absurd hc hm
  · rw [if_neg h6] at hc
    exact absurd hc hm

/-- C4: the modified flag is cleared only by a successful save.  When the flag is
set before a key and clear after it, the key was Enter in Command mode, the
command line held a save command (`w`, `w <path>`, `wq` or `x`), and the write
succeeded: a path that is not empty was opened and the lines were written to it.
A save that fails (no file name, or the file cannot be opened for writing)
leaves the flag as it was. -/
theorem modified_cleared_only_by_save (fs : FS) (key : Int) (E : Editor)
    (hk : decoded_key key) (hm : E.modified ≠ 0) :
    ((dispatch_key fs key E).modified = 0 →
      key = KEY_ENTER ∧ E.mode = MODE_COMMAND ∧ is_save_command (skip_spaces E.cmd_buf) ∧
      ∃ p, p ≠ [] ∧ fs.fopen_w p = true ∧
        (dispatch_key fs key E).written = (p, file_bytes E.lines) :: E.written) ∧
    (∀ path, save_target path E = [] ∨ fs.fopen_w (save_target path E) = false →
      (save_file fs path E).1 = 0 ∧ (save_file fs path E).2.modified = E.modified) := by
  refine ⟨?_, fun path hf => ⟨(save_file_failed fs path E hf).1,
    (save_file_failed fs path E hf).2.1⟩⟩
  intro hc
  unfold dispatch_key at hc ⊢
  by_cases m1 : E.mode = MODE_NORMAL
  · rw [if_pos m1] at hc
    exact absurd hc (handle_normal_modified key E hm)
  rw [if_neg m1] at hc ⊢
  by_cases m2 : E.mode = MODE_INSERT
  · rw [if_pos m2] at hc
    exact absurd hc (handle_insert_modified key E hm)
  rw [if_neg m2] at hc ⊢
  by_cases m3 : E.mode = MODE_COMMAND
  · rw [if_pos m3] at hc ⊢
    unfold handle_command at hc ⊢
    by_cases k1 : key = KEY_ESC
    · rw [if_pos k1] at hc
      exact absurd hc hm
    rw [if_neg k1] at hc ⊢
    by_cases k2 : key = KEY_ENTER
    · rw [if_pos k2] at hc ⊢
      obtain ⟨c1, p, c2, c3, c4⟩ := exec_command_cleared fs E hm hc
      exact ⟨k2, m3, c1, p, c2, c3, c4⟩
    rw [if_neg k2] at hc
    by_cases k3 : key = KEY_BACKSPACE
    · rw [if_pos k3] at hc
      by_cases k4 : E.cmd_len > 0
      · rw [if_pos k4] at hc; exact absurd hc hm
      · rw [if_neg k4] at hc; exact absurd hc hm
    rw [if_neg k3] at hc
    by_cases k5 : key ≥ 32 ∧ key < 127 ∧ E.cmd_len < CMD_BUF_SIZE - 1
    · rw [if_pos k5] at hc; exact absurd hc hm
    · rw [if_neg k5] at hc; exact absurd hc hm
  · rw [if_neg m3] at hc
    exact absurd hc hm

theorem modified_cleared_only_by_save_witness :
    decoded_key KEY_ENTER ∧ demo_unsaved.modified ≠ 0 ∧
    (dispatch_key fs_demo KEY_ENTER demo_unsaved).modified = 0 ∧
    (KEY_ENTER = KEY_ENTER ∧ demo_unsaved.mode = MODE_COMMAND ∧
      is_save_command (skip_spaces demo_unsaved.cmd_buf) ∧
      ∃ p, p ≠ [] ∧ fs_demo.fopen_w p = true ∧
        (dispatch_key fs_demo KEY_ENTER demo_unsaved).written
          = (p, file_bytes demo_unsaved.lines) :: demo_unsaved.written) :=
  ⟨by decide, by decide, by decide,
   (modified_cleared_only_by_save fs_demo KEY_ENTER demo_unsaved (by decide) (by decide)).1
     (by decide)⟩

/-! ## Loading and saving -/

theorem fgets_chunk_line (l : List Nat) : ∀ (k : Nat) (rest : List Nat),
    (∀ b ∈ l, b ≠ 10) → l.length < k → fgets_chunk k (l ++ 10 :: rest) = l ++ [10] := by
  induction l with
  | nil =>
    intro k rest _ hk
    cases k with
    | zero => omega
    | succ k => simp [fgets_chunk]
  | cons a l ih =>
    intro k rest hl hk
    cases k with
    | zero => omega
    | succ k =>
      have ha : a ≠ 10 := hl a (List.mem_cons_self a l)
      have hl2 : ∀ b ∈ l, b ≠ 10 := fun b hb => hl b (List.mem_cons_of_mem a hb)
      have hstep : fgets_chunk (k + 1) (a :: (l ++ 10 :: rest))
          = a :: fgets_chunk k (l ++ 10 :: rest) := by
        simp only [fgets_chunk, if_neg ha]
      rw [List.cons_append, hstep, ih k rest hl2 (by simpa using hk)]
      rfl

theorem fgets_chunk_all (l : List Nat) : ∀ (k : Nat),
    (∀ b ∈ l, b ≠ 10) → l.length ≤ k → fgets_chunk k l = l := by
  induction l with
  | nil =>
    intro k _ _
    cases k <;> rfl
  | cons a l ih =>
    intro k hl hk
    cases k with
    | zero => simp at hk
    | succ k =>
      have ha : a ≠ 10 := hl a (List.mem_cons_self a l)
      have hl2 : ∀ b ∈ l, b ≠ 10 := fun b hb => hl b (List.mem_cons_of_mem a hb)
      simp only [fgets_chunk, if_neg ha]
      rw [ih k hl2 (by simpa using hk)]

theorem fgets_line (size : Nat) (l rest : List Nat) (hl : ∀ b ∈ l, b ≠ 10)
    (hk : l.length + 2 ≤ size) : fgets size (l ++ 10 :: rest) = some (l ++ [10], rest) := by
  unfold fgets
  dsimp only
  rw [fgets_chunk_line l (size - 1) rest hl (by omega), if_neg (by simp)]
  simp

theorem fgets_tail (size : Nat) (l : List Nat) (hne : l ≠ []) (hl : ∀ b ∈ l, b ≠ 10)
    (hk : l.length + 1 ≤ size) : fgets size l = some (l, []) := by
  unfold fgets
  dsimp only
  rw [fgets_chunk_all l (size - 1) hl (by omega), if_neg hne]
  simp

theorem fgets_nil (size : Nat) : fgets size [] = none := by
  unfold fgets
  cases (size - 1) <;> rfl

theorem c_str_eq_self (l : List Nat) (h : ∀ b ∈ l, b ≠ 0) : c_str l = l := by
  unfold c_str
  rw [List.takeWhile_eq_self_iff]
  intro x hx
  simpa using h x hx

theorem strip_eol_eq_self (l : List Nat) (h1 : l.getLast? ≠ some 10)
    (h2 : l.getLast? ≠ some 13) : strip_eol l = l := by
  unfold strip_eol
  rw [List.rdropWhile_eq_self_iff]
  intro hl
  rw [List.getLast?_eq_getLast l hl] at h1 h2
  simp only [ne_eq, Option.some.injEq] at h1 h2
  simp [h1, h2]

theorem plain_line_last (l : List Nat) (h : plain_line l) :
    l.getLast? ≠ some 10 ∧ l.getLast? ≠ some 13 := by
  refine ⟨?_, h.2.1⟩
  intro h10
  have hmem : (10 : Nat) ∈ l := List.mem_of_getLast?_eq_some h10
  exact (h.1 10 hmem).1 rfl

theorem strip_eol_line (l : List Nat) (h : plain_line l) :
    strip_eol (c_str (l ++ [10])) = l := by
  rw [c_str_eq_self]
  · unfold strip_eol
    rw [List.rdropWhile_concat_pos _ _ _ (by simp)]
    exact strip_eol_eq_self l (plain_line_last l h).1 (plain_line_last l h).2
  · intro b hb
    rcases List.mem_append.mp hb with hb | hb
    · exact (h.1 b hb).2
    · simp only [List.mem_singleton] at hb
      omega

theorem strip_eol_tail (l : List Nat) (h : plain_line l) : strip_eol (c_str l) = l := by
  rw [c_str_eq_self l (fun b hb => (h.1 b hb).2)]
  exact strip_eol_eq_self l (plain_line_last l h).1 (plain_line_last l h).2

/-- The loop of `load_file` on plain lines, each ended by a newline: every line
is appended as it is, and the loop goes on with the bytes after them. -/
theorem load_lines_plain (ls : List (List Nat)) : ∀ (tail : List Nat) (E : Editor),
    (∀ l ∈ ls, plain_line l) →
    load_lines (file_bytes ls ++ tail) E = load_lines tail { E with lines := E.lines ++ ls } := by
  induction ls with
  | nil =>
    intro tail E _
    simp [file_bytes]
  | cons l ls ih =>
    intro tail E h
    have hl : plain_line l := h l (List.mem_cons_self l ls)
    have hls : ∀ x ∈ ls, plain_line x := fun x hx => h x (List.mem_cons_of_mem l hx)
    have hbytes : file_bytes (l :: ls) ++ tail = l ++ 10 :: (file_bytes ls ++ tail) := by
      simp [file_bytes]
    rw [hbytes, load_lines_some _ E (l ++ [10]) (file_bytes ls ++ tail)
      (fgets_line _ l _ (fun b hb => (hl.1 b hb).1) hl.2.2), strip_eol_line l hl,
      insert_line_at_end, ih tail _ hls]
    simp

/-- The loop of `load_file` on plain lines and a last plain line without
newline. -/
theorem load_lines_content (ls : List (List Nat)) (tail : List Nat) (E : Editor)
    (h : ∀ l ∈ ls, plain_line l) (ht : plain_line tail) :
    load_lines (file_bytes ls ++ tail) E
      = { E with lines := E.lines ++ ls ++ (if tail = [] then [] else [tail]) } := by
  rw [load_lines_plain ls tail E h]
  by_cases hne : tail = []
  · subst hne
    rw [load_lines_none _ _ (fgets_nil _)]
    simp
  · rw [load_lines_some _ _ tail [] (fgets_tail _ tail hne (fun b hb => (ht.1 b hb).1)
      (by have := ht.2.2; omega)), strip_eol_tail tail ht, insert_line_at_end,
      load_lines_none _ _ (fgets_nil _), if_neg hne]

theorem plain_line_nil : plain_line [] := by
  refine ⟨fun b hb => absurd hb (List.not_mem_nil b), by simp, by decide⟩

theorem file_bytes_append (xs ys : List (List Nat)) :
    file_bytes (xs ++ ys) = file_bytes xs ++ file_bytes ys := by
  simp [file_bytes]

theorem file_bytes_last (ls : List (List Nat)) (h : ls ≠ []) :
    (file_bytes ls).getLast? = some 10 := by
  rcases List.eq_nil_or_concat ls with h0 | ⟨xs, x, hx⟩
  · exact absurd h0 h
  · rw [hx, List.concat_eq_append, file_bytes_append]
    simp [file_bytes]

/-- The lines `load_file` leaves in a record without lines, for a content made
of plain lines ended by a newline and a last plain line without newline. -/
theorem load_file_content (fs : FS) (path : List Nat) (E : Editor)
    (ls : List (List Nat)) (tail : List Nat) (hE : E.lines = [])
    (hls : ∀ l ∈ ls, plain_line l) (ht : plain_line tail)
    (hr : fs.fopen_r path = some (file_bytes ls ++ tail)) :
    (load_file fs path E).2.lines
      = (if ls = [] ∧ tail = [] then [[]] else ls ++ (if tail = [] then [] else [tail])) ∧
    (load_file fs path E).2.filepath = E.filepath ∧
    (load_file fs path E).2.written = E.written ∧
    (load_file fs path E).2.modified = E.modified := by
  unfold load_file
  rw [hr]
  dsimp only
  rw [load_lines_content ls tail E hls ht, hE]
  by_cases h1 : tail = []
  · cases ls with
    | nil => simp [h1, Editor.line_count, insert_line_at]
    | cons l ls =>
      simp only [h1, Editor.line_count, List.nil_append, List.length_append,
        List.length_cons, if_true, List.length_nil]
      rw [if_neg (by omega)]
      simp
  · cases ls with
    | nil => simp [h1, Editor.line_count]
    | cons l ls =>
      simp only [h1, Editor.line_count, List.nil_append, List.length_append,
        List.length_cons, if_false, List.length_nil]
      rw [if_neg (by omega)]
      simp

theorem load_lines_crlf (E : Editor) :
    load_lines [97, 13, 10] E = { E with lines := E.lines ++ [[97]] } := by
  rw [load_lines_some _ _ [97, 13, 10] [] (by decide), load_lines_none _ _ (by decide),
    insert_line_at_end]
  have h : strip_eol (c_str [97, 13, 10]) = [97] := by decide
  rw [h]

/-- C5 as stated fails: a file holding `a`, CR, newline is loaded as the line `a`
and saved as `a`, newline, which is neither the original content nor the
original content with a final newline added. -/
theorem round_trip_drops_cr :
    fs_crlf.fopen_r [102] = some [97, 13, 10] ∧
    (save_file fs_crlf none
        (load_file fs_crlf [102] { editor_zero with filepath := [102] }).2).2.written
      = [([102], [97, 10])] ∧
    ([97, 10] : List Nat) ≠ [97, 13, 10] ∧
    ([97, 10] : List Nat) ≠ [97, 13, 10] ++ [10] := by
  refine ⟨rfl, ?_, by decide, by decide⟩
  unfold load_file
  simp only [fs_crlf]
  rw [load_lines_crlf]
  decide

/-- C5 (amended): for a content made of plain lines (no newline or NUL byte
inside, no CR at the end, at most 1022 bytes), each ended by a newline except
possibly the last, loading the file into a record without lines and saving it
at once to the same path (passed to `save_file`, or taken from `E.filepath`)
writes the content, with a final newline added when the content does not end
with one. -/
theorem load_save_round_trip (fs : FS) (path : List Nat) (E : Editor)
    (arg : Option (List Nat)) (ls : List (List Nat)) (tail : List Nat)
    (hE : E.lines = []) (hp : path ≠ []) (harg : save_target arg E = path)
    (hls : ∀ l ∈ ls, plain_line l) (ht : plain_line tail)
    (hr : fs.fopen_r path = some (file_bytes ls ++ tail)) (hw : fs.fopen_w path = true) :
    (save_file fs arg (load_file fs path E).2).2.written
      = (path, add_final_newline (file_bytes ls ++ tail)) :: E.written := by
  obtain ⟨c1, c2, c3, -⟩ := load_file_content fs path E ls tail hE hls ht hr
  have htarget : save_target arg (load_file fs path E).2 = path := by
    have h0 : save_target arg (load_file fs path E).2 = save_target arg E := by
      unfold save_target
      rw [c2]
    rw [h0, harg]
  rw [save_file_ok fs arg _ (by rw [htarget]; exact hp) (by rw [htarget]; exact hw)]
  dsimp only
  rw [htarget, c3, c1]
  congr 2
  unfold add_final_newline
  by_cases h1 : tail = []
  · subst h1
    by_cases h2 : ls = []
    · subst h2
      simp [file_bytes]
    · rw [if_neg (by simp [h2]), List.append_nil, if_pos (file_bytes_last ls h2)]
      simp
  · have hlast : (file_bytes ls ++ tail).getLast? ≠ some 10 := by
      rw [List.getLast?_append_of_ne_nil _ h1]
      exact (plain_line_last tail ht).1
    rw [if_neg (by simp [h1]), if_neg h1, if_neg hlast, file_bytes_append]
    simp [file_bytes]

theorem load_save_round_trip_witness :
    ({ editor_zero with filepath := [102] } : Editor).lines = [] ∧
    ([102] : List Nat) ≠ [] ∧
    save_target none { editor_zero with filepath := [102] } = [102] ∧
    (∀ l ∈ [[97]], plain_line l) ∧ plain_line [98] ∧
    (FS.mk (fun _ => some (file_bytes [[97]] ++ [98])) (fun _ => true)).fopen_r [102]
      = some (file_bytes [[97]] ++ [98]) ∧
    (FS.mk (fun _ => some (file_bytes [[97]] ++ [98])) (fun _ => true)).fopen_w [102] = true ∧
    (save_file (FS.mk (fun _ => some (file_bytes [[97]] ++ [98])) (fun _ => true)) none
      (load_file (FS.mk (fun _ => some (file_bytes [[97]] ++ [98])) (fun _ => true)) [102]
        { editor_zero with filepath := [102] }).2).2.written
      = [([102], add_final_newline (file_bytes [[97]] ++ [98]))] :=
  have h1 : ∀ l ∈ [[97]], plain_line l := by
    intro l hl
    simp only [List.mem_singleton] at hl
    subst hl
    exact ⟨by decide, by decide, by decide⟩
  have h2 : plain_line [98] := ⟨by decide, by decide, by decide⟩
  ⟨rfl, by decide, rfl, h1, h2, rfl, rfl,
   load_save_round_trip _ [102] { editor_zero with filepath := [102] } none [[97]] [98]
     rfl (by decide) rfl h1 h2 rfl rfl⟩

theorem fgets_chunk_full (l : List Nat) : ∀ (k : Nat) (rest : List Nat),
    (∀ b ∈ l, b ≠ 10) → l.length = k → fgets_chunk k (l ++ rest) = l := by
  induction l with
  | nil =>
    intro k rest _ hk
    simp only [List.length_nil] at hk
    subst hk
    simp [fgets_chunk]
  | cons a l ih =>
    intro k rest hl hk
    cases k with
    | zero => simp at hk
    | succ k =>
      have ha : a ≠ 10 := hl a (List.mem_cons_self a l)
      have hl2 : ∀ b ∈ l, b ≠ 10 := fun b hb => hl b (List.mem_cons_of_mem a hb)
      have hstep : fgets_chunk (k + 1) (a :: (l ++ rest)) = a :: fgets_chunk k (l ++ rest) := by
        simp only [fgets_chunk, if_neg ha]
      rw [List.cons_append, hstep, ih k rest hl2 (by simpa using hk)]

/-- A line of exactly `MAX_LINE_LEN - 1` bytes is loaded as two lines: one call
of `fgets` stores the bytes of the line, the next call stores its newline. -/
theorem load_file_long_line (fs : FS) (path : List Nat) (E : Editor) (l : List Nat)
    (hE : E.lines = []) (hlen : l.length = MAX_LINE_LEN - 1)
    (hl : ∀ b ∈ l, b ≠ 10 ∧ b ≠ 13 ∧ b ≠ 0) (hr : fs.fopen_r path = some (file_bytes [l])) :
    (load_file fs path E).2.lines = [l, []] := by
  have hbytes : file_bytes [l] = l ++ [10] := by
    simp [file_bytes]
  have hne : l ≠ [] := by
    intro h
    rw [h] at hlen
    simp at hlen
  have hg1 : fgets MAX_LINE_LEN (l ++ [10]) = some (l, [10]) := by
    unfold fgets
    dsimp only
    rw [fgets_chunk_full l _ _ (fun b hb => (hl b hb).1) hlen, if_neg hne]
    simp
  have hstrip : strip_eol (c_str l) = l := by
    rw [c_str_eq_self l (fun b hb => (hl b hb).2.2)]
    apply strip_eol_eq_self
    · intro h
      exact (hl 10 (List.mem_of_getLast?_eq_some h)).1 rfl
    · intro h
      exact (hl 13 (List.mem_of_getLast?_eq_some h)).2.1 rfl
  have h2 : strip_eol (c_str [10]) = [] := by decide
  unfold load_file
  rw [hr]
  dsimp only
  rw [hbytes, load_lines_some _ _ _ _ hg1, hstrip, insert_line_at_end,
    load_lines_some _ _ [10] [] (by decide), insert_line_at_end,
    load_lines_none _ _ (by decide), h2]
  simp [Editor.line_count, hE]

theorem replicate_a_bytes : ∀ b ∈ List.replicate 1023 97, b ≠ 10 ∧ b ≠ 13 ∧ b ≠ 0 := by
  intro b hb
  rw [List.eq_of_mem_replicate hb]
  decide

/-- C6 as stated fails: a file holding one line of 1023 bytes `a` and its newline
is loaded as two lines, the 1023 bytes and an empty line, because one call of
`fgets` on the buffer of `MAX_LINE_LEN` bytes stores at most 1023 bytes. -/
theorem long_line_is_split :
    (∀ b ∈ List.replicate 1023 97, b ≠ 10 ∧ b ≠ 13 ∧ b ≠ 0) ∧
    fs_long.fopen_r [102] = some (file_bytes [List.replicate 1023 97]) ∧
    (load_file fs_long [102] editor_zero).2.lines = [List.replicate 1023 97, []] ∧
    (load_file fs_long [102] editor_zero).2.lines ≠ [List.replicate 1023 97] := by
  have hlines := load_file_long_line fs_long [102] editor_zero (List.replicate 1023 97) rfl
    (List.length_replicate 1023 97) replicate_a_bytes rfl
  refine ⟨replicate_a_bytes, rfl, hlines, ?_⟩
  rw [hlines]
  intro h
  injection h with _ h2
  exact absurd h2 (List.cons_ne_nil _ _)

/-- C6 (amended): for a content made of n >= 1 lines, each ended by a newline,
that hold no newline, CR or NUL byte and are at most 1022 bytes long (two
less than `MAX_LINE_LEN`), `load_file` produces exactly those lines, in the same
order, each without its newline. -/
theorem load_file_lines (fs : FS) (path : List Nat) (E : Editor) (ls : List (List Nat))
    (hE : E.lines = []) (hne : ls ≠ [])
    (hl : ∀ l ∈ ls, (∀ b ∈ l, b ≠ 10 ∧ b ≠ 13 ∧ b ≠ 0) ∧ l.length + 2 ≤ MAX_LINE_LEN)
    (hr : fs.fopen_r path = some (file_bytes ls)) :
    (load_file fs path E).2.lines = ls := by
  have hplain : ∀ l ∈ ls, plain_line l := by
    intro l hmem
    obtain ⟨h1, h2⟩ := hl l hmem
    refine ⟨fun b hb => ⟨(h1 b hb).1, (h1 b hb).2.2⟩, ?_, h2⟩
    intro h13
    exact (h1 13 (List.mem_of_getLast?_eq_some h13)).2.1 rfl
  have hr2 : fs.fopen_r path = some (file_bytes ls ++ []) := by
    rw [List.append_nil]; exact hr
  obtain ⟨c1, -⟩ := load_file_content fs path E ls [] hE hplain plain_line_nil hr2
  rw [c1, if_neg (fun h => hne h.1)]
  simp

theorem load_file_lines_witness :
    editor_zero.lines = [] ∧ ([[97]] : List (List Nat)) ≠ [] ∧
    (∀ l ∈ [[97]], (∀ b ∈ l, b ≠ 10 ∧ b ≠ 13 ∧ b ≠ 0) ∧ l.length + 2 ≤ MAX_LINE_LEN) ∧
    fs_demo.fopen_r [102] = some (file_bytes [[97]]) ∧
    (load_file fs_demo [102] editor_zero).2.lines = [[97]] :=
  have h : ∀ l ∈ [[97]], (∀ b ∈ l, b ≠ 10 ∧ b ≠ 13 ∧ b ≠ 0) ∧ l.length + 2 ≤ MAX_LINE_LEN := by
    decide
  ⟨rfl, by decide, h, rfl, load_file_lines fs_demo [102] editor_zero [[97]] rfl (by decide) h rfl⟩

/-! ## The scenario of the specification -/

theorem run_keys_append (fs : FS) (xs ys : List Int) (E : Editor) :
    run_keys fs (xs ++ ys) E = run_keys fs ys (run_keys fs xs E) := by
  unfold run_keys
  rw [List.foldl_append]

theorem scenario_typed (fs : FS) (rows cols : Int) :
    run_keys fs [105, 104, 105, KEY_ESC] (main_init fs none rows cols)
      = { editor_zero with
          lines := [[104, 105]], cur_col := 1, mode := MODE_NORMAL, modified := 1,
          running := 1, screen_rows := rows, screen_cols := cols } := by
  rfl

theorem scenario_command_1 (fs : FS) (rows cols : Int) :
    run_keys fs [58, 119, 32, 111, 117]
        { editor_zero with
          lines := [[104, 105]], cur_col := 1, mode := MODE_NORMAL, modified := 1,
          running := 1, screen_rows := rows, screen_cols := cols }
      = { editor_zero with
          lines := [[104, 105]], cur_col := 1, mode := MODE_COMMAND, modified := 1,
          running := 1, cmd_buf := [119, 32, 111, 117], cmd_len := 4,
          screen_rows := rows, screen_cols := cols } := by
  rfl

theorem scenario_command_2 (fs : FS) (rows cols : Int) :
    run_keys fs [116, 46, 116, 120, 116]
        { editor_zero with
          lines := [[104, 105]], cur_col := 1, mode := MODE_COMMAND, modified := 1,
          running := 1, cmd_buf := [119, 32, 111, 117], cmd_len := 4,
          screen_rows := rows, screen_cols := cols }
      = { editor_zero with
          lines := [[104, 105]], cur_col := 1, mode := MODE_COMMAND, modified := 1,
          running := 1, cmd_buf := [119, 32, 111, 117, 116, 46, 116, 120, 116], cmd_len := 9,
          screen_rows := rows, screen_cols := cols } := by
  rfl

theorem scenario_save (fs : FS) (rows cols : Int)
    (hw : fs.fopen_w [111, 117, 116, 46, 116, 120, 116] = true) :
    ∃ st, run_keys fs [KEY_ENTER]
        { editor_zero with
          lines := [[104, 105]], cur_col := 1, mode := MODE_COMMAND, modified := 1,
          running := 1, cmd_buf := [119, 32, 111, 117, 116, 46, 116, 120, 116], cmd_len := 9,
          screen_rows := rows, screen_cols := cols }
      = { editor_zero with
          lines := [[104, 105]], cur_col := 1, mode := MODE_NORMAL, modified := 0,
          running := 1, cmd_buf := [119, 32, 111, 117, 116, 46, 116, 120, 116], cmd_len := 9,
          screen_rows := rows, screen_cols := cols,
          filepath := [111, 117, 116, 46, 116, 120, 116],
          status := st,
          written := [([111, 117, 116, 46, 116, 120, 116], [104, 105, 10])] } := by
  have e1 : run_keys fs [KEY_ENTER]
        { editor_zero with
          lines := [[104, 105]], cur_col := 1, mode := MODE_COMMAND, modified := 1,
          running := 1, cmd_buf := [119, 32, 111, 117, 116, 46, 116, 120, 116], cmd_len := 9,
          screen_rows := rows, screen_cols := cols }
      = { (save_file fs (some [111, 117, 116, 46, 116, 120, 116])
            { editor_zero with
              lines := [[104, 105]], cur_col := 1, mode := MODE_COMMAND, modified := 1,
              running := 1, cmd_buf := [119, 32, 111, 117, 116, 46, 116, 120, 116],
              cmd_len := 9, screen_rows := rows, screen_cols := cols }).2
          with mode := MODE_NORMAL } := rfl
  rw [e1, save_file_ok fs (some [111, 117, 116, 46, 116, 120, 116]) _
    (by show ([111, 117, 116, 46, 116, 120, 116] : List Nat) ≠ []; decide) hw]
  exact ⟨_, rfl⟩

theorem scenario_quit (fs : FS) (rows cols : Int) (st : List Nat) :
    run_keys fs [58, 113, KEY_ENTER]
        { editor_zero with
          lines := [[104, 105]], cur_col := 1, mode := MODE_NORMAL, modified := 0,
          running := 1, cmd_buf := [119, 32, 111, 117, 116, 46, 116, 120, 116], cmd_len := 9,
          screen_rows := rows, screen_cols := cols,
          filepath := [111, 117, 116, 46, 116, 120, 116],
          status := st,
          written := [([111, 117, 116, 46, 116, 120, 116], [104, 105, 10])] }
      = { editor_zero with
          lines := [[104, 105]], cur_col := 1, mode := MODE_NORMAL, modified := 0,
          running := 0, cmd_buf := [113], cmd_len := 1,
          screen_rows := rows, screen_cols := cols,
          filepath := [111, 117, 116, 46, 116, 120, 116],
          written := [([111, 117, 116, 46, 116, 120, 116], [104, 105, 10])] } := by
  rfl

/-- C7: starting unnamed and handling `i`, `h`, `i`, Esc, `:w out.txt` Enter and
`:q` Enter, with the file `out.txt` writable, writes exactly the bytes `hi` and a
newline to `out.txt` and nothing else, leaves `out.txt` as the current path, the
modified flag clear and the running flag false. -/
theorem scenario_hi (fs : FS) (rows cols : Int) (hw : fs.fopen_w (str "out.txt") = true) :
    (run_keys fs scenario_keys (main_init fs none rows cols)).written
      = [(str "out.txt", str "hi\n")] ∧
    (run_keys fs scenario_keys (main_init fs none rows cols)).filepath = str "out.txt" ∧
    (run_keys fs scenario_keys (main_init fs none rows cols)).modified = 0 ∧
    (run_keys fs scenario_keys (main_init fs none rows cols)).running = 0 := by
  have hk : scenario_keys
      = [105, 104, 105, KEY_ESC] ++ ([58, 119, 32, 111, 117] ++ ([116, 46, 116, 120, 116]
          ++ ([KEY_ENTER] ++ [58, 113, KEY_ENTER]))) := by
    decide
  obtain ⟨st, hst⟩ := scenario_save fs rows cols hw
  rw [hk, run_keys_append, run_keys_append, run_keys_append, run_keys_append,
    scenario_typed, scenario_command_1, scenario_command_2, hst, scenario_quit]
  exact ⟨rfl, rfl, rfl, rfl⟩

theorem scenario_hi_witness :
    fs_demo.fopen_w (str "out.txt") = true ∧
    (run_keys fs_demo scenario_keys (main_init fs_demo none 24 80)).written
      = [(str "out.txt", str "hi\n")] ∧
    (run_keys fs_demo scenario_keys (main_init fs_demo none 24 80)).filepath = str "out.txt" ∧
    (run_keys fs_demo scenario_keys (main_init fs_demo none 24 80)).modified = 0 ∧
    (run_keys fs_demo scenario_keys (main_init fs_demo none 24 80)).running = 0 :=
  ⟨rfl, scenario_hi fs_demo 24 80 rfl⟩

/-! ## The key decoder -/

theorem char_val_esc (char_signed : Bool) : char_val char_signed 27 = 27 := by
  cases char_signed <;> rfl

theorem esc_buf_cells (buf : List Nat) (h : buf.length = ESC_BUF_SIZE) :
    ∃ b0 b1 b2 b3 b4 b5 b6 b7, buf = [b0, b1, b2, b3, b4, b5, b6, b7] := by
  match buf, h with
  | [b0, b1, b2, b3, b4, b5, b6, b7], _ => exact ⟨b0, b1, b2, b3, b4, b5, b6, b7, rfl⟩

/-- C8: each sequence of the table, fed from Idle with all its bytes available,
makes `read_key` return exactly one key, the key of the table, on the call that
consumes the last byte; the calls before return no key, and the decoder is in
Idle afterwards.  The first call consumes ESC and the byte after it, so a
sequence of n bytes takes n - 1 calls. -/
theorem table_sequences_decode (char_signed : Bool) (buf : List Nat)
    (hbuf : buf.length = ESC_BUF_SIZE) (e : List Nat × Int) (he : e ∈ esc_table) :
    (read_keys char_signed (e.1.length - 1) { esc_buf := buf, esc_len := 0 }
        (e.1.map some)).1 = List.replicate (e.1.length - 2) KEY_NONE ++ [e.2] ∧
    e.2 ≠ KEY_NONE ∧
    (read_keys char_signed (e.1.length - 1) { esc_buf := buf, esc_len := 0 }
        (e.1.map some)).2.1.esc_len = 0 ∧
    (read_keys char_signed (e.1.length - 1) { esc_buf := buf, esc_len := 0 }
        (e.1.map some)).2.2 = [] ∧
    (read_keys char_signed (e.1.length - 2) { esc_buf := buf, esc_len := 0 }
        (e.1.map some)).2.2 = (e.1.drop (e.1.length - 1)).map some := by
  obtain ⟨b0, b1, b2, b3, b4, b5, b6, b7, rfl⟩ := esc_buf_cells buf hbuf
  simp only [esc_table, List.mem_cons, List.mem_singleton, List.not_mem_nil, or_false] at he
  have h27 := char_val_esc char_signed
  rcases he with rfl | rfl | rfl | rfl | rfl | rfl | rfl | rfl | rfl | rfl | rfl <;>
    simp [read_keys, read_key, read_byte, esc_pending, memcmp_eq, h27]

theorem table_sequences_decode_witness :
    ([0, 0, 0, 0, 0, 0, 0, 0] : List Nat).length = ESC_BUF_SIZE ∧
    (([27, 91, 65], KEY_UP) : List Nat × Int) ∈ esc_table ∧
    (read_keys false 2 { esc_buf := [0, 0, 0, 0, 0, 0, 0, 0], esc_len := 0 }
        [some 27, some 91, some 65]).1 = [KEY_NONE, KEY_UP] :=
  ⟨rfl, by decide,
   (table_sequences_decode false [0, 0, 0, 0, 0, 0, 0, 0] rfl ([27, 91, 65], KEY_UP)
      (by decide)).1⟩

/-- C9 as stated fails: fed ESC O A from Idle, `read_key` returns no key on
either call, never Up, and the decoder is left collecting with three bytes in
the escape buffer. -/
theorem ss3_arrow_not_decoded :
    (read_keys false 2 { esc_buf := [0, 0, 0, 0, 0, 0, 0, 0], esc_len := 0 }
        [some 27, some 79, some 65])
      = ([KEY_NONE, KEY_NONE], { esc_buf := [27, 79, 65, 0, 0, 0, 0, 0], esc_len := 3 }, []) ∧
    KEY_UP ∉ (read_keys false 2 { esc_buf := [0, 0, 0, 0, 0, 0, 0, 0], esc_len := 0 }
        [some 27, some 79, some 65]).1 := by
  decide

/-- C9 (amended): the decoder recognises the arrow keys in the CSI form only.
From Idle, ESC [ A, ESC [ B, ESC [ C and ESC [ D decode to exactly one Up, Down,
Right and Left key and leave the decoder in Idle; ESC O A, ESC O B, ESC O C and
ESC O D return no key and leave the decoder collecting, with the three bytes in
the escape buffer. -/
theorem arrows_csi_only (char_signed : Bool) (buf : List Nat)
    (hbuf : buf.length = ESC_BUF_SIZE) (c : Nat) (hc : c = 65 ∨ c = 66 ∨ c = 67 ∨ c = 68) :
    (read_keys char_signed 2 { esc_buf := buf, esc_len := 0 }
        [some 27, some 91, some c]).1 = [KEY_NONE, arrow_key c] ∧
    arrow_key c ≠ KEY_NONE ∧
    (read_keys char_signed 2 { esc_buf := buf, esc_len := 0 }
        [some 27, some 91, some c]).2.1.esc_len = 0 ∧
    (read_keys char_signed 2 { esc_buf := buf, esc_len := 0 }
        [some 27, some 79, some c]).1 = [KEY_NONE, KEY_NONE] ∧
    (read_keys char_signed 2 { esc_buf := buf, esc_len := 0 }
        [some 27, some 79, some c]).2.1.esc_len = 3 ∧
    (read_keys char_signed 2 { esc_buf := buf, esc_len := 0 }
        [some 27, some 79, some c]).2.1.esc_buf.take 3 = [27, 79, c] := by
  obtain ⟨b0, b1, b2, b3, b4, b5, b6, b7, rfl⟩ := esc_buf_cells buf hbuf
  have h27 := char_val_esc char_signed
  rcases hc with rfl | rfl | rfl | rfl <;>
    simp [read_keys, read_key, read_byte, esc_pending, memcmp_eq, h27, arrow_key]

theorem arrows_csi_only_witness :
    ([0, 0, 0, 0, 0, 0, 0, 0] : List Nat).length = ESC_BUF_SIZE ∧
    (read_keys false 2 { esc_buf := [0, 0, 0, 0, 0, 0, 0, 0], esc_len := 0 }
        [some 27, some 91, some 66]).1 = [KEY_NONE, arrow_key 66] ∧
    (read_keys false 2 { esc_buf := [0, 0, 0, 0, 0, 0, 0, 0], esc_len := 0 }
        [some 27, some 79, some 66]).1 = [KEY_NONE, KEY_NONE] :=
  ⟨rfl,
   (arrows_csi_only false [0, 0, 0, 0, 0, 0, 0, 0] rfl 66 (by decide)).1,
   (arrows_csi_only false [0, 0, 0, 0, 0, 0, 0, 0] rfl 66 (by decide)).2.2.2.1⟩

/-- C10: from Idle, when `read_key` reads ESC and the one further read it makes
yields nothing, it returns `KEY_ESC` and the decoder is in Idle; exactly two
read outcomes are consumed, the ESC and the empty read.  When the further read
yields a byte, the byte is stored after the ESC in the escape buffer, which then
holds two bytes, and the call returns no key. -/
theorem lone_escape (char_signed : Bool) (buf : List Nat) (hbuf : buf.length = ESC_BUF_SIZE)
    (b : Nat) (rest : List (Option Nat)) :
    read_key char_signed { esc_buf := buf, esc_len := 0 } (some 27 :: none :: rest)
      = (KEY_ESC, { esc_buf := buf.set 0 27, esc_len := 0 }, rest) ∧
    read_key char_signed { esc_buf := buf, esc_len := 0 } [some 27]
      = (KEY_ESC, { esc_buf := buf.set 0 27, esc_len := 0 }, []) ∧
    read_key char_signed { esc_buf := buf, esc_len := 0 } (some 27 :: some b :: rest)
      = (KEY_NONE, { esc_buf := (buf.set 0 27).set 1 b, esc_len := 2 }, rest) ∧
    ((buf.set 0 27).set 1 b).take 2 = [27, b] := by
  obtain ⟨b0, b1, b2, b3, b4, b5, b6, b7, rfl⟩ := esc_buf_cells buf hbuf
  have h27 := char_val_esc char_signed
  simp [read_key, read_byte, esc_pending, memcmp_eq, h27]

theorem lone_escape_witness :
    ([0, 0, 0, 0, 0, 0, 0, 0] : List Nat).length = ESC_BUF_SIZE ∧
    read_key false { esc_buf := [0, 0, 0, 0, 0, 0, 0, 0], esc_len := 0 }
        [some 27, none, some 65]
      = (KEY_ESC, { esc_buf := [27, 0, 0, 0, 0, 0, 0, 0], esc_len := 0 }, [some 65]) :=
  ⟨rfl, (lone_escape false [0, 0, 0, 0, 0, 0, 0, 0] rfl 0 [some 65]).1⟩

theorem ite_elim {α : Type} {P : α → Prop} {c : Prop} [Decidable c] {a b : α}
    (ha : c → P a) (hb : ¬c → P b) : P (if c then a else b) := by
  split_ifs with h
  · exact ha h
  · exact hb h

theorem esc_pending_key (buf : List Nat) (len : Nat) (inp : List (Option Nat)) :
    (esc_pending buf len inp).1 = KEY_NONE := by
  unfold esc_pending
  split_ifs <;> rfl

/-- Every call of `read_key` returns no key or a decoded key: a printable
character or one of the special keys. -/
theorem read_key_decoded (char_signed : Bool) (d : Decoder) (inp : List (Option Nat)) :
    (read_key char_signed d inp).1 = KEY_NONE ∨ decoded_key (read_key char_signed d inp).1 := by
  rcases inp with _ | ⟨_ | c, inp1⟩
  · exact Or.inl rfl
  · exact Or.inl rfl
  · unfold read_key
    refine ite_elim (P := fun r : Int × Decoder × List (Option Nat) =>
      r.1 = KEY_NONE ∨ decoded_key r.1) (fun _ => ?_) (fun _ => ?_)
    · iterate 11
        refine ite_elim (P := fun r : Int × Decoder × List (Option Nat) =>
          r.1 = KEY_NONE ∨ decoded_key r.1)
          (fun _ => Or.inr (Or.inr ⟨by dsimp only; decide, by dsimp only; decide⟩))
          (fun _ => ?_)
      refine ite_elim (P := fun r : Int × Decoder × List (Option Nat) =>
          r.1 = KEY_NONE ∨ decoded_key r.1) (fun _ => ?_) (fun _ => ?_)
      · rcases inp1 with _ | ⟨_ | c2, inp2⟩
        · exact Or.inr (Or.inr ⟨by dsimp only [read_byte]; decide,
            by dsimp only [read_byte]; decide⟩)
        · exact Or.inr (Or.inr ⟨by dsimp only [read_byte]; decide,
            by dsimp only [read_byte]; decide⟩)
        · exact Or.inl (esc_pending_key _ _ _)
      · exact Or.inl (esc_pending_key _ _ _)
    · refine ite_elim (P := fun r : Int × Decoder × List (Option Nat) =>
        r.1 = KEY_NONE ∨ decoded_key r.1)
        (fun _ => Or.inr (Or.inr ⟨by dsimp only; decide, by dsimp only; decide⟩))
        (fun _ => ?_)
      refine ite_elim (P := fun r : Int × Decoder × List (Option Nat) =>
        r.1 = KEY_NONE ∨ decoded_key r.1)
        (fun _ => Or.inr (Or.inr ⟨by dsimp only; decide, by dsimp only; decide⟩))
        (fun _ => ?_)
      refine ite_elim (P := fun r : Int × Decoder × List (Option Nat) =>
        r.1 = KEY_NONE ∨ decoded_key r.1) (fun h => ?_) (fun _ => Or.inl rfl)
      exact Or.inr (Or.inl h)

/-! ## Which keys change the Document without setting the flag -/

theorem move_left_frame (E : Editor) :
    (move_left E).lines = E.lines ∧ (move_left E).status = E.status ∧
    (move_left E).mode = E.mode := by
  unfold move_left
  split_ifs <;> exact ⟨rfl, rfl, rfl⟩

theorem move_right_frame (E : Editor) :
    (move_right E).lines = E.lines ∧ (move_right E).status = E.status ∧
    (move_right E).mode = E.mode :=
  ⟨rfl, rfl, rfl⟩

theorem move_up_frame (E : Editor) :
    (move_up E).lines = E.lines ∧ (move_up E).status = E.status ∧
    (move_up E).mode = E.mode := by
  unfold move_up
  split_ifs <;> exact ⟨rfl, rfl, rfl⟩

theorem move_down_frame (E : Editor) :
    (move_down E).lines = E.lines ∧ (move_down E).status = E.status ∧
    (move_down E).mode = E.mode := by
  unfold move_down
  split_ifs <;> exact ⟨rfl, rfl, rfl⟩

theorem delete_char_at_changed (c : Int) (E : Editor) :
    (delete_char_at c E).status = E.status ∧ (delete_char_at c E).mode = E.mode ∧
    ((delete_char_at c E).lines = E.lines ∨ (delete_char_at c E).modified = 1) := by
  unfold delete_char_at
  dsimp only
  split_ifs
  · exact ⟨rfl, rfl, Or.inl rfl⟩
  · exact ⟨rfl, rfl, Or.inr rfl⟩

theorem delete_line_at_status (idx : Int) (E : Editor) :
    (delete_line_at idx E).status = E.status := by
  unfold delete_line_at insert_line_at
  dsimp only
  split_ifs <;> rfl

/-- In Normal mode every key leaves the status empty, and every key other than
`d` either leaves the lines as they are or sets the modified flag. -/
theorem handle_normal_changed (key : Int) (E : Editor) :
    (handle_normal key E).status = [] ∧
    ((handle_normal key E).lines = E.lines ∨ (handle_normal key E).modified = 1 ∨
      key = 100) := by
  obtain ⟨d1, -, d3⟩ := delete_char_at_changed E.cur_col { E with status := [] }
  have d4 := delete_line_at_status E.cur_row { E with status := [] }
  have hstep := @ite_elim Editor (fun X : Editor => X.status = [] ∧
    (X.lines = E.lines ∨ X.modified = 1 ∨ key = 100))
  unfold handle_normal handle_normal_switch
  refine hstep (fun _ => ?_) (fun _ => ?_)
  · exact ⟨(move_left_frame _).2.1, Or.inl (move_left_frame _).1⟩
  refine hstep (fun _ => ?_) (fun _ => ?_)
  · exact ⟨(move_down_frame _).2.1, Or.inl (move_down_frame _).1⟩
  refine hstep (fun _ => ?_) (fun _ => ?_)
  · exact ⟨(move_up_frame _).2.1, Or.inl (move_up_frame _).1⟩
  refine hstep (fun _ => ?_) (fun _ => ?_)
  · exact ⟨rfl, Or.inl rfl⟩
  refine hstep (fun _ => ?_) (fun _ => ?_)
  · exact ⟨rfl, Or.inl rfl⟩
  refine hstep (fun _ => ?_) (fun _ => ?_)
  · exact ⟨rfl, Or.inl rfl⟩
  refine hstep (fun _ => ?_) (fun _ => ?_)
  · exact ⟨rfl, Or.inl rfl⟩
  refine hstep (fun _ => ?_) (fun _ => ?_)
  · exact ⟨rfl, Or.inl rfl⟩
  refine hstep (fun _ => ?_) (fun _ => ?_)
  · exact ⟨rfl, Or.inl rfl⟩
  refine hstep (fun _ => ?_) (fun _ => ?_)
  · exact ⟨rfl, Or.inr (Or.inl rfl)⟩
  refine hstep (fun _ => ?_) (fun _ => ?_)
  · exact ⟨rfl, Or.inr (Or.inl rfl)⟩
  refine hstep (fun _ => ?_) (fun _ => ?_)
  · refine hstep (fun _ => ?_) (fun _ => ?_)
    · refine ⟨d1, ?_⟩
      rcases d3 with d3 | d3
      · exact Or.inl d3
      · exact Or.inr (Or.inl d3)
    · exact ⟨rfl, Or.inl rfl⟩
  refine hstep (fun hd => ?_) (fun _ => ?_)
  · exact ⟨d4, Or.inr (Or.inr hd)⟩
  refine hstep (fun _ => ?_) (fun _ => ?_)
  · exact ⟨rfl, Or.inl rfl⟩
  refine hstep (fun _ => ?_) (fun _ => ?_)
  · exact ⟨rfl, Or.inl rfl⟩
  refine hstep (fun _ => ?_) (fun _ => ?_)
  · exact ⟨rfl, Or.inl rfl⟩
  · exact ⟨rfl, Or.inl rfl⟩

theorem backspace_char_changed (E : Editor) :
    (backspace_char E).status = E.status ∧ (backspace_char E).mode = E.mode ∧
    ((backspace_char E).lines = E.lines ∨ (backspace_char E).modified = 1) := by
  have hstep := @ite_elim Editor (fun X : Editor => X.status = E.status ∧ X.mode = E.mode ∧
    (X.lines = E.lines ∨ X.modified = 1))
  unfold backspace_char
  refine hstep (fun _ => ?_) (fun _ => ?_)
  · exact delete_char_at_changed _ { E with cur_col := E.cur_col - 1 }
  refine hstep (fun _ => ?_) (fun _ => ?_)
  · refine ⟨?_, ?_, Or.inr rfl⟩
    · exact delete_line_at_status _ _
    · exact (delete_line_at_fields _ _).2.2.1
  · exact ⟨rfl, rfl, Or.inl rfl⟩

/-- In Insert mode every key leaves the status as it is, and either leaves the
lines as they are or sets the modified flag. -/
theorem handle_insert_changed (key : Int) (E : Editor) :
    (handle_insert key E).status = E.status ∧
    ((handle_insert key E).lines = E.lines ∨ (handle_insert key E).modified = 1) := by
  have hstep := @ite_elim Editor (fun X : Editor => X.status = E.status ∧
    (X.lines = E.lines ∨ X.modified = 1))
  obtain ⟨b1, -, b3⟩ := backspace_char_changed E
  obtain ⟨d1, -, d3⟩ := delete_char_at_changed E.cur_col E
  unfold handle_insert
  refine hstep (fun _ => ?_) (fun _ => ?_)
  · dsimp only
    constructor
    · show (if E.cur_col > 0 then _ else _ : Editor).status = E.status
      split_ifs <;> rfl
    · left
      show (if E.cur_col > 0 then _ else _ : Editor).lines = E.lines
      split_ifs <;> rfl
  refine hstep (fun _ => ?_) (fun _ => ?_)
  · exact ⟨(move_up_frame _).2.1, Or.inl (move_up_frame _).1⟩
  refine hstep (fun _ => ?_) (fun _ => ?_)
  · exact ⟨(move_down_frame _).2.1, Or.inl (move_down_frame _).1⟩
  refine hstep (fun _ => ?_) (fun _ => ?_)
  · exact ⟨(move_left_frame _).2.1, Or.inl (move_left_frame _).1⟩
  refine hstep (fun _ => ?_) (fun _ => ?_)
  · exact ⟨rfl, Or.inl rfl⟩
  refine hstep (fun _ => ?_) (fun _ => ?_)
  · exact ⟨b1, b3⟩
  refine hstep (fun _ => ?_) (fun _ => ?_)
  · exact ⟨d1, d3⟩
  refine hstep (fun _ => ?_) (fun _ => ?_)
  · exact ⟨rfl, Or.inr rfl⟩
  refine hstep (fun _ => ?_) (fun _ => ?_)
  · exact ⟨rfl, Or.inl rfl⟩
  refine hstep (fun _ => ?_) (fun _ => ?_)
  · exact ⟨rfl, Or.inl rfl⟩
  refine hstep (fun _ => ?_) (fun _ => ?_)
  · exact ⟨rfl, Or.inr rfl⟩
  · exact ⟨rfl, Or.inl rfl⟩

theorem handle_normal_mode (key : Int) (E : Editor) :
    (handle_normal key E).mode = MODE_INSERT → (handle_normal key E).status = [] :=
  fun _ => (handle_normal_changed key E).1

theorem handle_command_mode (fs : FS) (key : Int) (E : Editor) (hm : E.mode = MODE_COMMAND) :
    (handle_command fs key E).mode ≠ MODE_INSERT ∧
    (handle_command fs key E).lines = E.lines := by
  have hstep := @ite_elim Editor (fun X : Editor => X.mode ≠ MODE_INSERT ∧ X.lines = E.lines)
  have hc : E.mode ≠ MODE_INSERT := by rw [hm]; decide
  have hn : MODE_NORMAL ≠ MODE_INSERT := by decide
  unfold handle_command
  refine hstep (fun _ => ?_) (fun _ => ?_)
  · exact ⟨hn, rfl⟩
  refine hstep (fun _ => ?_) (fun _ => ?_)
  · exact ⟨hn, (exec_command_frame fs E).1⟩
  refine hstep (fun _ => ?_) (fun _ => ?_)
  · refine hstep (fun _ => ?_) (fun _ => ?_)
    · exact ⟨hc, rfl⟩
    · exact ⟨hn, rfl⟩
  refine hstep (fun _ => ?_) (fun _ => ?_)
  · exact ⟨hc, rfl⟩
  · exact ⟨hc, rfl⟩

theorem main_init_mode (fs : FS) (argv1 : Option (List Nat)) (rows cols : Int) :
    (main_init fs argv1 rows cols).mode = MODE_NORMAL := by
  unfold main_init
  cases argv1 with
  | none => rfl
  | some path =>
    dsimp only
    unfold load_file
    cases fs.fopen_r path with
    | none => rfl
    | some f =>
      dsimp only
      obtain ⟨ls, hls⟩ := load_lines_frame f
        { editor_zero with
          running := 1, mode := MODE_NORMAL, screen_rows := rows, screen_cols := cols,
          filepath := strncpy_filepath path }
      rw [hls]
      split_ifs <;> rfl

/-- In every session state that is in Insert mode the status is empty: Insert
mode is entered from Normal mode only, where every key clears the status, and
no key of Insert mode sets it. -/
theorem reachable_insert_status (E : Editor) (h : Reachable E) :
    E.mode = MODE_INSERT → E.status = [] := by
  induction h with
  | init fs argv1 rows cols =>
    intro hm
    rw [main_init_mode] at hm
    exact absurd hm (by decide)
  | draw E _ ih => exact ih
  | step fs key E _ _ ih =>
    unfold dispatch_key
    refine ite_elim (P := fun X : Editor => X.mode = MODE_INSERT → X.status = [])
      (fun _ => ?_) (fun m1 => ?_)
    · exact handle_normal_mode key E
    refine ite_elim (P := fun X : Editor => X.mode = MODE_INSERT → X.status = [])
      (fun m2 => ?_) (fun m2 => ?_)
    · intro _
      rw [(handle_insert_changed key E).1]
      exact ih m2
    refine ite_elim (P := fun X : Editor => X.mode = MODE_INSERT → X.status = [])
      (fun m3 => ?_) (fun _ => ?_)
    · intro hm
      exact absurd hm (handle_command_mode fs key E m3).1
    · intro hm
      exact absurd hm m2

/-- Apart from the key `d` in Normal mode, every decoded key that changes the
Document in a session state sets the modified flag and leaves the status
empty. -/
theorem mutation_sets_modified (fs : FS) (key : Int) (E : Editor) (h : Reachable E)
    (hk : decoded_key key) (hd : ¬(E.mode = MODE_NORMAL ∧ key = 100))
    (hc : (dispatch_key fs key E).lines ≠ E.lines) :
    (dispatch_key fs key E).modified = 1 ∧ (dispatch_key fs key E).status = [] := by
  have hst := reachable_insert_status E h
  unfold dispatch_key at hc ⊢
  by_cases m1 : E.mode = MODE_NORMAL
  · rw [if_pos m1] at hc ⊢
    obtain ⟨n1, n2⟩ := handle_normal_changed key E
    refine ⟨?_, n1⟩
    rcases n2 with n2 | n2 | n2
    · exact absurd n2 hc
    · exact n2
    · exact absurd ⟨m1, n2⟩ hd
  rw [if_neg m1] at hc ⊢
  by_cases m2 : E.mode = MODE_INSERT
  · rw [if_pos m2] at hc ⊢
    obtain ⟨n1, n2⟩ := handle_insert_changed key E
    refine ⟨?_, by rw [n1]; exact hst m2⟩
    rcases n2 with n2 | n2
    · exact absurd n2 hc
    · exact n2
  rw [if_neg m2] at hc ⊢
  by_cases m3 : E.mode = MODE_COMMAND
  · rw [if_pos m3] at hc
    exact absurd (handle_command_mode fs key E m3).2 hc
  · rw [if_neg m3] at hc
    exact absurd rfl hc

/-! ## Plain bytes and unknown escape sequences -/

theorem char_val_cases (char_signed : Bool) (b : Nat) (hb : b < 256) :
    (b < 128 ∧ char_val char_signed b = b) ∨
    (128 ≤ b ∧ (char_val char_signed b = b ∨ char_val char_signed b = (b : Int) - 256)) := by
  unfold char_val
  cases char_signed
  · by_cases h : b < 128
    · exact Or.inl ⟨h, by simp⟩
    · exact Or.inr ⟨by omega, Or.inl (by simp)⟩
  · by_cases h : b < 128
    · exact Or.inl ⟨h, by rw [if_neg (by omega)]⟩
    · exact Or.inr ⟨by omega, Or.inr (by rw [if_pos ⟨rfl, by omega⟩])⟩

/-- C11: in Idle, for every byte other than ESC, `read_key` returns Backspace
for 0x7F and 0x08, Enter for CR and newline, the character itself for 0x20 to
0x7E, and no key for every other byte (the other control bytes and every byte
from 0x80 on, with `char` signed or unsigned); the escape buffer and `esc_len`
stay as they were, and exactly the one byte is consumed. -/
theorem idle_plain_byte (char_signed : Bool) (buf : List Nat) (b : Nat)
    (rest : List (Option Nat)) (hb : b < 256) (hesc : b ≠ 27) :
    (b = 127 ∨ b = 8 →
      read_key char_signed { esc_buf := buf, esc_len := 0 } (some b :: rest)
        = (KEY_BACKSPACE, { esc_buf := buf, esc_len := 0 }, rest)) ∧
    (b = 13 ∨ b = 10 →
      read_key char_signed { esc_buf := buf, esc_len := 0 } (some b :: rest)
        = (KEY_ENTER, { esc_buf := buf, esc_len := 0 }, rest)) ∧
    (32 ≤ b ∧ b ≤ 126 →
      read_key char_signed { esc_buf := buf, esc_len := 0 } (some b :: rest)
        = ((b : Int), { esc_buf := buf, esc_len := 0 }, rest)) ∧
    (¬(b = 127 ∨ b = 8) ∧ ¬(b = 13 ∨ b = 10) ∧ ¬(32 ≤ b ∧ b ≤ 126) →
      read_key char_signed { esc_buf := buf, esc_len := 0 } (some b :: rest)
        = (KEY_NONE, { esc_buf := buf, esc_len := 0 }, rest)) := by
  have hv := char_val_cases char_signed b hb
  have hne : ¬((0 : Nat) > 0 ∨ char_val char_signed b = 27) := by
    rintro (h | h)
    · omega
    · rcases hv with ⟨h0, h1⟩ | ⟨h0, h1 | h1⟩ <;> omega
  have hstep : read_key char_signed { esc_buf := buf, esc_len := 0 } (some b :: rest)
      = (if char_val char_signed b = 127 ∨ char_val char_signed b = 8 then
          (KEY_BACKSPACE, { esc_buf := buf, esc_len := 0 }, rest)
        else if char_val char_signed b = 13 ∨ char_val char_signed b = 10 then
          (KEY_ENTER, { esc_buf := buf, esc_len := 0 }, rest)
        else if char_val char_signed b ≥ 32 ∧ char_val char_signed b < 127 then
          (char_val char_signed b, { esc_buf := buf, esc_len := 0 }, rest)
        else (KEY_NONE, { esc_buf := buf, esc_len := 0 }, rest)) := by
    unfold read_key
    exact if_neg hne
  rw [hstep]
  refine ⟨fun h => ?_, fun h => ?_, fun h => ?_, fun h => ?_⟩
  · rw [if_pos]
    rcases hv with ⟨h0, h1⟩ | ⟨h0, h1 | h1⟩ <;> omega
  · rw [if_neg, if_pos]
    all_goals rcases hv with ⟨h0, h1⟩ | ⟨h0, h1 | h1⟩ <;> omega
  · have h1 : char_val char_signed b = b := by
      rcases hv with ⟨h0, h1⟩ | ⟨h0, h1 | h1⟩ <;> omega
    rw [if_neg (by omega), if_neg (by omega), if_pos (by omega), h1]
  · rw [if_neg, if_neg, if_neg]
    all_goals rcases hv with ⟨h0, h1⟩ | ⟨h0, h1 | h1⟩ <;> omega

theorem idle_plain_byte_witness :
    200 < 256 ∧ 200 ≠ 27 ∧
    (¬(200 = 127 ∨ 200 = 8) ∧ ¬(200 = 13 ∨ 200 = 10) ∧ ¬(32 ≤ 200 ∧ 200 ≤ 126)) ∧
    read_key true { esc_buf := [0, 0, 0, 0, 0, 0, 0, 0], esc_len := 0 } [some 200, some 97]
      = (KEY_NONE, { esc_buf := [0, 0, 0, 0, 0, 0, 0, 0], esc_len := 0 }, [some 97]) :=
  ⟨by decide, by decide, by decide,
   (idle_plain_byte true [0, 0, 0, 0, 0, 0, 0, 0] 200 [some 97] (by decide) (by decide)).2.2.2
     (by decide)⟩

theorem read_key_esc_start (char_signed : Bool) (buf : List Nat) (b : Nat)
    (rest : List (Option Nat)) :
    read_key char_signed { esc_buf := buf, esc_len := 0 } (some 27 :: some b :: rest)
      = (KEY_NONE, { esc_buf := (buf.set 0 27).set 1 b, esc_len := 2 }, rest) := by
  have h27 := char_val_esc char_signed
  simp [read_key, read_byte, esc_pending, memcmp_eq, h27]

/-- One call of `read_key` while an escape sequence is collected: when the
buffer with the new byte matches no entry of the table, the byte is stored and
the call ends in `esc_pending`. -/
theorem read_key_collect (char_signed : Bool) (buf : List Nat) (n c : Nat)
    (inp1 : List (Option Nat)) (hn : 0 < n)
    (hno : ∀ e ∈ esc_table,
      ¬(n + 1 ≥ e.1.length ∧ memcmp_eq (buf.set n c) e.1 e.1.length = true)) :
    read_key char_signed { esc_buf := buf, esc_len := n } (some c :: inp1)
      = esc_pending (buf.set n c) (n + 1) inp1 := by
  unfold read_key
  refine (if_pos (Or.inl hn)).trans ?_
  refine (if_neg (hno ([27, 91, 65], KEY_UP) (by decide))).trans ?_
  refine (if_neg (hno ([27, 91, 66], KEY_DOWN) (by decide))).trans ?_
  refine (if_neg (hno ([27, 91, 67], KEY_RIGHT) (by decide))).trans ?_
  refine (if_neg (hno ([27, 91, 68], KEY_LEFT) (by decide))).trans ?_
  refine (if_neg (hno ([27, 91, 72], KEY_HOME) (by decide))).trans ?_
  refine (if_neg (hno ([27, 91, 70], KEY_END) (by decide))).trans ?_
  refine (if_neg (hno ([27, 79, 72], KEY_HOME) (by decide))).trans ?_
  refine (if_neg (hno ([27, 79, 70], KEY_END) (by decide))).trans ?_
  refine (if_neg (hno ([27, 91, 51, 126], KEY_DELETE) (by decide))).trans ?_
  refine (if_neg (hno ([27, 91, 49, 126], KEY_HOME) (by decide))).trans ?_
  refine (if_neg (hno ([27, 91, 52, 126], KEY_END) (by decide))).trans ?_
  exact if_neg (show ¬(n + 1 = 1) by omega)

/-- A buffer whose first bytes are the first bytes of a stream matches no entry
of the table when no entry is a prefix of the stream. -/
theorem no_entry_matches (buf s : List Nat) (m : Nat)
    (hacc : buf.take m = s.take m) (hno : ∀ e ∈ esc_table, ¬(e.1 <+: s)) :
    ∀ e ∈ esc_table, ¬(m ≥ e.1.length ∧ memcmp_eq buf e.1 e.1.length = true) := by
  intro e he ⟨hlen, hm⟩
  apply hno e he
  unfold memcmp_eq at hm
  have h1 : buf.take e.1.length = e.1 := by
    have := eq_of_beq hm
    rw [List.take_length] at this
    exact this
  have h2 : (buf.take m).take e.1.length = (s.take m).take e.1.length := by rw [hacc]
  rw [List.take_take, List.take_take, min_eq_left hlen, h1] at h2
  rw [h2]
  exact List.take_prefix _ _

/-- C12 as stated fails: on the stream ESC, `x` six times, `a`, of which no
prefix is an entry of the table, the decoder is back in Idle after the sixth
call, when the buffer holds 7 bytes and the eighth byte is still unread; the
seventh call then returns that byte as the character key `a`, so the buffer is
discarded before it holds `ESC_BUF_SIZE` = 8 bytes. -/
theorem unknown_escape_resets_at_seven :
    (∀ e ∈ esc_table, ¬(e.1 <+: [27, 120, 120, 120, 120, 120, 120, 97])) ∧
    (read_keys false 5 { esc_buf := [0, 0, 0, 0, 0, 0, 0, 0], esc_len := 0 }
        [some 27, some 120, some 120, some 120, some 120, some 120, some 120,
         some 97]).2.1.esc_len = 6 ∧
    (read_keys false 6 { esc_buf := [0, 0, 0, 0, 0, 0, 0, 0], esc_len := 0 }
        [some 27, some 120, some 120, some 120, some 120, some 120, some 120, some 97]).2
      = ({ esc_buf := [27, 120, 120, 120, 120, 120, 120, 0], esc_len := 0 }, [some 97]) ∧
    (read_keys false 7 { esc_buf := [0, 0, 0, 0, 0, 0, 0, 0], esc_len := 0 }
        [some 27, some 120, some 120, some 120, some 120, some 120, some 120, some 97]).1
      = [KEY_NONE, KEY_NONE, KEY_NONE, KEY_NONE, KEY_NONE, KEY_NONE, 97] := by
  decide

/-- C12 (amended): for every stream of 7 available bytes that starts with ESC and
of which no prefix is an entry of the table, `read_key` returns no key on any
call and keeps accumulating (after k calls, k from 1 to 5, the buffer holds
k + 1 bytes), until the buffer holds `ESC_BUF_SIZE - 1` = 7 bytes on the sixth
call; at that point `esc_len` is reset and the decoder is in Idle. -/
theorem unknown_escape_discarded (char_signed : Bool) (buf : List Nat)
    (hbuf : buf.length = ESC_BUF_SIZE) (b1 b2 b3 b4 b5 b6 : Nat)
    (hno : ∀ e ∈ esc_table, ¬(e.1 <+: [27, b1, b2, b3, b4, b5, b6])) :
    (∀ k, 1 ≤ k → k ≤ 5 →
      (read_keys char_signed k { esc_buf := buf, esc_len := 0 }
          [some 27, some b1, some b2, some b3, some b4, some b5, some b6]).1
        = List.replicate k KEY_NONE ∧
      (read_keys char_signed k { esc_buf := buf, esc_len := 0 }
          [some 27, some b1, some b2, some b3, some b4, some b5, some b6]).2.1.esc_len
        = k + 1) ∧
    read_keys char_signed 6 { esc_buf := buf, esc_len := 0 }
        [some 27, some b1, some b2, some b3, some b4, some b5, some b6]
      = (List.replicate 6 KEY_NONE,
         { esc_buf := [27, b1, b2, b3, b4, b5, b6] ++ buf.drop 7, esc_len := 0 }, []) := by
  obtain ⟨c0, c1, c2, c3, c4, c5, c6, c7, rfl⟩ := esc_buf_cells buf hbuf
  have s1 := read_key_esc_start char_signed [c0, c1, c2, c3, c4, c5, c6, c7] b1
    [some b2, some b3, some b4, some b5, some b6]
  have s2 := read_key_collect char_signed [27, b1, c2, c3, c4, c5, c6, c7] 2 b2
    [some b3, some b4, some b5, some b6] (by decide)
    (no_entry_matches _ [27, b1, b2, b3, b4, b5, b6] 3 rfl hno)
  have s3 := read_key_collect char_signed [27, b1, b2, c3, c4, c5, c6, c7] 3 b3
    [some b4, some b5, some b6] (by decide)
    (no_entry_matches _ [27, b1, b2, b3, b4, b5, b6] 4 rfl hno)
  have s4 := read_key_collect char_signed [27, b1, b2, b3, c4, c5, c6, c7] 4 b4
    [some b5, some b6] (by decide)
    (no_entry_matches _ [27, b1, b2, b3, b4, b5, b6] 5 rfl hno)
  have s5 := read_key_collect char_signed [27, b1, b2, b3, b4, c5, c6, c7] 5 b5
    [some b6] (by decide)
    (no_entry_matches _ [27, b1, b2, b3, b4, b5, b6] 6 rfl hno)
  have s6 := read_key_collect char_signed [27, b1, b2, b3, b4, b5, c6, c7] 6 b6
    [] (by decide)
    (no_entry_matches _ [27, b1, b2, b3, b4, b5, b6] 7 rfl hno)
  simp only [List.set_cons_zero, List.set_cons_succ, esc_pending] at s1 s2 s3 s4 s5 s6
  norm_num at s2 s3 s4 s5 s6
  constructor
  · intro k hk1 hk5
    interval_cases k <;> simp [read_keys, s1, s2, s3, s4, s5]
  · simp [read_keys, s1, s2, s3, s4, s5, s6]

theorem unknown_escape_discarded_witness :
    ([0, 0, 0, 0, 0, 0, 0, 0] : List Nat).length = ESC_BUF_SIZE ∧
    (∀ e ∈ esc_table, ¬(e.1 <+: [27, 120, 120, 120, 120, 120, 120])) ∧
    read_keys false 6 { esc_buf := [0, 0, 0, 0, 0, 0, 0, 0], esc_len := 0 }
        [some 27, some 120, some 120, some 120, some 120, some 120, some 120]
      = (List.replicate 6 KEY_NONE,
         { esc_buf := [27, 120, 120, 120, 120, 120, 120] ++ [0, 0, 0, 0, 0, 0, 0, 0].drop 7,
           esc_len := 0 }, []) :=
  ⟨rfl, by decide,
   (unknown_escape_discarded false [0, 0, 0, 0, 0, 0, 0, 0] rfl 120 120 120 120 120 120
      (by decide)).2⟩

/-! ## The command interpreter -/

theorem handle_command_enter (fs : FS) (E : Editor) :
    handle_command fs KEY_ENTER E = { exec_command fs E with mode := MODE_NORMAL } := rfl

theorem handle_command_esc (fs : FS) (E : Editor) :
    handle_command fs KEY_ESC E = { E with mode := MODE_NORMAL, status := [] } := rfl

theorem dispatch_key_command (fs : FS) (key : Int) (E : Editor) (hm : E.mode = MODE_COMMAND) :
    dispatch_key fs key E = handle_command fs key E := by
  unfold dispatch_key
  rw [if_neg (by rw [hm]; decide), if_neg (by rw [hm]; decide), if_pos hm]

theorem exec_command_q (fs : FS) (E : Editor) (h : skip_spaces E.cmd_buf = str "q") :
    exec_command fs E
      = if E.modified ≠ 0 then
          { E with status :=
              snprintf_status (str "No write since last change (add ! to override)") }
        else { E with running := 0 } := by
  unfold exec_command
  dsimp only
  rw [if_pos h]

theorem exec_command_q_bang (fs : FS) (E : Editor) (h : skip_spaces E.cmd_buf = str "q!") :
    exec_command fs E = { E with running := 0 } := by
  unfold exec_command
  dsimp only
  rw [if_neg (by rw [h]; decide), if_pos h]

theorem exec_command_w (fs : FS) (E : Editor) (h : skip_spaces E.cmd_buf = str "w") :
    exec_command fs E = (save_file fs none E).2 := by
  unfold exec_command
  dsimp only
  rw [if_neg (by rw [h]; decide), if_neg (by rw [h]; decide), if_pos h]

theorem exec_command_w_path (fs : FS) (E : Editor)
    (h : (skip_spaces E.cmd_buf).take 2 = str "w ") :
    exec_command fs E = (save_file fs (some ((skip_spaces E.cmd_buf).drop 2)) E).2 := by
  have h1 : skip_spaces E.cmd_buf ≠ str "q" := by
    intro h0; rw [h0] at h; exact absurd h (by decide)
  have h2 : skip_spaces E.cmd_buf ≠ str "q!" := by
    intro h0; rw [h0] at h; exact absurd h (by decide)
  have h3 : skip_spaces E.cmd_buf ≠ str "w" := by
    intro h0; rw [h0] at h; exact absurd h (by decide)
  unfold exec_command
  dsimp only
  rw [if_neg h1, if_neg h2, if_neg h3, if_pos h]

theorem exec_command_wq (fs : FS) (E : Editor)
    (h : skip_spaces E.cmd_buf = str "wq" ∨ skip_spaces E.cmd_buf = str "x") :
    exec_command fs E
      = if (save_file fs none E).1 ≠ 0 then { (save_file fs none E).2 with running := 0 }
        else (save_file fs none E).2 := by
  have h1 : skip_spaces E.cmd_buf ≠ str "q" := by
    rcases h with h | h <;> (rw [h]; decide)
  have h2 : skip_spaces E.cmd_buf ≠ str "q!" := by
    rcases h with h | h <;> (rw [h]; decide)
  have h3 : skip_spaces E.cmd_buf ≠ str "w" := by
    rcases h with h | h <;> (rw [h]; decide)
  have h4 : (skip_spaces E.cmd_buf).take 2 ≠ str "w " := by
    rcases h with h | h <;> (rw [h]; decide)
  unfold exec_command
  dsimp only
  rw [if_neg h1, if_neg h2, if_neg h3, if_neg h4, if_pos h]

theorem exec_command_unknown (fs : FS) (E : Editor)
    (h : ¬is_recognised_command (skip_spaces E.cmd_buf)) (hne : skip_spaces E.cmd_buf ≠ []) :
    exec_command fs E
      = { E with status := snprintf_status (str "Unknown command: " ++ skip_spaces E.cmd_buf) } := by
  unfold is_recognised_command at h
  unfold exec_command
  dsimp only
  rw [if_neg (fun h0 => h (Or.inl h0)), if_neg (fun h0 => h (Or.inr (Or.inl h0))),
    if_neg (fun h0 => h (Or.inr (Or.inr (Or.inl h0)))),
    if_neg (fun h0 => h (Or.inr (Or.inr (Or.inr (Or.inl h0))))),
    if_neg (fun h0 => h (Or.inr (Or.inr (Or.inr (Or.inr h0))))), if_pos hne]

theorem exec_command_empty (fs : FS) (E : Editor) (h : skip_spaces E.cmd_buf = []) :
    exec_command fs E = E := by
  unfold exec_command
  dsimp only
  rw [if_neg (by rw [h]; decide), if_neg (by rw [h]; decide), if_neg (by rw [h]; decide),
    if_neg (by rw [h]; decide), if_neg (by rw [h]; decide), if_neg (by rw [h]; exact fun h0 => h0 rfl)]

/-- C13: the command `q` with the modified flag set changes the status only, to
the message asking for the override, so the running flag, the Document and the
modified flag stay as they were; `q` with the flag clear sets the running flag
to false; `q!` sets it to false whatever the modified flag is. -/
theorem unsaved_quit_guard (fs : FS) (E : Editor) :
    (skip_spaces E.cmd_buf = str "q" → E.modified ≠ 0 →
      exec_command fs E
        = { E with status :=
              snprintf_status (str "No write since last change (add ! to override)") } ∧
      (exec_command fs E).running = E.running ∧
      (exec_command fs E).lines = E.lines ∧
      (exec_command fs E).modified = E.modified ∧
      (exec_command fs E).status ≠ []) ∧
    (skip_spaces E.cmd_buf = str "q" → E.modified = 0 → (exec_command fs E).running = 0) ∧
    (skip_spaces E.cmd_buf = str "q!" → (exec_command fs E).running = 0) := by
  refine ⟨fun h hm => ?_, fun h hm => ?_, fun h => ?_⟩
  · rw [exec_command_q fs E h, if_pos hm]
    exact ⟨rfl, rfl, rfl, rfl, by dsimp only; decide⟩
  · rw [exec_command_q fs E h, if_neg (fun h0 => h0 hm)]
  · rw [exec_command_q_bang fs E h]

theorem unsaved_quit_guard_witness :
    skip_spaces ({ demo_unsaved with cmd_buf := str "q" } : Editor).cmd_buf = str "q" ∧
    ({ demo_unsaved with cmd_buf := str "q" } : Editor).modified ≠ 0 ∧
    (exec_command fs_demo { demo_unsaved with cmd_buf := str "q" }).running = 1 ∧
    (exec_command fs_demo { demo_unsaved with cmd_buf := str "q" }).status ≠ [] :=
  ⟨by decide, by decide,
   ((unsaved_quit_guard fs_demo { demo_unsaved with cmd_buf := str "q" }).1
      (by decide) (by decide)).2.1,
   ((unsaved_quit_guard fs_demo { demo_unsaved with cmd_buf := str "q" }).1
      (by decide) (by decide)).2.2.2.2⟩

/-- C14: for the commands `wq` and `x`, when the current path is not empty and
can be opened the lines are written to it and the running flag becomes false;
when the save fails (the current path is empty, or the file cannot be opened
for writing) only the status changes, to the message of the failure, so the
running flag and the modified flag stay as they were.  From a running state
the running flag becomes false if and only if the save succeeded. -/
theorem save_and_quit (fs : FS) (E : Editor)
    (hcmd : skip_spaces E.cmd_buf = str "wq" ∨ skip_spaces E.cmd_buf = str "x") :
    (E.filepath ≠ [] → fs.fopen_w E.filepath = true →
      (exec_command fs E).running = 0 ∧ (exec_command fs E).modified = 0 ∧
      (exec_command fs E).written = (E.filepath, file_bytes E.lines) :: E.written) ∧
    (E.filepath = [] →
      exec_command fs E = { E with status := snprintf_status (str "No filename") }) ∧
    (E.filepath ≠ [] → fs.fopen_w E.filepath = false →
      exec_command fs E
        = { E with status := snprintf_status (str "Cannot write: " ++ E.filepath) }) ∧
    (E.filepath = [] ∨ fs.fopen_w E.filepath = false →
      (exec_command fs E).running = E.running ∧
      (exec_command fs E).modified = E.modified ∧
      (exec_command fs E).status ≠ []) ∧
    (E.running ≠ 0 →
      ((exec_command fs E).running = 0 ↔
        (E.filepath ≠ [] ∧ fs.fopen_w E.filepath = true))) := by
  have ht : save_target none E = E.filepath := rfl
  have hok : E.filepath ≠ [] → fs.fopen_w E.filepath = true →
      exec_command fs E = { (save_file fs none E).2 with running := 0 } ∧
      (save_file fs none E).2.modified = 0 ∧
      (save_file fs none E).2.written = (E.filepath, file_bytes E.lines) :: E.written := by
    intro h1 h2
    rw [exec_command_wq fs E hcmd, save_file_ok fs none E h1 h2]
    exact ⟨rfl, rfl, rfl⟩
  have hnn : E.filepath = [] →
      exec_command fs E = { E with status := snprintf_status (str "No filename") } := by
    intro h1
    rw [exec_command_wq fs E hcmd, save_file_no_name fs none E h1]
    rfl
  have hcw : E.filepath ≠ [] → fs.fopen_w E.filepath = false →
      exec_command fs E
        = { E with status := snprintf_status (str "Cannot write: " ++ E.filepath) } := by
    intro h1 h2
    rw [exec_command_wq fs E hcmd, save_file_cannot_write fs none E h1 h2]
    rfl
  have hfail : E.filepath = [] ∨ fs.fopen_w E.filepath = false →
      (exec_command fs E).running = E.running ∧
      (exec_command fs E).modified = E.modified ∧
      (exec_command fs E).status ≠ [] := by
    intro h
    by_cases h1 : E.filepath = []
    · rw [hnn h1]
      exact ⟨rfl, rfl, by dsimp only; decide⟩
    · have h2 : fs.fopen_w E.filepath = false := by
        rcases h with h | h
        · exact absurd h h1
        · exact h
      rw [hcw h1 h2]
      refine ⟨rfl, rfl, ?_⟩
      simp [snprintf_status, str]
  refine ⟨fun h1 h2 => ?_, hnn, hcw, hfail, fun hr => ⟨fun h0 => ?_, fun h => ?_⟩⟩
  · obtain ⟨e1, e2, e3⟩ := hok h1 h2
    rw [e1]
    exact ⟨rfl, e2, e3⟩
  · by_contra hc
    have hf : E.filepath = [] ∨ fs.fopen_w E.filepath = false := by
      by_cases h1 : E.filepath = []
      · exact Or.inl h1
      · right
        cases h2 : fs.fopen_w E.filepath with
        | false => rfl
        | true => exact absurd ⟨h1, h2⟩ hc
    rw [(hfail hf).1] at h0
    exact hr h0
  · rw [(hok h.1 h.2).1]

theorem save_and_quit_witness :
    (skip_spaces ({ demo_unsaved with cmd_buf := str "wq", cmd_len := 2 } : Editor).cmd_buf
        = str "wq" ∨
      skip_spaces ({ demo_unsaved with cmd_buf := str "wq", cmd_len := 2 } : Editor).cmd_buf
        = str "x") ∧
    ({ demo_unsaved with cmd_buf := str "wq", cmd_len := 2 } : Editor).filepath ≠ [] ∧
    fs_demo.fopen_w
      ({ demo_unsaved with cmd_buf := str "wq", cmd_len := 2 } : Editor).filepath = true ∧
    (exec_command fs_demo { demo_unsaved with cmd_buf := str "wq", cmd_len := 2 }).running
      = 0 :=
  ⟨Or.inl (by decide), by decide, rfl,
   ((save_and_quit fs_demo { demo_unsaved with cmd_buf := str "wq", cmd_len := 2 }
      (Or.inl (by decide))).1 (by decide) rfl).1⟩

theorem skip_spaces_w (p : List Nat) : skip_spaces (str "w " ++ p) = str "w " ++ p := by
  simp [skip_spaces, str]

/-- C15: for a command line holding `w`, a space and a path p that is not empty
and fits the command buffer, when p can be opened the bytes written to p are
the lines each followed by a newline, the current path becomes p and the
modified flag is cleared; when p cannot be opened only the status changes, so
the current path, the modified flag and the Document stay as they were.  The
running flag is unchanged in both cases. -/
theorem write_to_path (fs : FS) (E : Editor) (p : List Nat) (hp : p ≠ [])
    (hfit : ((str "w " ++ p).length : Int) ≤ CMD_BUF_SIZE - 1)
    (hcmd : E.cmd_buf = str "w " ++ p) :
    (fs.fopen_w p = true →
      (exec_command fs E).written = (p, file_bytes E.lines) :: E.written ∧
      (exec_command fs E).filepath = p ∧
      (exec_command fs E).modified = 0 ∧
      (exec_command fs E).lines = E.lines ∧
      (exec_command fs E).running = E.running) ∧
    (fs.fopen_w p = false →
      exec_command fs E = { E with status := snprintf_status (str "Cannot write: " ++ p) } ∧
      (exec_command fs E).filepath = E.filepath ∧
      (exec_command fs E).modified = E.modified ∧
      (exec_command fs E).lines = E.lines ∧
      (exec_command fs E).written = E.written ∧
      (exec_command fs E).running = E.running) := by
  have hskip : skip_spaces E.cmd_buf = str "w " ++ p := by rw [hcmd, skip_spaces_w]
  have htake : (skip_spaces E.cmd_buf).take 2 = str "w " := by rw [hskip]; rfl
  have hdrop : (skip_spaces E.cmd_buf).drop 2 = p := by rw [hskip]; rfl
  have hgiven : path_given (some p) = true := by
    cases p with
    | nil => exact absurd rfl hp
    | cons a l => rfl
  have htarget : save_target (some p) E = p := by
    unfold save_target
    rw [if_pos hgiven]
    rfl
  have hlen : p.length ≤ 255 := by
    have h2 : (str "w " ++ p).length = 2 + p.length := by
      rw [List.length_append]; rfl
    rw [h2] at hfit
    simp only [CMD_BUF_SIZE] at hfit
    omega
  have hfp : strncpy_filepath p = p := List.take_of_length_le hlen
  rw [exec_command_w_path fs E htake, hdrop]
  constructor
  · intro hw
    rw [save_file_ok fs (some p) E (by rw [htarget]; exact hp) (by rw [htarget]; exact hw)]
    dsimp only
    rw [if_pos hgiven, htarget, hfp]
    exact ⟨rfl, rfl, rfl, rfl, rfl⟩
  · intro hw
    rw [save_file_cannot_write fs (some p) E (by rw [htarget]; exact hp)
      (by rw [htarget]; exact hw), htarget]
    exact ⟨rfl, rfl, rfl, rfl, rfl, rfl⟩

theorem write_to_path_witness :
    ([103] : List Nat) ≠ [] ∧
    ((str "w " ++ [103]).length : Int) ≤ CMD_BUF_SIZE - 1 ∧
    ({ demo_unsaved with cmd_buf := str "w " ++ [103], cmd_len := 3 } : Editor).cmd_buf
      = str "w " ++ [103] ∧
    fs_demo.fopen_w [103] = true ∧
    (exec_command fs_demo
      { demo_unsaved with cmd_buf := str "w " ++ [103], cmd_len := 3 }).filepath = [103] :=
  ⟨by decide, by decide, rfl, rfl,
   ((write_to_path fs_demo { demo_unsaved with cmd_buf := str "w " ++ [103], cmd_len := 3 }
      [103] (by decide) (by decide) rfl).1 rfl).2.1⟩

/-- C16 as stated fails: after the keys `:` and space the command buffer holds
one space, which is not empty and is no recognised command; Enter then sets no
status message at all, because the command is empty once its leading spaces
are skipped. -/
theorem blank_command_is_silent :
    Reachable (run_keys fs_demo [58, 32] (main_init fs_demo none 24 80)) ∧
    (run_keys fs_demo [58, 32] (main_init fs_demo none 24 80)).mode = MODE_COMMAND ∧
    (run_keys fs_demo [58, 32] (main_init fs_demo none 24 80)).cmd_buf = [32] ∧
    ¬is_recognised_command (run_keys fs_demo [58, 32] (main_init fs_demo none 24 80)).cmd_buf ∧
    (dispatch_key fs_demo KEY_ENTER
      (run_keys fs_demo [58, 32] (main_init fs_demo none 24 80))).status = [] := by
  refine ⟨run_keys_reachable _ _ _ (Reachable.init _ _ _ _) (by decide), ?_⟩
  decide

/-- C16 (amended): for every command buffer whose content, after its leading
spaces, is not empty and is none of the recognised commands, Enter in Command
mode sets the status to `Unknown command: ` followed by that content, switches
to Normal mode and changes nothing else: the Document, the cursor, the modified
flag, the file path and the running flag stay as they were. -/
theorem unknown_command_reported (fs : FS) (E : Editor) (hm : E.mode = MODE_COMMAND)
    (hne : skip_spaces E.cmd_buf ≠ [])
    (hun : ¬is_recognised_command (skip_spaces E.cmd_buf)) :
    dispatch_key fs KEY_ENTER E
      = { E with
          mode := MODE_NORMAL
          status := snprintf_status (str "Unknown command: " ++ skip_spaces E.cmd_buf) } ∧
    (dispatch_key fs KEY_ENTER E).status.take 17 = str "Unknown command: " := by
  rw [dispatch_key_command fs KEY_ENTER E hm, handle_command_enter,
    exec_command_unknown fs E hun hne]
  refine ⟨rfl, ?_⟩
  simp [snprintf_status, str, List.take_take, List.take_append_eq_append_take]

theorem unknown_command_reported_witness :
    ({ demo_unsaved with cmd_buf := str "zz", cmd_len := 2 } : Editor).mode = MODE_COMMAND ∧
    skip_spaces ({ demo_unsaved with cmd_buf := str "zz", cmd_len := 2 } : Editor).cmd_buf
      ≠ [] ∧
    ¬is_recognised_command
      (skip_spaces ({ demo_unsaved with cmd_buf := str "zz", cmd_len := 2 } : Editor).cmd_buf) ∧
    (dispatch_key fs_demo KEY_ENTER
      { demo_unsaved with cmd_buf := str "zz", cmd_len := 2 }).status.take 17
      = str "Unknown command: " :=
  ⟨rfl, by decide, by decide,
   (unknown_command_reported fs_demo { demo_unsaved with cmd_buf := str "zz", cmd_len := 2 }
      rfl (by decide) (by decide)).2⟩

theorem skip_spaces_replicate (n : Nat) (s : List Nat) :
    skip_spaces (List.replicate n 32 ++ s) = skip_spaces s := by
  induction n with
  | zero => rfl
  | succ n ih =>
    rw [List.replicate_succ, List.cons_append]
    unfold skip_spaces at ih ⊢
    rw [List.dropWhile_cons_of_pos (by simp)]
    exact ih

/-- What `save_file` does is the same for two records that differ in the
command buffer only, which it hands back as it got it. -/
theorem save_file_cmd_buf (fs : FS) (path : Option (List Nat)) (E : Editor)
    (c : List Nat) (l : Int) :
    save_file fs path { E with cmd_buf := c, cmd_len := l }
      = ((save_file fs path E).1, { (save_file fs path E).2 with cmd_buf := c, cmd_len := l }) := by
  have ht : save_target path { E with cmd_buf := c, cmd_len := l } = save_target path E := rfl
  by_cases h1 : save_target path E = []
  · rw [save_file_no_name fs path _ (by rw [ht]; exact h1), save_file_no_name fs path E h1]
  · cases h2 : fs.fopen_w (save_target path E) with
    | false =>
      rw [save_file_cannot_write fs path _ (by rw [ht]; exact h1) (by rw [ht]; exact h2),
        save_file_cannot_write fs path E h1 h2]
      rfl
    | true =>
      rw [save_file_ok fs path _ (by rw [ht]; exact h1) (by rw [ht]; exact h2),
        save_file_ok fs path E h1 h2]
      rfl

/-- Two command buffers that are equal after their leading spaces are executed
alike: the resulting records differ in the command buffer only. -/
theorem exec_command_cmd_buf (fs : FS) (E : Editor) (c1 c2 : List Nat) (l1 l2 : Int)
    (h : skip_spaces c1 = skip_spaces c2) :
    exec_command fs { E with cmd_buf := c1, cmd_len := l1 }
      = { exec_command fs { E with cmd_buf := c2, cmd_len := l2 } with
          cmd_buf := c1, cmd_len := l1 } := by
  have e1 : skip_spaces ({ E with cmd_buf := c1, cmd_len := l1 } : Editor).cmd_buf
      = skip_spaces c2 := h
  have e2 : skip_spaces ({ E with cmd_buf := c2, cmd_len := l2 } : Editor).cmd_buf
      = skip_spaces c2 := rfl
  have hs1 := save_file_cmd_buf fs none E c1 l1
  have hs2 := save_file_cmd_buf fs none E c2 l2
  have hp1 := save_file_cmd_buf fs (some ((skip_spaces c2).drop 2)) E c1 l1
  have hp2 := save_file_cmd_buf fs (some ((skip_spaces c2).drop 2)) E c2 l2
  by_cases k1 : skip_spaces c2 = str "q"
  · rw [exec_command_q fs _ (e1.trans k1), exec_command_q fs _ (e2.trans k1)]
    by_cases hm : E.modified ≠ 0
    · rw [if_pos hm, if_pos hm]
    · rw [if_neg hm, if_neg hm]
  by_cases k2 : skip_spaces c2 = str "q!"
  · rw [exec_command_q_bang fs _ (e1.trans k2), exec_command_q_bang fs _ (e2.trans k2)]
  by_cases k3 : skip_spaces c2 = str "w"
  · rw [exec_command_w fs _ (e1.trans k3), exec_command_w fs _ (e2.trans k3), hs1, hs2]
  by_cases k4 : (skip_spaces c2).take 2 = str "w "
  · rw [exec_command_w_path fs _ (by rw [e1]; exact k4),
      exec_command_w_path fs _ (by rw [e2]; exact k4), e1, e2, hp1, hp2]
  by_cases k5 : skip_spaces c2 = str "wq" ∨ skip_spaces c2 = str "x"
  · rw [exec_command_wq fs _ (by rw [e1]; exact k5),
      exec_command_wq fs _ (by rw [e2]; exact k5), hs1, hs2]
    dsimp only
    by_cases hr : (save_file fs none E).1 ≠ 0
    · rw [if_pos hr, if_pos hr]
    · rw [if_neg hr, if_neg hr]
  have hun : ¬is_recognised_command (skip_spaces c2) := by
    rintro (h0 | h0 | h0 | h0 | h0 | h0)
    · exact k1 h0
    · exact k2 h0
    · exact k3 h0
    · exact k4 h0
    · exact k5 (Or.inl h0)
    · exact k5 (Or.inr h0)
  by_cases k6 : skip_spaces c2 = []
  · rw [exec_command_empty fs _ (e1.trans k6), exec_command_empty fs _ (e2.trans k6)]
  · rw [exec_command_unknown fs _ (by rw [e1]; exact hun) (by rw [e1]; exact k6),
      exec_command_unknown fs _ (by rw [e2]; exact hun) (by rw [e2]; exact k6), e1, e2]

/-- C17: leading spaces are trimmed.  Executing a command buffer that holds n
spaces followed by s gives the same record as executing the buffer that holds
s alone, apart from the command buffer itself, which is never changed: the
running flag, the modified flag, the file path, the status message, the
Document and the files written are the same. -/
theorem leading_spaces_trimmed (fs : FS) (E : Editor) (s : List Nat) (n : Nat) :
    exec_command fs
        { E with cmd_buf := List.replicate n 32 ++ s, cmd_len := ((n + s.length : Nat) : Int) }
      = { exec_command fs { E with cmd_buf := s, cmd_len := (s.length : Int) } with
          cmd_buf := List.replicate n 32 ++ s, cmd_len := ((n + s.length : Nat) : Int) } ∧
    (exec_command fs
        { E with cmd_buf := List.replicate n 32 ++ s,
                 cmd_len := ((n + s.length : Nat) : Int) }).running
      = (exec_command fs { E with cmd_buf := s, cmd_len := (s.length : Int) }).running ∧
    (exec_command fs
        { E with cmd_buf := List.replicate n 32 ++ s,
                 cmd_len := ((n + s.length : Nat) : Int) }).modified
      = (exec_command fs { E with cmd_buf := s, cmd_len := (s.length : Int) }).modified ∧
    (exec_command fs
        { E with cmd_buf := List.replicate n 32 ++ s,
                 cmd_len := ((n + s.length : Nat) : Int) }).filepath
      = (exec_command fs { E with cmd_buf := s, cmd_len := (s.length : Int) }).filepath ∧
    (exec_command fs
        { E with cmd_buf := List.replicate n 32 ++ s,
                 cmd_len := ((n + s.length : Nat) : Int) }).status
      = (exec_command fs { E with cmd_buf := s, cmd_len := (s.length : Int) }).status ∧
    (exec_command fs
        { E with cmd_buf := List.replicate n 32 ++ s,
                 cmd_len := ((n + s.length : Nat) : Int) }).lines
      = (exec_command fs { E with cmd_buf := s, cmd_len := (s.length : Int) }).lines ∧
    (exec_command fs
        { E with cmd_buf := List.replicate n 32 ++ s,
                 cmd_len := ((n + s.length : Nat) : Int) }).written
      = (exec_command fs { E with cmd_buf := s, cmd_len := (s.length : Int) }).written := by
  have h := exec_command_cmd_buf fs E (List.replicate n 32 ++ s) s
    ((n + s.length : Nat) : Int) (s.length : Int) (skip_spaces_replicate n s)
  refine ⟨h, ?_, ?_, ?_, ?_, ?_, ?_⟩ <;> rw [h]

/-! ## Mode transitions -/

theorem dispatch_key_normal (fs : FS) (key : Int) (E : Editor) (hm : E.mode = MODE_NORMAL) :
    dispatch_key fs key E = handle_normal key E := by
  unfold dispatch_key
  rw [if_pos hm]

theorem dispatch_key_insert (fs : FS) (key : Int) (E : Editor) (hm : E.mode = MODE_INSERT) :
    dispatch_key fs key E = handle_insert key E := by
  unfold dispatch_key
  rw [if_neg (by rw [hm]; decide), if_pos hm]

theorem handle_normal_to_insert (key : Int) (E : Editor)
    (hk : key = 105 ∨ key = 97 ∨ key = 65 ∨ key = 111 ∨ key = 79) :
    (handle_normal key E).mode = MODE_INSERT := by
  rcases hk with rfl | rfl | rfl | rfl | rfl <;> rfl

theorem handle_normal_to_command (E : Editor) :
    (handle_normal 58 E).mode = MODE_COMMAND ∧ (handle_normal 58 E).cmd_buf = [] ∧
    (handle_normal 58 E).cmd_len = 0 :=
  ⟨rfl, rfl, rfl⟩

theorem handle_normal_same_mode (key : Int) (E : Editor)
    (hk : ¬(key = 105 ∨ key = 97 ∨ key = 65 ∨ key = 111 ∨ key = 79)) (hc : key ≠ 58) :
    (handle_normal key E).mode = E.mode := by
  have hstep := @ite_elim Editor (fun X : Editor => X.mode = E.mode)
  obtain ⟨-, d2, -⟩ := delete_char_at_changed E.cur_col { E with status := [] }
  have d3 := (delete_line_at_fields E.cur_row { E with status := [] }).2.2.1
  unfold handle_normal handle_normal_switch
  refine hstep (fun _ => ?_) (fun _ => ?_)
  · exact (move_left_frame _).2.2
  refine hstep (fun _ => ?_) (fun _ => ?_)
  · exact (move_down_frame _).2.2
  refine hstep (fun _ => ?_) (fun _ => ?_)
  · exact (move_up_frame _).2.2
  refine hstep (fun _ => ?_) (fun _ => ?_)
  · rfl
  refine hstep (fun _ => ?_) (fun _ => ?_)
  · rfl
  refine hstep (fun _ => ?_) (fun _ => ?_)
  · rfl
  refine hstep (fun h => ?_) (fun _ => ?_)
  · exact absurd (Or.inl h) hk
  refine hstep (fun h => ?_) (fun _ => ?_)
  · exact absurd (Or.inr (Or.inl h)) hk
  refine hstep (fun h => ?_) (fun _ => ?_)
  · exact absurd (Or.inr (Or.inr (Or.inl h))) hk
  refine hstep (fun h => ?_) (fun _ => ?_)
  · exact absurd (Or.inr (Or.inr (Or.inr (Or.inl h)))) hk
  refine hstep (fun h => ?_) (fun _ => ?_)
  · exact absurd (Or.inr (Or.inr (Or.inr (Or.inr h)))) hk
  refine hstep (fun _ => ?_) (fun _ => ?_)
  · refine hstep (fun _ => ?_) (fun _ => ?_)
    · exact d2
    · rfl
  refine hstep (fun _ => ?_) (fun _ => ?_)
  · exact d3
  refine hstep (fun h => ?_) (fun _ => ?_)
  · exact absurd h hc
  refine hstep (fun _ => ?_) (fun _ => ?_)
  · rfl
  refine hstep (fun _ => ?_) (fun _ => ?_)
  · rfl
  · rfl

theorem handle_insert_esc (E : Editor) :
    handle_insert KEY_ESC E
      = clamp_cursor
          (if E.cur_col > 0 then { E with mode := MODE_NORMAL, cur_col := E.cur_col - 1 }
           else { E with mode := MODE_NORMAL }) := rfl

theorem handle_insert_esc_mode (E : Editor) : (handle_insert KEY_ESC E).mode = MODE_NORMAL := by
  rw [handle_insert_esc]
  show (if E.cur_col > 0 then _ else _ : Editor).mode = MODE_NORMAL
  split_ifs <;> rfl

theorem handle_insert_same_mode (key : Int) (E : Editor) (hk : key ≠ KEY_ESC) :
    (handle_insert key E).mode = E.mode := by
  have hstep := @ite_elim Editor (fun X : Editor => X.mode = E.mode)
  obtain ⟨-, b2, -⟩ := backspace_char_changed E
  obtain ⟨-, d2, -⟩ := delete_char_at_changed E.cur_col E
  unfold handle_insert
  refine hstep (fun h => ?_) (fun _ => ?_)
  · exact absurd h hk
  refine hstep (fun _ => ?_) (fun _ => ?_)
  · exact (move_up_frame _).2.2
  refine hstep (fun _ => ?_) (fun _ => ?_)
  · exact (move_down_frame _).2.2
  refine hstep (fun _ => ?_) (fun _ => ?_)
  · exact (move_left_frame _).2.2
  refine hstep (fun _ => ?_) (fun _ => ?_)
  · rfl
  refine hstep (fun _ => ?_) (fun _ => ?_)
  · exact b2
  refine hstep (fun _ => ?_) (fun _ => ?_)
  · exact d2
  refine hstep (fun _ => ?_) (fun _ => ?_)
  · rfl
  refine hstep (fun _ => ?_) (fun _ => ?_)
  · rfl
  refine hstep (fun _ => ?_) (fun _ => ?_)
  · rfl
  refine hstep (fun _ => ?_) (fun _ => ?_)
  · rfl
  · rfl

/-- C18: mode transitions.  From Normal mode the mode after a key is Insert
exactly for `i`, `a`, `A`, `o`, `O`, is Command exactly for `:` (and then the
command buffer is empty), and is Normal for every other key.  From Insert mode
the mode after a key is Normal exactly for Esc and is Insert for every other
key. -/
theorem mode_transitions (fs : FS) (key : Int) (E : Editor) :
    (E.mode = MODE_NORMAL →
      ((dispatch_key fs key E).mode = MODE_INSERT ↔
        (key = 105 ∨ key = 97 ∨ key = 65 ∨ key = 111 ∨ key = 79)) ∧
      ((dispatch_key fs key E).mode = MODE_COMMAND ↔ key = 58) ∧
      (key = 58 → (dispatch_key fs key E).cmd_buf = [] ∧ (dispatch_key fs key E).cmd_len = 0) ∧
      ((dispatch_key fs key E).mode = MODE_NORMAL ↔
        (¬(key = 105 ∨ key = 97 ∨ key = 65 ∨ key = 111 ∨ key = 79) ∧ key ≠ 58))) ∧
    (E.mode = MODE_INSERT →
      ((dispatch_key fs key E).mode = MODE_NORMAL ↔ key = KEY_ESC) ∧
      ((dispatch_key fs key E).mode = MODE_INSERT ↔ key ≠ KEY_ESC)) := by
  constructor
  · intro hm
    rw [dispatch_key_normal fs key E hm]
    by_cases hi : key = 105 ∨ key = 97 ∨ key = 65 ∨ key = 111 ∨ key = 79
    · have h1 := handle_normal_to_insert key E hi
      have h58 : key ≠ 58 := by omega
      rw [h1]
      exact ⟨⟨fun _ => hi, fun _ => rfl⟩, ⟨fun h => absurd h (by decide), fun h => absurd h h58⟩,
        fun h => absurd h h58, ⟨fun h => absurd h (by decide), fun h => absurd hi h.1⟩⟩
    · by_cases hc : key = 58
      · subst hc
        obtain ⟨c1, c2, c3⟩ := handle_normal_to_command E
        rw [c1]
        exact ⟨⟨fun h => absurd h (by decide), fun h => absurd h hi⟩, ⟨fun _ => rfl, fun _ => rfl⟩,
          fun _ => ⟨c2, c3⟩, ⟨fun h => absurd h (by decide), fun h => absurd rfl h.2⟩⟩
      · have h1 := handle_normal_same_mode key E hi hc
        rw [h1, hm]
        exact ⟨⟨fun h => absurd h (by decide), fun h => absurd h hi⟩,
          ⟨fun h => absurd h (by decide), fun h => absurd h hc⟩,
          fun h => absurd h hc, ⟨fun _ => ⟨hi, hc⟩, fun _ => rfl⟩⟩
  · intro hm
    rw [dispatch_key_insert fs key E hm]
    by_cases hk : key = KEY_ESC
    · subst hk
      rw [handle_insert_esc_mode]
      exact ⟨⟨fun _ => rfl, fun _ => rfl⟩, ⟨fun h => absurd h (by decide), fun h => absurd rfl h⟩⟩
    · rw [handle_insert_same_mode key E hk, hm]
      exact ⟨⟨fun h => absurd h (by decide), fun h => absurd h hk⟩, ⟨fun _ => hk, fun _ => rfl⟩⟩

theorem mode_transitions_witness :
    demo_start.mode = MODE_NORMAL ∧
    (dispatch_key fs_demo 111 demo_start).mode = MODE_INSERT ∧
    (dispatch_key fs_demo 111 demo_start).mode = MODE_INSERT ∧
    (dispatch_key fs_demo KEY_ESC (dispatch_key fs_demo 111 demo_start)).mode = MODE_NORMAL :=
  ⟨rfl,
   ((mode_transitions fs_demo 111 demo_start).1 rfl).1.2 (by decide),
   by decide,
   ((mode_transitions fs_demo KEY_ESC (dispatch_key fs_demo 111 demo_start)).2
      (by decide)).1.2 rfl⟩

/-- C19 as stated fails: after the keys `:` and `w` the command buffer holds `w`;
Esc and Enter both lead to Normal mode and both leave the buffer holding `w`,
with `cmd_len` 1. -/
theorem command_buffer_kept_on_exit :
    Reachable (run_keys fs_demo [58, 119] (main_init fs_demo none 24 80)) ∧
    (run_keys fs_demo [58, 119] (main_init fs_demo none 24 80)).mode = MODE_COMMAND ∧
    (dispatch_key fs_demo KEY_ESC
      (run_keys fs_demo [58, 119] (main_init fs_demo none 24 80))).mode = MODE_NORMAL ∧
    (dispatch_key fs_demo KEY_ESC
      (run_keys fs_demo [58, 119] (main_init fs_demo none 24 80))).cmd_buf = [119] ∧
    (dispatch_key fs_demo KEY_ESC
      (run_keys fs_demo [58, 119] (main_init fs_demo none 24 80))).cmd_len = 1 ∧
    (dispatch_key fs_demo KEY_ENTER
      (run_keys fs_demo [58, 119] (main_init fs_demo none 24 80))).mode = MODE_NORMAL ∧
    (dispatch_key fs_demo KEY_ENTER
      (run_keys fs_demo [58, 119] (main_init fs_demo none 24 80))).cmd_buf = [119] ∧
    (dispatch_key fs_demo KEY_ENTER
      (run_keys fs_demo [58, 119] (main_init fs_demo none 24 80))).cmd_len = 1 := by
  refine ⟨run_keys_reachable _ _ _ (Reachable.init _ _ _ _) (by decide), ?_⟩
  decide

/-- C19 (amended): the command buffer is cleared on entering Command mode only.
The key `:` in Normal mode leads to Command mode with an empty buffer
(`cmd_len` 0); from every state in Command mode, Esc and Enter lead to Normal
mode and leave `cmd_buf` and `cmd_len` as they were. -/
theorem command_buffer_cleared_on_entry (fs : FS) (E : Editor) :
    (E.mode = MODE_NORMAL →
      (dispatch_key fs 58 E).mode = MODE_COMMAND ∧
      (dispatch_key fs 58 E).cmd_buf = [] ∧ (dispatch_key fs 58 E).cmd_len = 0) ∧
    (E.mode = MODE_COMMAND →
      (dispatch_key fs KEY_ESC E).mode = MODE_NORMAL ∧
      (dispatch_key fs KEY_ESC E).cmd_buf = E.cmd_buf ∧
      (dispatch_key fs KEY_ESC E).cmd_len = E.cmd_len ∧
      (dispatch_key fs KEY_ENTER E).mode = MODE_NORMAL ∧
      (dispatch_key fs KEY_ENTER E).cmd_buf = E.cmd_buf ∧
      (dispatch_key fs KEY_ENTER E).cmd_len = E.cmd_len) := by
  constructor
  · intro hm
    rw [dispatch_key_normal fs 58 E hm]
    exact ⟨rfl, rfl, rfl⟩
  · intro hm
    rw [dispatch_key_command fs KEY_ESC E hm, dispatch_key_command fs KEY_ENTER E hm,
      handle_command_esc, handle_command_enter]
    obtain ⟨-, -, -, -, e5, e6⟩ := exec_command_frame fs E
    exact ⟨rfl, rfl, rfl, rfl, e5, e6⟩

theorem command_buffer_cleared_on_entry_witness :
    demo_unsaved.mode = MODE_COMMAND ∧
    (dispatch_key fs_demo KEY_ESC demo_unsaved).mode = MODE_NORMAL ∧
    (dispatch_key fs_demo KEY_ESC demo_unsaved).cmd_buf = demo_unsaved.cmd_buf :=
  ⟨rfl,
   ((command_buffer_cleared_on_entry fs_demo demo_unsaved).2 rfl).1,
   ((command_buffer_cleared_on_entry fs_demo demo_unsaved).2 rfl).2.1⟩

/-- C20: in every reachable state in Insert mode with the cursor at column c,
Esc switches to Normal mode, leaves the row and the Document as they were, and
sets the column to c - 1 when c > 0 and to 0 when c = 0. -/
theorem esc_leaves_insert (fs : FS) (E : Editor) (h : Reachable E)
    (hm : E.mode = MODE_INSERT) :
    (dispatch_key fs KEY_ESC E).mode = MODE_NORMAL ∧
    (dispatch_key fs KEY_ESC E).cur_row = E.cur_row ∧
    (dispatch_key fs KEY_ESC E).lines = E.lines ∧
    (E.cur_col > 0 → (dispatch_key fs KEY_ESC E).cur_col = E.cur_col - 1) ∧
    (E.cur_col = 0 → (dispatch_key fs KEY_ESC E).cur_col = 0) := by
  obtain ⟨a1, a2, a3, a4, a5, a6, a7, a8⟩ := reachable_inv E h
  have a6 := a6 hm
  rw [dispatch_key_insert fs KEY_ESC E hm, handle_insert_esc]
  by_cases hc : E.cur_col > 0
  · rw [if_pos hc]
    have hrow := clamp_cursor_row { E with mode := MODE_NORMAL, cur_col := E.cur_col - 1 } a1
    have hcol := clamp_cursor_col { E with mode := MODE_NORMAL, cur_col := E.cur_col - 1 } a1
    have hrow2 : (clamp_cursor { E with mode := MODE_NORMAL, cur_col := E.cur_col - 1 }).cur_row
        = E.cur_row := by
      rw [hrow]
      show max 0 (min E.cur_row (E.line_count - 1)) = E.cur_row
      omega
    have hline : cur_line (clamp_cursor { E with mode := MODE_NORMAL, cur_col := E.cur_col - 1 })
        = cur_line E := by
      unfold cur_line
      rw [hrow2]
      rfl
    rw [hline, if_neg (show ¬(MODE_NORMAL = MODE_INSERT) by decide)] at hcol
    refine ⟨rfl, hrow2, rfl, fun _ => ?_, fun h0 => ?_⟩
    · rw [hcol]
      show max 0 (min (E.cur_col - 1) (((cur_line E).length : Int) - 1)) = E.cur_col - 1
      omega
    · omega
  · rw [if_neg hc]
    have hrow := clamp_cursor_row { E with mode := MODE_NORMAL } a1
    have hcol := clamp_cursor_col { E with mode := MODE_NORMAL } a1
    have hrow2 : (clamp_cursor { E with mode := MODE_NORMAL }).cur_row = E.cur_row := by
      rw [hrow]
      show max 0 (min E.cur_row (E.line_count - 1)) = E.cur_row
      omega
    have hline : cur_line (clamp_cursor { E with mode := MODE_NORMAL }) = cur_line E := by
      unfold cur_line
      rw [hrow2]
      rfl
    rw [hline, if_neg (show ¬(MODE_NORMAL = MODE_INSERT) by decide)] at hcol
    refine ⟨rfl, hrow2, rfl, fun h0 => absurd h0 hc, fun h0 => ?_⟩
    rw [hcol]
    show max 0 (min E.cur_col (((cur_line E).length : Int) - 1)) = 0
    omega

theorem esc_leaves_insert_witness :
    Reachable (run_keys fs_demo [105, 104] (main_init fs_demo none 24 80)) ∧
    (run_keys fs_demo [105, 104] (main_init fs_demo none 24 80)).mode = MODE_INSERT ∧
    (run_keys fs_demo [105, 104] (main_init fs_demo none 24 80)).cur_col = 1 ∧
    (dispatch_key fs_demo KEY_ESC
      (run_keys fs_demo [105, 104] (main_init fs_demo none 24 80))).cur_col = 1 - 1 :=
  ⟨run_keys_reachable _ _ _ (Reachable.init _ _ _ _) (by decide), by decide, by decide,
   (esc_leaves_insert fs_demo _
      (run_keys_reachable _ _ _ (Reachable.init fs_demo none 24 80) (by decide))
      (by decide)).2.2.2.1 (by decide)⟩

/-! ## The editing keys of Normal mode -/

theorem clamp_cursor_same (E : Editor) :
    clamp_cursor E
      = { E with cur_row := (clamp_cursor E).cur_row, cur_col := (clamp_cursor E).cur_col } := rfl

/-- The clamp of a cursor whose row is on a line: the row stays, and the column
is brought into the range of the mode. -/
theorem clamp_cursor_on_line (E : Editor) (h0 : 0 ≤ E.cur_row) (h1 : E.cur_row < E.line_count) :
    (clamp_cursor E).cur_row = E.cur_row ∧
    (clamp_cursor E).cur_col =
      if E.mode = MODE_INSERT then max 0 (min E.cur_col ((cur_line E).length : Int))
      else max 0 (min E.cur_col (((cur_line E).length : Int) - 1)) := by
  have hr := clamp_cursor_row E (by omega)
  have hcol := clamp_cursor_col E (by omega)
  have hrow2 : (clamp_cursor E).cur_row = E.cur_row := by rw [hr]; omega
  have hline : cur_line (clamp_cursor E) = cur_line E := by
    unfold cur_line
    rw [hrow2]
    rfl
  rw [hline] at hcol
  exact ⟨hrow2, hcol⟩

theorem handle_normal_x (E : Editor) :
    handle_normal 120 E
      = if line_len E.cur_row { E with status := [] } > 0 then
          clamp_cursor (delete_char_at E.cur_col { E with status := [] })
        else { E with status := [] } := rfl

theorem handle_normal_d (E : Editor) :
    handle_normal 100 E = clamp_cursor (delete_line_at E.cur_row { E with status := [] }) := rfl

theorem delete_char_at_in_range (col : Int) (E : Editor) (h0 : 0 ≤ col)
    (h1 : col < ((cur_line E).length : Int)) :
    delete_char_at col E
      = { E with lines := E.lines.set E.cur_row.toNat ((cur_line E).eraseIdx col.toNat),
                 modified := 1 } := by
  unfold delete_char_at
  exact if_neg (show ¬(col < 0 ∨ col ≥ ((cur_line E).length : Int)) by omega)

theorem cur_line_set (E : Editor) (l : List Nat) (x : List (List Nat))
    (hx : x = E.lines.set E.cur_row.toNat l)
    (h0 : 0 ≤ E.cur_row) (h1 : E.cur_row < E.line_count) (E2 : Editor)
    (hl : E2.lines = x) (hr : E2.cur_row = E.cur_row) : cur_line E2 = l := by
  unfold cur_line
  rw [hl, hr, hx]
  apply getD_set_self
  unfold Editor.line_count at h1
  omega

/-- C21: in every reachable state in Normal mode whose current line has length
L > 0 and whose cursor is at column c, the key `x` removes the character at
index c of the current line and nothing else (the line becomes its first c
characters followed by those after index c, one character shorter, and the
other lines are as before), sets the modified flag, keeps the row and leaves
the column at min(c, max(0, L - 2)); on an empty line `x` changes neither the
Document, the modified flag nor the cursor. -/
theorem delete_under_cursor (fs : FS) (E : Editor) (h : Reachable E)
    (hm : E.mode = MODE_NORMAL) :
    (0 < (cur_line E).length →
      (dispatch_key fs 120 E).lines
        = E.lines.set E.cur_row.toNat
            ((cur_line E).take E.cur_col.toNat ++ (cur_line E).drop (E.cur_col.toNat + 1)) ∧
      cur_line (dispatch_key fs 120 E)
        = (cur_line E).take E.cur_col.toNat ++ (cur_line E).drop (E.cur_col.toNat + 1) ∧
      (cur_line (dispatch_key fs 120 E)).length + 1 = (cur_line E).length ∧
      (dispatch_key fs 120 E).modified = 1 ∧
      (dispatch_key fs 120 E).cur_row = E.cur_row ∧
      (dispatch_key fs 120 E).cur_col
        = min E.cur_col (max 0 (((cur_line E).length : Int) - 2))) ∧
    ((cur_line E).length = 0 →
      (dispatch_key fs 120 E).lines = E.lines ∧
      (dispatch_key fs 120 E).modified = E.modified ∧
      (dispatch_key fs 120 E).cur_row = E.cur_row ∧
      (dispatch_key fs 120 E).cur_col = E.cur_col) := by
  obtain ⟨a1, a2, a3, a4, a5, a6, a7, a8⟩ := reachable_inv E h
  have a7 := a7 (by rw [hm]; decide)
  have hlen : line_len E.cur_row { E with status := [] } = ((cur_line E).length : Int) :=
    line_len_eq { E with status := [] } E.cur_row a2 a3
  rw [dispatch_key_normal fs 120 E hm, handle_normal_x, hlen]
  constructor
  · intro hL
    have hL2 : ((cur_line E).length : Int) > 0 := by omega
    rw [if_pos hL2]
    have hd := delete_char_at_in_range E.cur_col { E with status := [] } a5
      (show E.cur_col < ((cur_line E).length : Int) by omega)
    rw [hd]
    have herase : (cur_line E).eraseIdx E.cur_col.toNat
        = (cur_line E).take E.cur_col.toNat ++ (cur_line E).drop (E.cur_col.toNat + 1) :=
      List.eraseIdx_eq_take_drop_succ _ _
    have hcl := clamp_cursor_on_line
      { E with status := [],
               lines := E.lines.set E.cur_row.toNat ((cur_line E).eraseIdx E.cur_col.toNat),
               modified := 1 } a2 (by
        show E.cur_row < ((E.lines.set _ _).length : Int)
        rw [List.length_set]
        exact a3)
    obtain ⟨hrow, hcol⟩ := hcl
    have hline : cur_line
        { E with status := [],
                 lines := E.lines.set E.cur_row.toNat ((cur_line E).eraseIdx E.cur_col.toNat),
                 modified := 1 }
        = (cur_line E).eraseIdx E.cur_col.toNat :=
      cur_line_set E _ _ rfl a2 a3 _ rfl rfl
    have hline2 : cur_line (clamp_cursor
        { E with status := [],
                 lines := E.lines.set E.cur_row.toNat ((cur_line E).eraseIdx E.cur_col.toNat),
                 modified := 1 })
        = (cur_line E).eraseIdx E.cur_col.toNat :=
      cur_line_set E _ _ rfl a2 a3 _ rfl hrow
    have hlen2 : ((cur_line E).eraseIdx E.cur_col.toNat).length + 1 = (cur_line E).length := by
      rw [List.length_eraseIdx, if_pos (by omega)]
      omega
    rw [hline, if_neg (show ¬(E.mode = MODE_INSERT) by rw [hm]; decide)] at hcol
    refine ⟨?_, ?_, ?_, rfl, hrow, ?_⟩
    · rw [← herase]; rfl
    · exact hline2.trans herase
    · exact (congrArg (fun l => l.length + 1) hline2).trans hlen2
    · refine hcol.trans ?_
      show max 0 (min E.cur_col _) = _
      omega
  · intro hL
    rw [if_neg (by omega)]
    exact ⟨rfl, rfl, rfl, rfl⟩

theorem delete_under_cursor_witness :
    Reachable (run_keys fs_demo [105, 97, 98, 99, KEY_ESC, 104] (main_init fs_demo none 24 80)) ∧
    (run_keys fs_demo [105, 97, 98, 99, KEY_ESC, 104] (main_init fs_demo none 24 80)).mode
      = MODE_NORMAL ∧
    (run_keys fs_demo [105, 97, 98, 99, KEY_ESC, 104] (main_init fs_demo none 24 80)).lines
      = [str "abc"] ∧
    (run_keys fs_demo [105, 97, 98, 99, KEY_ESC, 104] (main_init fs_demo none 24 80)).cur_col
      = 1 ∧
    (dispatch_key fs_demo 120
      (run_keys fs_demo [105, 97, 98, 99, KEY_ESC, 104] (main_init fs_demo none 24 80))).lines
      = [str "ac"] ∧
    (dispatch_key fs_demo 120
      (run_keys fs_demo [105, 97, 98, 99, KEY_ESC, 104] (main_init fs_demo none 24 80))).cur_col
      = 1 :=
  ⟨run_keys_reachable _ _ _ (Reachable.init _ _ _ _) (by decide), by decide, by decide,
   by decide,
   ((delete_under_cursor fs_demo _
      (run_keys_reachable _ _ _ (Reachable.init fs_demo none 24 80) (by decide))
      (by decide)).1 (by decide)).1.trans (by decide),
   ((delete_under_cursor fs_demo _
      (run_keys_reachable _ _ _ (Reachable.init fs_demo none 24 80) (by decide))
      (by decide)).1 (by decide)).2.2.2.2.2.trans (by decide)⟩

theorem delete_line_at_only (idx : Int) (E : Editor) (h : E.line_count = 1) (hi : idx = 0) :
    (delete_line_at idx E).lines = [[]] := by
  subst hi
  unfold Editor.line_count at h
  obtain ⟨x, hx⟩ := List.length_eq_one.mp (by exact_mod_cast h)
  unfold delete_line_at
  rw [if_neg (by unfold Editor.line_count; rw [hx]; simp)]
  simp [Editor.line_count, insert_line_at, hx]

/-- C22: in every reachable state in Normal mode with n lines and the cursor on
row r, the key `d` deletes the current line: for n ≥ 2 the Document becomes the
lines before r followed by the lines after r, one line fewer, and the row
becomes min(r, n - 2); for n = 1 the Document becomes one empty line, with the
cursor at row 0, column 0.  And `delete_line_at` with an index below 0 or not
below `line_count` changes nothing. -/
theorem delete_current_line (fs : FS) (E : Editor) (h : Reachable E)
    (hm : E.mode = MODE_NORMAL) :
    (2 ≤ E.line_count →
      (dispatch_key fs 100 E).lines
        = E.lines.take E.cur_row.toNat ++ E.lines.drop (E.cur_row.toNat + 1) ∧
      (dispatch_key fs 100 E).line_count = E.line_count - 1 ∧
      (dispatch_key fs 100 E).cur_row = min E.cur_row (E.line_count - 2)) ∧
    (E.line_count = 1 →
      (dispatch_key fs 100 E).lines = [[]] ∧
      (dispatch_key fs 100 E).cur_row = 0 ∧
      (dispatch_key fs 100 E).cur_col = 0) ∧
    (∀ (idx : Int) (S : Editor), idx < 0 ∨ idx ≥ S.line_count → delete_line_at idx S = S) := by
  obtain ⟨a1, a2, a3, a4, a5, a6, a7, a8⟩ := reachable_inv E h
  rw [dispatch_key_normal fs 100 E hm, handle_normal_d]
  have hf := delete_line_at_fields E.cur_row { E with status := [] }
  refine ⟨fun h2 => ?_, fun h1 => ?_, fun idx S hr => ?_⟩
  · have hl : (delete_line_at E.cur_row { E with status := [] }).lines
        = E.lines.eraseIdx E.cur_row.toNat :=
      delete_line_at_lines E.cur_row { E with status := [] } a2 a3 h2
    have hn : (delete_line_at E.cur_row { E with status := [] }).line_count
        = E.line_count - 1 := by
      unfold Editor.line_count at a3 ⊢
      rw [hl, List.length_eraseIdx, if_pos (by omega)]
      omega
    have hrow := clamp_cursor_row (delete_line_at E.cur_row { E with status := [] })
      (by rw [hn]; omega)
    refine ⟨?_, hn, ?_⟩
    · exact hl.trans (List.eraseIdx_eq_take_drop_succ _ _)
    · rw [hrow, hn, hf.1]
      show max 0 (min E.cur_row (E.line_count - 1 - 1)) = _
      omega
  · have hr0 : E.cur_row = 0 := by omega
    have hl : (delete_line_at E.cur_row { E with status := [] }).lines = [[]] := by
      exact delete_line_at_only E.cur_row { E with status := [] } h1 hr0
    have hn : (delete_line_at E.cur_row { E with status := [] }).line_count = 1 := by
      unfold Editor.line_count
      rw [hl]
      rfl
    have hrow := clamp_cursor_row (delete_line_at E.cur_row { E with status := [] })
      (by rw [hn])
    have hcol := clamp_cursor_col (delete_line_at E.cur_row { E with status := [] })
      (by rw [hn])
    have hrow2 : (clamp_cursor (delete_line_at E.cur_row { E with status := [] })).cur_row
        = 0 := by
      rw [hrow, hn, hf.1]
      show max 0 (min E.cur_row (1 - 1)) = 0
      omega
    have hline : cur_line (clamp_cursor (delete_line_at E.cur_row { E with status := [] }))
        = [] := by
      unfold cur_line
      rw [hrow2]
      show (delete_line_at E.cur_row { E with status := [] }).lines.getD 0 [] = []
      rw [hl]
      rfl
    refine ⟨hl, hrow2, ?_⟩
    rw [hcol, hline, hf.2.2.1]
    show (if E.mode = MODE_INSERT then _ else _) = (0 : Int)
    rw [if_neg (by rw [hm]; decide), hf.2.1]
    show max 0 (min E.cur_col (((([] : List Nat).length : Nat) : Int) - 1)) = 0
    simp
  · unfold delete_line_at
    exact if_pos hr

theorem delete_current_line_witness :
    Reachable (run_keys fs_demo [111, 98, KEY_ESC] demo_start) ∧
    (run_keys fs_demo [111, 98, KEY_ESC] demo_start).mode = MODE_NORMAL ∧
    (run_keys fs_demo [111, 98, KEY_ESC] demo_start).lines = [str "a", str "b"] ∧
    (run_keys fs_demo [111, 98, KEY_ESC] demo_start).cur_row = 1 ∧
    (dispatch_key fs_demo 100 (run_keys fs_demo [111, 98, KEY_ESC] demo_start)).lines
      = [str "a"] ∧
    (dispatch_key fs_demo 100 (run_keys fs_demo [111, 98, KEY_ESC] demo_start)).cur_row = 0 :=
  ⟨run_keys_reachable _ _ _ (main_init_demo ▸ Reachable.init fs_demo (some [102]) 24 80)
      (by decide), by decide, by decide, by decide,
   ((delete_current_line fs_demo _
      (run_keys_reachable _ _ _ (main_init_demo ▸ Reachable.init fs_demo (some [102]) 24 80)
        (by decide)) (by decide)).1 (by decide)).1.trans (by decide),
   ((delete_current_line fs_demo _
      (run_keys_reachable _ _ _ (main_init_demo ▸ Reachable.init fs_demo (some [102]) 24 80)
        (by decide)) (by decide)).1 (by decide)).2.2.trans (by decide)⟩

/-! ## Movement in Normal mode -/

/-- The clamp of a cursor outside Insert mode whose row is on a line of length
`L`: the row stays and the column is brought between 0 and `L - 1`. -/
theorem clamp_cursor_normal (E : Editor) (L : Int) (h0 : 0 ≤ E.cur_row)
    (h1 : E.cur_row < E.line_count) (hm : E.mode ≠ MODE_INSERT)
    (hL : ((E.lines.getD E.cur_row.toNat []).length : Int) = L) :
    (clamp_cursor E).cur_row = E.cur_row ∧
    (clamp_cursor E).cur_col = max 0 (min E.cur_col (L - 1)) ∧
    (clamp_cursor E).lines = E.lines ∧ (clamp_cursor E).modified = E.modified ∧
    (clamp_cursor E).mode = E.mode ∧ (clamp_cursor E).running = E.running := by
  obtain ⟨hr, hc⟩ := clamp_cursor_on_line E h0 h1
  rw [if_neg hm] at hc
  refine ⟨hr, ?_, rfl, rfl, rfl, rfl⟩
  rw [hc, ← hL]
  rfl

theorem handle_normal_left (E : Editor) (k : Int) (hk : k = 104 ∨ k = KEY_LEFT) :
    handle_normal k E = move_left { E with status := [] } := by
  rcases hk with rfl | rfl <;> rfl

theorem handle_normal_down (E : Editor) (k : Int) (hk : k = 106 ∨ k = KEY_DOWN) :
    handle_normal k E = move_down { E with status := [] } := by
  rcases hk with rfl | rfl <;> rfl

theorem handle_normal_up (E : Editor) (k : Int) (hk : k = 107 ∨ k = KEY_UP) :
    handle_normal k E = move_up { E with status := [] } := by
  rcases hk with rfl | rfl <;> rfl

theorem handle_normal_right (E : Editor) (k : Int) (hk : k = 108 ∨ k = KEY_RIGHT) :
    handle_normal k E = move_right { E with status := [] } := by
  rcases hk with rfl | rfl <;> rfl

theorem handle_normal_home (E : Editor) (k : Int) (hk : k = 48 ∨ k = KEY_HOME) :
    handle_normal k E = { E with status := [], cur_col := 0 } := by
  rcases hk with rfl | rfl <;> rfl

theorem handle_normal_end (E : Editor) (k : Int) (hk : k = 36 ∨ k = KEY_END) :
    handle_normal k E
      = clamp_cursor
          { ({ E with status := [] } : Editor) with
            cur_col := line_len E.cur_row { E with status := [] } } := by
  rcases hk with rfl | rfl <;> rfl

theorem handle_normal_last (E : Editor) :
    handle_normal 71 E = clamp_cursor { E with status := [], cur_row := E.line_count - 1 } := rfl

theorem handle_normal_first (E : Editor) :
    handle_normal 103 E = { E with status := [], cur_row := 0, cur_col := 0 } := rfl

theorem move_left_normal (E : Editor) (a2 : 0 ≤ E.cur_row) (a3 : E.cur_row < E.line_count)
    (hni : E.mode ≠ MODE_INSERT) (a5 : 0 ≤ E.cur_col)
    (a7 : E.cur_col ≤ max 0 (((E.lines.getD E.cur_row.toNat []).length : Int) - 1)) :
    (move_left E).cur_row = E.cur_row ∧
    (move_left E).cur_col = max 0 (E.cur_col - 1) ∧
    (move_left E).lines = E.lines ∧ (move_left E).modified = E.modified ∧
    (move_left E).mode = E.mode ∧ (move_left E).running = E.running := by
  unfold move_left
  by_cases hc : E.cur_col > 0
  · rw [if_pos hc]
    have hcl := clamp_cursor_normal { E with cur_col := E.cur_col - 1 } _ a2 a3 hni rfl
    dsimp only at hcl
    refine ⟨hcl.1, ?_, hcl.2.2⟩
    rw [hcl.2.1]
    omega
  · rw [if_neg hc]
    have hcl := clamp_cursor_normal E _ a2 a3 hni rfl
    refine ⟨hcl.1, ?_, hcl.2.2⟩
    rw [hcl.2.1]
    omega

theorem move_right_normal (E : Editor) (a2 : 0 ≤ E.cur_row) (a3 : E.cur_row < E.line_count)
    (hni : E.mode ≠ MODE_INSERT) (a5 : 0 ≤ E.cur_col) :
    (move_right E).cur_row = E.cur_row ∧
    (move_right E).cur_col
      = min (E.cur_col + 1) (max 0 (((E.lines.getD E.cur_row.toNat []).length : Int) - 1)) ∧
    (move_right E).lines = E.lines ∧ (move_right E).modified = E.modified ∧
    (move_right E).mode = E.mode ∧ (move_right E).running = E.running := by
  unfold move_right
  have hcl := clamp_cursor_normal { E with cur_col := E.cur_col + 1 } _ a2 a3 hni rfl
  dsimp only at hcl
  refine ⟨hcl.1, ?_, hcl.2.2⟩
  rw [hcl.2.1]
  omega

theorem move_down_normal (E : Editor) (a2 : 0 ≤ E.cur_row) (a3 : E.cur_row < E.line_count)
    (hni : E.mode ≠ MODE_INSERT) (a5 : 0 ≤ E.cur_col) :
    (move_down E).cur_row = min (E.cur_row + 1) (E.line_count - 1) ∧
    (move_down E).cur_col
      = min E.cur_col
          (max 0 (((E.lines.getD (min (E.cur_row + 1) (E.line_count - 1)).toNat []).length
            : Int) - 1)) ∧
    (move_down E).lines = E.lines ∧ (move_down E).modified = E.modified ∧
    (move_down E).mode = E.mode ∧ (move_down E).running = E.running := by
  unfold move_down
  by_cases hc : E.cur_row < E.line_count - 1
  · rw [if_pos hc]
    have hmin : min (E.cur_row + 1) (E.line_count - 1) = E.cur_row + 1 := by omega
    have hcl := clamp_cursor_normal { E with cur_row := E.cur_row + 1 } _
      (show (0 : Int) ≤ E.cur_row + 1 by omega)
      (show E.cur_row + 1 < E.line_count by omega) hni rfl
    dsimp only at hcl
    rw [hmin]
    refine ⟨hcl.1, ?_, hcl.2.2⟩
    rw [hcl.2.1]
    omega
  · rw [if_neg hc]
    have hmin : min (E.cur_row + 1) (E.line_count - 1) = E.cur_row := by omega
    have hcl := clamp_cursor_normal E _ a2 a3 hni rfl
    rw [hmin]
    refine ⟨hcl.1, ?_, hcl.2.2⟩
    rw [hcl.2.1]
    omega

theorem move_up_normal (E : Editor) (a2 : 0 ≤ E.cur_row) (a3 : E.cur_row < E.line_count)
    (hni : E.mode ≠ MODE_INSERT) (a5 : 0 ≤ E.cur_col) :
    (move_up E).cur_row = max (E.cur_row - 1) 0 ∧
    (move_up E).cur_col
      = min E.cur_col
          (max 0 (((E.lines.getD (max (E.cur_row - 1) 0).toNat []).length : Int) - 1)) ∧
    (move_up E).lines = E.lines ∧ (move_up E).modified = E.modified ∧
    (move_up E).mode = E.mode ∧ (move_up E).running = E.running := by
  unfold move_up
  by_cases hc : E.cur_row > 0
  · rw [if_pos hc]
    have hmax : max (E.cur_row - 1) 0 = E.cur_row - 1 := by omega
    have hcl := clamp_cursor_normal { E with cur_row := E.cur_row - 1 } _
      (show (0 : Int) ≤ E.cur_row - 1 by omega)
      (show E.cur_row - 1 < E.line_count by omega) hni rfl
    dsimp only at hcl
    rw [hmax]
    refine ⟨hcl.1, ?_, hcl.2.2⟩
    rw [hcl.2.1]
    omega
  · rw [if_neg hc]
    have hmax : max (E.cur_row - 1) 0 = E.cur_row := by omega
    have hcl := clamp_cursor_normal E _ a2 a3 hni rfl
    rw [hmax]
    refine ⟨hcl.1, ?_, hcl.2.2⟩
    rw [hcl.2.1]
    omega

/-- The jump to the end of the line outside Insert mode. -/
theorem jump_end_normal (E : Editor) (a2 : 0 ≤ E.cur_row) (a3 : E.cur_row < E.line_count)
    (hni : E.mode ≠ MODE_INSERT) :
    (clamp_cursor { E with cur_col := line_len E.cur_row E }).cur_row = E.cur_row ∧
    (clamp_cursor { E with cur_col := line_len E.cur_row E }).cur_col
      = max 0 (((E.lines.getD E.cur_row.toNat []).length : Int) - 1) ∧
    (clamp_cursor { E with cur_col := line_len E.cur_row E }).lines = E.lines ∧
    (clamp_cursor { E with cur_col := line_len E.cur_row E }).modified = E.modified ∧
    (clamp_cursor { E with cur_col := line_len E.cur_row E }).mode = E.mode ∧
    (clamp_cursor { E with cur_col := line_len E.cur_row E }).running = E.running := by
  rw [line_len_eq E E.cur_row a2 a3]
  have hcl := clamp_cursor_normal
    { E with cur_col := ((E.lines.getD E.cur_row.toNat []).length : Int) } _ a2 a3 hni rfl
  dsimp only at hcl
  refine ⟨hcl.1, ?_, hcl.2.2⟩
  rw [hcl.2.1]
  omega

/-- The jump to the last line outside Insert mode. -/
theorem jump_last_normal (E : Editor) (a1 : 1 ≤ E.line_count) (hni : E.mode ≠ MODE_INSERT)
    (a5 : 0 ≤ E.cur_col) :
    (clamp_cursor { E with cur_row := E.line_count - 1 }).cur_row = E.line_count - 1 ∧
    (clamp_cursor { E with cur_row := E.line_count - 1 }).cur_col
      = min E.cur_col
          (max 0 (((E.lines.getD (E.line_count - 1).toNat []).length : Int) - 1)) ∧
    (clamp_cursor { E with cur_row := E.line_count - 1 }).lines = E.lines ∧
    (clamp_cursor { E with cur_row := E.line_count - 1 }).modified = E.modified ∧
    (clamp_cursor { E with cur_row := E.line_count - 1 }).mode = E.mode ∧
    (clamp_cursor { E with cur_row := E.line_count - 1 }).running = E.running := by
  have hcl := clamp_cursor_normal { E with cur_row := E.line_count - 1 } _
    (show (0 : Int) ≤ E.line_count - 1 by omega)
    (show E.line_count - 1 < E.line_count by omega) hni rfl
  dsimp only at hcl
  refine ⟨hcl.1, ?_, hcl.2.2⟩
  rw [hcl.2.1]
  omega

/-- C23: movement in Normal mode.  In every reachable state in Normal mode with
the cursor at (r, c) and n lines: `h`/Left gives (r, max(0, c - 1)); `l`/Right
gives (r, min(c + 1, max(0, len(r) - 1))); `j`/Down gives the row
min(r + 1, n - 1) and `k`/Up the row max(r - 1, 0), each with the column
min(c, max(0, len(row) - 1)) for the new row; `0`/Home gives (r, 0); `$`/End
gives (r, max(0, len(r) - 1)); `G` gives the row n - 1 with the column clamped
to that line; `g` gives (0, 0).  For all these keys the Document, the modified
flag, the mode and the running flag stay as they were. -/
theorem normal_movement (fs : FS) (key : Int) (E : Editor) (h : Reachable E)
    (hm : E.mode = MODE_NORMAL) :
    ((key = 104 ∨ key = KEY_LEFT) →
      (dispatch_key fs key E).cur_row = E.cur_row ∧
      (dispatch_key fs key E).cur_col = max 0 (E.cur_col - 1)) ∧
    ((key = 108 ∨ key = KEY_RIGHT) →
      (dispatch_key fs key E).cur_row = E.cur_row ∧
      (dispatch_key fs key E).cur_col
        = min (E.cur_col + 1)
            (max 0 (((E.lines.getD E.cur_row.toNat []).length : Int) - 1))) ∧
    ((key = 106 ∨ key = KEY_DOWN) →
      (dispatch_key fs key E).cur_row = min (E.cur_row + 1) (E.line_count - 1) ∧
      (dispatch_key fs key E).cur_col
        = min E.cur_col
            (max 0 (((E.lines.getD (min (E.cur_row + 1) (E.line_count - 1)).toNat []).length
              : Int) - 1))) ∧
    ((key = 107 ∨ key = KEY_UP) →
      (dispatch_key fs key E).cur_row = max (E.cur_row - 1) 0 ∧
      (dispatch_key fs key E).cur_col
        = min E.cur_col
            (max 0 (((E.lines.getD (max (E.cur_row - 1) 0).toNat []).length : Int) - 1))) ∧
    ((key = 48 ∨ key = KEY_HOME) →
      (dispatch_key fs key E).cur_row = E.cur_row ∧ (dispatch_key fs key E).cur_col = 0) ∧
    ((key = 36 ∨ key = KEY_END) →
      (dispatch_key fs key E).cur_row = E.cur_row ∧
      (dispatch_key fs key E).cur_col
        = max 0 (((E.lines.getD E.cur_row.toNat []).length : Int) - 1)) ∧
    (key = 71 →
      (dispatch_key fs key E).cur_row = E.line_count - 1 ∧
      (dispatch_key fs key E).cur_col
        = min E.cur_col
            (max 0 (((E.lines.getD (E.line_count - 1).toNat []).length : Int) - 1))) ∧
    (key = 103 →
      (dispatch_key fs key E).cur_row = 0 ∧ (dispatch_key fs key E).cur_col = 0) ∧
    ((key = 104 ∨ key = KEY_LEFT ∨ key = 108 ∨ key = KEY_RIGHT ∨ key = 106 ∨ key = KEY_DOWN ∨
        key = 107 ∨ key = KEY_UP ∨ key = 48 ∨ key = KEY_HOME ∨ key = 36 ∨ key = KEY_END ∨
        key = 71 ∨ key = 103) →
      (dispatch_key fs key E).lines = E.lines ∧
      (dispatch_key fs key E).modified = E.modified ∧
      (dispatch_key fs key E).mode = E.mode ∧
      (dispatch_key fs key E).running = E.running) := by
  obtain ⟨a1, a2, a3, a4, a5, a6, a7, a8⟩ := reachable_inv E h
  have a7 := a7 (by rw [hm]; decide)
  have hni : ¬(E.mode = MODE_INSERT) := by rw [hm]; decide
  rw [dispatch_key_normal fs key E hm]
  have hleft := fun hk : key = 104 ∨ key = KEY_LEFT =>
    (congrArg (fun S : Editor => S.cur_row = E.cur_row ∧ S.cur_col = max 0 (E.cur_col - 1) ∧
        S.lines = E.lines ∧ S.modified = E.modified ∧ S.mode = E.mode ∧ S.running = E.running)
      (handle_normal_left E key hk)).mpr
      (move_left_normal { E with status := [] } a2 a3 hni a5 a7)
  have hright := fun hk : key = 108 ∨ key = KEY_RIGHT =>
    (congrArg (fun S : Editor => S.cur_row = E.cur_row ∧
        S.cur_col = min (E.cur_col + 1)
          (max 0 (((E.lines.getD E.cur_row.toNat []).length : Int) - 1)) ∧
        S.lines = E.lines ∧ S.modified = E.modified ∧ S.mode = E.mode ∧ S.running = E.running)
      (handle_normal_right E key hk)).mpr
      (move_right_normal { E with status := [] } a2 a3 hni a5)
  have hdown := fun hk : key = 106 ∨ key = KEY_DOWN =>
    (congrArg (fun S : Editor => S.cur_row = min (E.cur_row + 1) (E.line_count - 1) ∧
        S.cur_col = min E.cur_col
          (max 0 (((E.lines.getD (min (E.cur_row + 1) (E.line_count - 1)).toNat []).length
            : Int) - 1)) ∧
        S.lines = E.lines ∧ S.modified = E.modified ∧ S.mode = E.mode ∧ S.running = E.running)
      (handle_normal_down E key hk)).mpr
      (move_down_normal { E with status := [] } a2 a3 hni a5)
  have hup := fun hk : key = 107 ∨ key = KEY_UP =>
    (congrArg (fun S : Editor => S.cur_row = max (E.cur_row - 1) 0 ∧
        S.cur_col = min E.cur_col
          (max 0 (((E.lines.getD (max (E.cur_row - 1) 0).toNat []).length : Int) - 1)) ∧
        S.lines = E.lines ∧ S.modified = E.modified ∧ S.mode = E.mode ∧ S.running = E.running)
      (handle_normal_up E key hk)).mpr
      (move_up_normal { E with status := [] } a2 a3 hni a5)
  have hend := fun hk : key = 36 ∨ key = KEY_END =>
    (congrArg (fun S : Editor => S.cur_row = E.cur_row ∧
        S.cur_col = max 0 (((E.lines.getD E.cur_row.toNat []).length : Int) - 1) ∧
        S.lines = E.lines ∧ S.modified = E.modified ∧ S.mode = E.mode ∧ S.running = E.running)
      (handle_normal_end E key hk)).mpr
      (jump_end_normal { E with status := [] } a2 a3 hni)
  have hlast := fun hk : key = 71 =>
    (congrArg (fun S : Editor => S.cur_row = E.line_count - 1 ∧
        S.cur_col = min E.cur_col
          (max 0 (((E.lines.getD (E.line_count - 1).toNat []).length : Int) - 1)) ∧
        S.lines = E.lines ∧ S.modified = E.modified ∧ S.mode = E.mode ∧ S.running = E.running)
      (hk ▸ handle_normal_last E : handle_normal key E = _)).mpr
      (jump_last_normal { E with status := [] } a1 hni a5)
  refine ⟨fun hk => ⟨(hleft hk).1, (hleft hk).2.1⟩, fun hk => ⟨(hright hk).1, (hright hk).2.1⟩,
    fun hk => ⟨(hdown hk).1, (hdown hk).2.1⟩, fun hk => ⟨(hup hk).1, (hup hk).2.1⟩,
    fun hk => ?_, fun hk => ⟨(hend hk).1, (hend hk).2.1⟩,
    fun hk => ⟨(hlast hk).1, (hlast hk).2.1⟩, fun hk => ?_, fun hk => ?_⟩
  · rw [handle_normal_home E key hk]
    exact ⟨rfl, rfl⟩
  · subst hk
    exact ⟨rfl, rfl⟩
  · rcases hk with hk | hk | hk | hk | hk | hk | hk | hk | hk | hk | hk | hk | hk | hk
    · exact (hleft (Or.inl hk)).2.2
    · exact (hleft (Or.inr hk)).2.2
    · exact (hright (Or.inl hk)).2.2
    · exact (hright (Or.inr hk)).2.2
    · exact (hdown (Or.inl hk)).2.2
    · exact (hdown (Or.inr hk)).2.2
    · exact (hup (Or.inl hk)).2.2
    · exact (hup (Or.inr hk)).2.2
    · rw [handle_normal_home E key (Or.inl hk)]
      exact ⟨rfl, rfl, rfl, rfl⟩
    · rw [handle_normal_home E key (Or.inr hk)]
      exact ⟨rfl, rfl, rfl, rfl⟩
    · exact (hend (Or.inl hk)).2.2
    · exact (hend (Or.inr hk)).2.2
    · exact (hlast hk).2.2
    · subst hk
      exact ⟨rfl, rfl, rfl, rfl⟩

theorem normal_movement_witness :
    Reachable (run_keys fs_demo [105, 97, 98, 99, KEY_ESC, 104] (main_init fs_demo none 24 80)) ∧
    (run_keys fs_demo [105, 97, 98, 99, KEY_ESC, 104] (main_init fs_demo none 24 80)).mode
      = MODE_NORMAL ∧
    (run_keys fs_demo [105, 97, 98, 99, KEY_ESC, 104] (main_init fs_demo none 24 80)).cur_col
      = 1 ∧
    (dispatch_key fs_demo 108
      (run_keys fs_demo [105, 97, 98, 99, KEY_ESC, 104] (main_init fs_demo none 24 80))).cur_col
      = 2 ∧
    (dispatch_key fs_demo 108
      (run_keys fs_demo [105, 97, 98, 99, KEY_ESC, 104] (main_init fs_demo none 24 80))).lines
      = [str "abc"] :=
  ⟨run_keys_reachable _ _ _ (Reachable.init _ _ _ _) (by decide), by decide, by decide,
   ((normal_movement fs_demo 108 _
      (run_keys_reachable _ _ _ (Reachable.init fs_demo none 24 80) (by decide))
      (by decide)).2.1 (Or.inl rfl)).2.trans (by decide),
   ((normal_movement fs_demo 108 _
      (run_keys_reachable _ _ _ (Reachable.init fs_demo none 24 80) (by decide))
      (by decide)).2.2.2.2.2.2.2.2 (Or.inr (Or.inr (Or.inl rfl)))).1.trans (by decide)⟩

/-! ## The editing keys of Insert mode -/

theorem handle_insert_printable (k : Int) (E : Editor) (h0 : 32 ≤ k) (h1 : k ≤ 126) :
    handle_insert k E = insert_char k.toNat E := by
  unfold handle_insert
  refine (if_neg (show ¬(k = 1009) by omega)).trans ?_
  refine (if_neg (show ¬(k = 1000) by omega)).trans ?_
  refine (if_neg (show ¬(k = 1001) by omega)).trans ?_
  refine (if_neg (show ¬(k = 1002) by omega)).trans ?_
  refine (if_neg (show ¬(k = 1003) by omega)).trans ?_
  refine (if_neg (show ¬(k = 1007) by omega)).trans ?_
  refine (if_neg (show ¬(k = 1006) by omega)).trans ?_
  refine (if_neg (show ¬(k = 1008) by omega)).trans ?_
  refine (if_neg (show ¬(k = 1004) by omega)).trans ?_
  refine (if_neg (show ¬(k = 1005) by omega)).trans ?_
  exact if_pos (show k ≥ 32 ∧ k < 127 by omega)

theorem handle_insert_enter (E : Editor) : handle_insert KEY_ENTER E = insert_newline E := rfl

theorem handle_insert_backspace (E : Editor) :
    handle_insert KEY_BACKSPACE E = backspace_char E := rfl

theorem set_take_succ (l : List (List Nat)) (i : Nat) (x : List Nat) (h : i < l.length) :
    (l.set i x).take (i + 1) = l.take i ++ [x] ∧ (l.set i x).drop (i + 1) = l.drop (i + 1) := by
  constructor
  · rw [List.set_eq_take_append_cons_drop, if_pos h]
    have hlen : (l.take i).length = i := by rw [List.length_take]; omega
    rw [List.take_append_eq_append_take, hlen, List.take_of_length_le (by omega)]
    simp
  · exact List.drop_set_of_lt _ _ (by omega)

/-- C24: in every reachable state in Insert mode with the cursor at (r, c), a
printable key k (32 ≤ k ≤ 126) makes line r its first c bytes, then k, then its
remaining bytes, one byte longer, leaves every other line as it was, moves the
cursor to (r, c + 1) and sets the modified flag. -/
theorem insert_printable (fs : FS) (k : Int) (E : Editor) (h : Reachable E)
    (hm : E.mode = MODE_INSERT) (h0 : 32 ≤ k) (h1 : k ≤ 126) :
    (dispatch_key fs k E).lines
      = E.lines.set E.cur_row.toNat
          ((cur_line E).take E.cur_col.toNat ++ [k.toNat] ++ (cur_line E).drop E.cur_col.toNat) ∧
    cur_line (dispatch_key fs k E)
      = (cur_line E).take E.cur_col.toNat ++ [k.toNat] ++ (cur_line E).drop E.cur_col.toNat ∧
    (cur_line (dispatch_key fs k E)).length = (cur_line E).length + 1 ∧
    (dispatch_key fs k E).cur_row = E.cur_row ∧
    (dispatch_key fs k E).cur_col = E.cur_col + 1 ∧
    (dispatch_key fs k E).modified = 1 := by
  obtain ⟨a1, a2, a3, a4, a5, a6, a7, a8⟩ := reachable_inv E h
  have a6 := a6 hm
  rw [dispatch_key_insert fs k E hm, handle_insert_printable k E h0 h1]
  have hline : cur_line (insert_char k.toNat E)
      = (cur_line E).take E.cur_col.toNat ++ [k.toNat] ++ (cur_line E).drop E.cur_col.toNat :=
    cur_line_set E _ _ rfl a2 a3 _ rfl rfl
  refine ⟨rfl, hline, ?_, rfl, rfl, rfl⟩
  rw [hline]
  simp only [List.length_append, List.length_take, List.length_drop, List.length_cons,
    List.length_nil]
  omega

theorem insert_printable_witness :
    Reachable (run_keys fs_demo [105, 98] demo_start) ∧
    (run_keys fs_demo [105, 98] demo_start).mode = MODE_INSERT ∧
    (run_keys fs_demo [105, 98] demo_start).lines = [str "ba"] ∧
    (dispatch_key fs_demo 99 (run_keys fs_demo [105, 98] demo_start)).lines = [str "bca"] ∧
    (dispatch_key fs_demo 99 (run_keys fs_demo [105, 98] demo_start)).cur_col = 2 :=
  ⟨run_keys_reachable _ _ _ (main_init_demo ▸ Reachable.init fs_demo (some [102]) 24 80)
      (by decide), by decide, by decide,
   (insert_printable fs_demo 99 _
      (run_keys_reachable _ _ _ (main_init_demo ▸ Reachable.init fs_demo (some [102]) 24 80)
        (by decide)) (by decide) (by decide) (by decide)).1.trans (by decide),
   (insert_printable fs_demo 99 _
      (run_keys_reachable _ _ _ (main_init_demo ▸ Reachable.init fs_demo (some [102]) 24 80)
        (by decide)) (by decide) (by decide) (by decide)).2.2.2.2.1.trans (by decide)⟩

/-- C25: in every reachable state in Insert mode with the cursor at (r, c),
Enter splits line r at c: the Document becomes the lines before r, the first c
bytes of line r, the remaining bytes of line r as a new line at index r + 1,
and the lines after r; `line_count` grows by one, the cursor moves to
(r + 1, 0) and the modified flag is set. -/
theorem enter_splits_line (fs : FS) (E : Editor) (h : Reachable E)
    (hm : E.mode = MODE_INSERT) :
    (dispatch_key fs KEY_ENTER E).lines
      = E.lines.take E.cur_row.toNat
          ++ [(cur_line E).take E.cur_col.toNat, (cur_line E).drop E.cur_col.toNat]
          ++ E.lines.drop (E.cur_row.toNat + 1) ∧
    (dispatch_key fs KEY_ENTER E).line_count = E.line_count + 1 ∧
    (dispatch_key fs KEY_ENTER E).cur_row = E.cur_row + 1 ∧
    (dispatch_key fs KEY_ENTER E).cur_col = 0 ∧
    (dispatch_key fs KEY_ENTER E).modified = 1 := by
  obtain ⟨a1, a2, a3, a4, a5, a6, a7, a8⟩ := reachable_inv E h
  rw [dispatch_key_insert fs KEY_ENTER E hm, handle_insert_enter]
  have hr : (E.cur_row + 1).toNat = E.cur_row.toNat + 1 := by omega
  have hlt : E.cur_row.toNat < E.lines.length := by
    unfold Editor.line_count at a3
    omega
  obtain ⟨ht, hd⟩ := set_take_succ E.lines E.cur_row.toNat
    ((cur_line E).take E.cur_col.toNat) hlt
  have hl : (insert_newline E).lines
      = E.lines.take E.cur_row.toNat
          ++ [(cur_line E).take E.cur_col.toNat, (cur_line E).drop E.cur_col.toNat]
          ++ E.lines.drop (E.cur_row.toNat + 1) := by
    show ((E.lines.set E.cur_row.toNat ((cur_line E).take E.cur_col.toNat)).take
            (E.cur_row + 1).toNat ++ [(cur_line E).drop E.cur_col.toNat])
          ++ (E.lines.set E.cur_row.toNat ((cur_line E).take E.cur_col.toNat)).drop
            (E.cur_row + 1).toNat = _
    rw [hr, ht, hd]
    simp
  refine ⟨hl, ?_, rfl, rfl, rfl⟩
  have hc := insert_line_at_count (E.cur_row + 1) ((cur_line E).drop E.cur_col.toNat)
    { E with lines := E.lines.set E.cur_row.toNat ((cur_line E).take E.cur_col.toNat) }
  refine Eq.trans hc ?_
  show ((E.lines.set _ _).length : Int) + 1 = _
  rw [List.length_set]
  rfl

theorem enter_splits_line_witness :
    Reachable (run_keys fs_demo [105, 98, 99, KEY_LEFT] demo_start) ∧
    (run_keys fs_demo [105, 98, 99, KEY_LEFT] demo_start).mode = MODE_INSERT ∧
    (run_keys fs_demo [105, 98, 99, KEY_LEFT] demo_start).lines = [str "bca"] ∧
    (run_keys fs_demo [105, 98, 99, KEY_LEFT] demo_start).cur_col = 1 ∧
    (dispatch_key fs_demo KEY_ENTER
      (run_keys fs_demo [105, 98, 99, KEY_LEFT] demo_start)).lines = [str "b", str "ca"] ∧
    (dispatch_key fs_demo KEY_ENTER
      (run_keys fs_demo [105, 98, 99, KEY_LEFT] demo_start)).cur_row = 1 :=
  ⟨run_keys_reachable _ _ _ (main_init_demo ▸ Reachable.init fs_demo (some [102]) 24 80)
      (by decide), by decide, by decide, by decide,
   (enter_splits_line fs_demo _
      (run_keys_reachable _ _ _ (main_init_demo ▸ Reachable.init fs_demo (some [102]) 24 80)
        (by decide)) (by decide)).1.trans (by decide),
   (enter_splits_line fs_demo _
      (run_keys_reachable _ _ _ (main_init_demo ▸ Reachable.init fs_demo (some [102]) 24 80)
        (by decide)) (by decide)).2.2.1.trans (by decide)⟩

theorem set_eraseIdx_succ (l : List (List Nat)) (i : Nat) (x : List Nat)
    (h : i + 1 < l.length) :
    (l.set i x).eraseIdx (i + 1) = l.take i ++ [x] ++ l.drop (i + 2) := by
  rw [List.eraseIdx_eq_take_drop_succ]
  obtain ⟨ht, hd⟩ := set_take_succ l i x (by omega)
  rw [ht, List.drop_set_of_lt _ _ (by omega)]

/-- C26: Backspace in every reachable state in Insert mode with the cursor at
(r, c).  For c > 0 the character at index c - 1 of line r is deleted and the
cursor moves to (r, c - 1).  For c = 0 and r > 0 line r - 1 becomes line r - 1
followed by line r, line r is removed, and the cursor moves to row r - 1 at the
column that was the length of line r - 1.  For c = 0 and r = 0 the state is
unchanged. -/
theorem backspace_in_insert (fs : FS) (E : Editor) (h : Reachable E)
    (hm : E.mode = MODE_INSERT) :
    (E.cur_col > 0 →
      (dispatch_key fs KEY_BACKSPACE E).lines
        = E.lines.set E.cur_row.toNat
            ((cur_line E).take (E.cur_col.toNat - 1) ++ (cur_line E).drop E.cur_col.toNat) ∧
      (dispatch_key fs KEY_BACKSPACE E).cur_row = E.cur_row ∧
      (dispatch_key fs KEY_BACKSPACE E).cur_col = E.cur_col - 1) ∧
    (E.cur_col = 0 ∧ E.cur_row > 0 →
      (dispatch_key fs KEY_BACKSPACE E).lines
        = E.lines.take (E.cur_row.toNat - 1)
            ++ [E.lines.getD (E.cur_row.toNat - 1) [] ++ E.lines.getD E.cur_row.toNat []]
            ++ E.lines.drop (E.cur_row.toNat + 1) ∧
      (dispatch_key fs KEY_BACKSPACE E).cur_row = E.cur_row - 1 ∧
      (dispatch_key fs KEY_BACKSPACE E).cur_col
        = ((E.lines.getD (E.cur_row.toNat - 1) []).length : Int)) ∧
    (E.cur_col = 0 ∧ E.cur_row = 0 → dispatch_key fs KEY_BACKSPACE E = E) := by
  obtain ⟨a1, a2, a3, a4, a5, a6, a7, a8⟩ := reachable_inv E h
  have a6 := a6 hm
  rw [dispatch_key_insert fs KEY_BACKSPACE E hm, handle_insert_backspace]
  unfold backspace_char
  refine ⟨fun hc => ?_, fun hc => ?_, fun hc => ?_⟩
  · rw [if_pos hc]
    have hd := delete_char_at_in_range (E.cur_col - 1) { E with cur_col := E.cur_col - 1 }
      (by omega) (show E.cur_col - 1 < ((cur_line E).length : Int) by omega)
    refine (congrArg (fun S : Editor => S.lines = _ ∧ S.cur_row = E.cur_row ∧
      S.cur_col = E.cur_col - 1) hd).mpr ⟨?_, rfl, rfl⟩
    show E.lines.set E.cur_row.toNat ((cur_line E).eraseIdx (E.cur_col - 1).toNat) = _
    rw [List.eraseIdx_eq_take_drop_succ]
    have e1 : (E.cur_col - 1).toNat = E.cur_col.toNat - 1 := by omega
    have e2 : E.cur_col.toNat - 1 + 1 = E.cur_col.toNat := by omega
    rw [e1, e2]
  · obtain ⟨hc0, hr0⟩ := hc
    rw [if_neg (by omega), if_pos hr0]
    have hr1 : (E.cur_row - 1).toNat = E.cur_row.toNat - 1 := by omega
    have hr2 : E.cur_row.toNat = (E.cur_row.toNat - 1) + 1 := by omega
    have hlt : E.cur_row.toNat - 1 + 1 < E.lines.length := by
      unfold Editor.line_count at a3
      omega
    have hn : ((E.lines.set (E.cur_row - 1).toNat
        (E.lines.getD (E.cur_row - 1).toNat [] ++ E.lines.getD E.cur_row.toNat [])).length : Int)
        = E.line_count := by
      rw [List.length_set]
      rfl
    have hl := delete_line_at_lines E.cur_row
      { E with
          lines := E.lines.set (E.cur_row - 1).toNat
            (E.lines.getD (E.cur_row - 1).toNat [] ++ E.lines.getD E.cur_row.toNat []) }
      a2 (show E.cur_row < ((E.lines.set _ _).length : Int) by rw [hn]; exact a3)
      (show (2 : Int) ≤ ((E.lines.set _ _).length : Int) by rw [hn]; omega)
    have hf := delete_line_at_fields E.cur_row
      { E with
          lines := E.lines.set (E.cur_row - 1).toNat
            (E.lines.getD (E.cur_row - 1).toNat [] ++ E.lines.getD E.cur_row.toNat []) }
    refine ⟨?_, ?_, ?_⟩
    · refine hl.trans ?_
      show (E.lines.set (E.cur_row - 1).toNat
        (E.lines.getD (E.cur_row - 1).toNat [] ++ E.lines.getD E.cur_row.toNat [])).eraseIdx
          E.cur_row.toNat = _
      rw [hr1]
      have := set_eraseIdx_succ E.lines (E.cur_row.toNat - 1)
        (E.lines.getD (E.cur_row.toNat - 1) [] ++ E.lines.getD E.cur_row.toNat []) hlt
      rw [← hr2] at this
      rw [this]
      have e3 : E.cur_row.toNat - 1 + 2 = E.cur_row.toNat + 1 := by omega
      rw [e3]
    · show (delete_line_at E.cur_row _).cur_row - 1 = _
      rw [hf.1]
    · show line_len (E.cur_row - 1) E = _
      rw [line_len_eq E (E.cur_row - 1) (by omega) (by omega), hr1]
  · rw [if_neg (by omega), if_neg (by omega)]

theorem backspace_in_insert_witness :
    Reachable (run_keys fs_demo [105, 97, 98, KEY_ENTER, 99, 100, KEY_HOME]
      (main_init fs_demo none 24 80)) ∧
    (run_keys fs_demo [105, 97, 98, KEY_ENTER, 99, 100, KEY_HOME]
      (main_init fs_demo none 24 80)).mode = MODE_INSERT ∧
    (run_keys fs_demo [105, 97, 98, KEY_ENTER, 99, 100, KEY_HOME]
      (main_init fs_demo none 24 80)).lines = [str "ab", str "cd"] ∧
    (run_keys fs_demo [105, 97, 98, KEY_ENTER, 99, 100, KEY_HOME]
      (main_init fs_demo none 24 80)).cur_row = 1 ∧
    (run_keys fs_demo [105, 97, 98, KEY_ENTER, 99, 100, KEY_HOME]
      (main_init fs_demo none 24 80)).cur_col = 0 ∧
    (dispatch_key fs_demo KEY_BACKSPACE
      (run_keys fs_demo [105, 97, 98, KEY_ENTER, 99, 100, KEY_HOME]
        (main_init fs_demo none 24 80))).lines = [str "abcd"] ∧
    (dispatch_key fs_demo KEY_BACKSPACE
      (run_keys fs_demo [105, 97, 98, KEY_ENTER, 99, 100, KEY_HOME]
        (main_init fs_demo none 24 80))).cur_row = 0 ∧
    (dispatch_key fs_demo KEY_BACKSPACE
      (run_keys fs_demo [105, 97, 98, KEY_ENTER, 99, 100, KEY_HOME]
        (main_init fs_demo none 24 80))).cur_col = 2 :=
  ⟨run_keys_reachable _ _ _ (Reachable.init _ _ _ _) (by decide), by decide, by decide,
   by decide, by decide,
   ((backspace_in_insert fs_demo _
      (run_keys_reachable _ _ _ (Reachable.init fs_demo none 24 80) (by decide))
      (by decide)).2.1 (by decide)).1.trans (by decide),
   ((backspace_in_insert fs_demo _
      (run_keys_reachable _ _ _ (Reachable.init fs_demo none 24 80) (by decide))
      (by decide)).2.1 (by decide)).2.1.trans (by decide),
   ((backspace_in_insert fs_demo _
      (run_keys_reachable _ _ _ (Reachable.init fs_demo none 24 80) (by decide))
      (by decide)).2.1 (by decide)).2.2.trans (by decide)⟩

/-! ## The viewport -/

theorem adjust_viewport_top (E : Editor) :
    (adjust_viewport E).top_line
      = if E.cur_row ≥ (if E.cur_row < E.top_line then E.cur_row else E.top_line)
            + (E.screen_rows - 1)
        then E.cur_row - (E.screen_rows - 1) + 1
        else (if E.cur_row < E.top_line then E.cur_row else E.top_line) := rfl

theorem adjust_viewport_left (E : Editor) :
    (adjust_viewport E).left_col
      = if E.cur_col ≥ (if E.cur_col < E.left_col then E.cur_col else E.left_col)
            + E.screen_cols
        then E.cur_col - E.screen_cols + 1
        else (if E.cur_col < E.left_col then E.cur_col else E.left_col) := rfl

/-- C27: for every state with `screen_rows` ≥ 2 and `screen_cols` ≥ 1, whatever
the cursor and the offsets are, after `adjust_viewport` the cursor lies inside
the window: `top_line` ≤ `cur_row` < `top_line` + (`screen_rows` - 1) and
`left_col` ≤ `cur_col` < `left_col` + `screen_cols`. -/
theorem cursor_in_window (E : Editor) (h1 : 2 ≤ E.screen_rows) (h2 : 1 ≤ E.screen_cols) :
    (adjust_viewport E).top_line ≤ (adjust_viewport E).cur_row ∧
    (adjust_viewport E).cur_row
      < (adjust_viewport E).top_line + ((adjust_viewport E).screen_rows - 1) ∧
    (adjust_viewport E).left_col ≤ (adjust_viewport E).cur_col ∧
    (adjust_viewport E).cur_col
      < (adjust_viewport E).left_col + (adjust_viewport E).screen_cols := by
  have e1 : (adjust_viewport E).cur_row = E.cur_row := rfl
  have e2 : (adjust_viewport E).cur_col = E.cur_col := rfl
  have e3 : (adjust_viewport E).screen_rows = E.screen_rows := rfl
  have e4 : (adjust_viewport E).screen_cols = E.screen_cols := rfl
  rw [e1, e2, e3, e4, adjust_viewport_top, adjust_viewport_left]
  refine ⟨?_, ?_, ?_, ?_⟩ <;> split_ifs <;> omega

theorem wrap_int_eq (x : Int) (h : is_int x) : wrap_int x = x := by
  simp only [is_int, INT_MIN, INT_MAX] at h
  unfold wrap_int
  omega

/-- Where no operation of `adjust_viewport` leaves the range of `int`, the
machine computes the exact result. -/
theorem adjust_viewport_int_eq (E : Editor) (h1 : 2 ≤ E.screen_rows)
    (i1 : is_int E.cur_row) (i2 : is_int E.cur_col) (i3 : is_int E.top_line)
    (i4 : is_int E.left_col) (i5 : is_int E.screen_rows) (i6 : is_int E.screen_cols)
    (b1 : E.top_line + (E.screen_rows - 1) ≤ INT_MAX)
    (b2 : E.left_col + E.screen_cols ≤ INT_MAX) (h2 : 1 ≤ E.screen_cols) :
    adjust_viewport_int E = adjust_viewport E := by
  unfold is_int at i1 i2 i3 i4 i5 i6
  simp only [INT_MAX, INT_MIN] at *
  have hr : wrap_int (E.screen_rows - 1) = E.screen_rows - 1 :=
    wrap_int_eq _ ⟨by simp only [INT_MIN]; omega, by simp only [INT_MAX]; omega⟩
  have ht : (adjust_viewport_int E).top_line = (adjust_viewport E).top_line := by
    show (if E.cur_row ≥ wrap_int ((if E.cur_row < E.top_line then E.cur_row else E.top_line)
            + wrap_int (E.screen_rows - 1))
          then wrap_int (wrap_int (E.cur_row - wrap_int (E.screen_rows - 1)) + 1)
          else (if E.cur_row < E.top_line then E.cur_row else E.top_line)) = _
    rw [hr, adjust_viewport_top]
    unfold wrap_int
    split_ifs <;> omega
  have hl : (adjust_viewport_int E).left_col = (adjust_viewport E).left_col := by
    show (if E.cur_col ≥ wrap_int ((if E.cur_col < E.left_col then E.cur_col else E.left_col)
            + E.screen_cols)
          then wrap_int (wrap_int (E.cur_col - E.screen_cols) + 1)
          else (if E.cur_col < E.left_col then E.cur_col else E.left_col)) = _
    rw [adjust_viewport_left]
    unfold wrap_int
    split_ifs <;> omega
  have h1 : adjust_viewport_int E
      = { E with top_line := (adjust_viewport_int E).top_line,
                 left_col := (adjust_viewport_int E).left_col } := rfl
  have h2 : adjust_viewport E
      = { E with top_line := (adjust_viewport E).top_line,
                 left_col := (adjust_viewport E).left_col } := rfl
  rw [h1, h2, ht, hl]

theorem cursor_in_window_witness :
    (2 : Int) ≤ ({ demo_start with cur_row := 30, cur_col := 100 } : Editor).screen_rows ∧
    (1 : Int) ≤ ({ demo_start with cur_row := 30, cur_col := 100 } : Editor).screen_cols ∧
    (adjust_viewport { demo_start with cur_row := 30, cur_col := 100 }).top_line = 8 ∧
    (adjust_viewport { demo_start with cur_row := 30, cur_col := 100 }).left_col = 21 ∧
    (adjust_viewport { demo_start with cur_row := 30, cur_col := 100 }).top_line
      ≤ (adjust_viewport { demo_start with cur_row := 30, cur_col := 100 }).cur_row :=
  ⟨by decide, by decide, by decide, by decide,
   (cursor_in_window { demo_start with cur_row := 30, cur_col := 100 }
      (by decide) (by decide)).1⟩

theorem adjust_viewport_idem (E : Editor) :
    adjust_viewport (adjust_viewport E) = adjust_viewport E := by
  have ht : (adjust_viewport (adjust_viewport E)).top_line = (adjust_viewport E).top_line := by
    rw [adjust_viewport_top (adjust_viewport E)]
    have e1 : (adjust_viewport E).cur_row = E.cur_row := rfl
    have e3 : (adjust_viewport E).screen_rows = E.screen_rows := rfl
    rw [e1, e3, adjust_viewport_top]
    split_ifs <;> omega
  have hl : (adjust_viewport (adjust_viewport E)).left_col = (adjust_viewport E).left_col := by
    rw [adjust_viewport_left (adjust_viewport E)]
    have e2 : (adjust_viewport E).cur_col = E.cur_col := rfl
    have e4 : (adjust_viewport E).screen_cols = E.screen_cols := rfl
    rw [e2, e4, adjust_viewport_left]
    split_ifs <;> omega
  have hs : ∀ S : Editor, adjust_viewport S
      = { S with top_line := (adjust_viewport S).top_line,
                 left_col := (adjust_viewport S).left_col } := fun _ => rfl
  rw [hs (adjust_viewport E), ht, hl]

/-! ## Output and drawing -/

theorem out_flush_eq (o : Out) : out_flush o = { sent := o.emitted, buf := [] } := by
  unfold out_flush Out.emitted
  split_ifs with h
  · rfl
  · have hb : o.buf = [] := List.length_eq_zero.mp (by omega)
    cases o
    simp only at hb
    subst hb
    simp

theorem emitted_out_flush (o : Out) : (out_flush o).emitted = o.emitted := by
  rw [out_flush_eq]
  simp [Out.emitted]

theorem emitted_out_char (c : Nat) (o : Out) : (out_char c o).emitted = o.emitted ++ [c] := by
  unfold out_char
  dsimp only
  split_ifs with h
  · rw [out_flush_eq]
    simp [Out.emitted]
  · simp [Out.emitted]

theorem emitted_out_str (s : List Nat) (o : Out) : (out_str s o).emitted = o.emitted ++ s := by
  unfold out_str
  dsimp only
  by_cases h1 : o.buf.length + s.length ≥ OUT_BUF_SIZE
  · rw [if_pos h1]
    by_cases h2 : s.length < OUT_BUF_SIZE
    · rw [if_pos h2, out_flush_eq]
      simp [Out.emitted]
    · rw [if_neg h2, out_flush_eq, out_flush_eq]
      simp [Out.emitted]
  · rw [if_neg h1]
    by_cases h2 : s.length < OUT_BUF_SIZE
    · rw [if_pos h2]
      simp [Out.emitted]
    · rw [if_neg h2, out_flush_eq]
      simp [Out.emitted]

theorem emitted_out_chars (cs : List Nat) : ∀ o : Out,
    (out_chars cs o).emitted = o.emitted ++ cs := by
  induction cs with
  | nil => intro o; simp [out_chars]
  | cons c cs ih =>
    intro o
    have h := ih (out_char c o)
    rw [emitted_out_char] at h
    simp only [out_chars, List.foldl_cons] at h ⊢
    rw [h]
    simp

theorem emitted_out_goto (row col : Int) (o : Out) :
    (out_goto row col o).emitted = o.emitted ++ goto_text row col := by
  unfold out_goto out_int goto_text
  rw [emitted_out_char, emitted_out_str, emitted_out_char, emitted_out_str, emitted_out_str]
  simp only [List.append_assoc]

/-- The characters `line[start]`, `line[start + 1]`, .. read by the loop of a
text row are the part of the line from `start` on. -/
theorem range_map_getD (line : List Nat) (start : Int) (n : Nat) (h0 : 0 ≤ start)
    (hn : start.toNat + n ≤ line.length) :
    (List.range n).map (fun (i : Nat) => line.getD (start + (i : Int)).toNat 0)
      = (line.drop start.toNat).take n := by
  apply List.ext_getElem
  · simp only [List.length_map, List.length_range, List.length_take, List.length_drop]
    omega
  · intro i h1 h2
    simp only [List.length_map, List.length_range] at h1
    have e : (start + (i : Int)).toNat = start.toNat + i := by omega
    simp only [List.getElem_map, List.getElem_range, List.getElem_take, List.getElem_drop, e]
    rw [List.getD_eq_getElem _ _ (by omega)]

theorem emitted_foldl {α : Type} (f : Out → α → Out) (g : α → List Nat) (ys : List α)
    (h : ∀ y ∈ ys, ∀ o : Out, (f o y).emitted = o.emitted ++ g y) :
    ∀ o : Out, (ys.foldl f o).emitted = o.emitted ++ ys.flatMap g := by
  induction ys with
  | nil => intro o; simp
  | cons y ys ih =>
    intro o
    have h1 := h y (List.mem_cons_self _ _) o
    have h2 := ih (fun z hz => h z (List.mem_cons_of_mem _ hz)) (f o y)
    rw [List.foldl_cons, h2, h1]
    simp

theorem text_row_spec_length (E : Editor) (y : Int) (hc : 1 ≤ E.screen_cols) :
    ((text_row_spec E y).length : Int) = E.screen_cols := by
  unfold text_row_spec
  split_ifs with h
  · have hv : (((E.lines.getD (E.top_line + y).toNat []).drop E.left_col.toNat).take
        E.screen_cols.toNat).length ≤ E.screen_cols.toNat := List.length_take_le _ _
    rw [List.length_append, List.length_replicate]
    omega
  · rw [List.length_cons, List.length_replicate]
    omega

theorem emitted_draw_text_row (E : Editor) (y : Int) (o : Out) (hl : 0 ≤ E.left_col)
    (hc : 1 ≤ E.screen_cols) :
    (draw_text_row E y o).emitted = o.emitted ++ goto_text y 0 ++ text_row_spec E y := by
  unfold draw_text_row text_row_spec
  dsimp only
  by_cases h : E.top_line + y < E.line_count
  · rw [if_pos h, if_pos h]
    by_cases hs : E.left_col < ((E.lines.getD (E.top_line + y).toNat []).length : Int)
    · rw [if_pos hs]
      by_cases hw : ((E.lines.getD (E.top_line + y).toNat []).length : Int) - E.left_col
          > E.screen_cols
      · rw [if_pos hw, emitted_out_chars, emitted_out_chars, emitted_out_goto,
          range_map_getD _ _ _ hl (by omega)]
        have e1 : (E.screen_cols - E.screen_cols).toNat = 0 := by omega
        have e2 : E.screen_cols.toNat
            - (((E.lines.getD (E.top_line + y).toNat []).drop E.left_col.toNat).take
                E.screen_cols.toNat).length = 0 := by
          rw [List.length_take, List.length_drop]
          omega
        rw [e1, e2]
        simp only [List.append_assoc]
      · rw [if_neg hw, emitted_out_chars, emitted_out_chars, emitted_out_goto,
          range_map_getD _ _ _ hl (by omega)]
        have hd : ((E.lines.getD (E.top_line + y).toNat []).drop E.left_col.toNat).length
            = (E.lines.getD (E.top_line + y).toNat []).length - E.left_col.toNat :=
          List.length_drop _ _
        have e1 : ((E.lines.getD (E.top_line + y).toNat []).drop E.left_col.toNat).take
              (((E.lines.getD (E.top_line + y).toNat []).length : Int) - E.left_col).toNat
            = (E.lines.getD (E.top_line + y).toNat []).drop E.left_col.toNat :=
          List.take_of_length_le (by omega)
        have e2 : ((E.lines.getD (E.top_line + y).toNat []).drop E.left_col.toNat).take
              E.screen_cols.toNat
            = (E.lines.getD (E.top_line + y).toNat []).drop E.left_col.toNat :=
          List.take_of_length_le (by omega)
        have e3 : (E.screen_cols
              - (((E.lines.getD (E.top_line + y).toNat []).length : Int) - E.left_col)).toNat
            = E.screen_cols.toNat
              - ((E.lines.getD (E.top_line + y).toNat []).drop E.left_col.toNat).length := by
          omega
        rw [e1, e2, e3]
        simp only [List.append_assoc]
    · rw [if_neg hs, emitted_out_chars, emitted_out_goto]
      have e1 : (E.lines.getD (E.top_line + y).toNat []).drop E.left_col.toNat = [] :=
        List.drop_eq_nil_of_le (by omega)
      rw [e1]
      simp
  · rw [if_neg h, if_neg h, emitted_out_chars, emitted_out_char, emitted_out_goto]
    have e1 : (E.screen_cols - 1).toNat = E.screen_cols.toNat - 1 := by omega
    rw [e1]
    simp

theorem emitted_draw_text_rows (E : Editor) (o : Out) (hl : 0 ≤ E.left_col)
    (hc : 1 ≤ E.screen_cols) :
    (draw_text_rows E o).emitted
      = o.emitted ++ (List.range (E.screen_rows - 1).toNat).flatMap
          (fun (y : Nat) => goto_text (y : Int) 0 ++ text_row_spec E (y : Int)) := by
  unfold draw_text_rows
  apply emitted_foldl
  intro y _ o
  rw [emitted_draw_text_row E y o hl hc, List.append_assoc]

theorem draw_text_rows_appends (E : Editor) :
    ∃ bs : List Nat, ∀ o : Out, (draw_text_rows E o).emitted = o.emitted ++ bs := by
  have hrow : ∀ (y : Nat), ∃ bs : List Nat, ∀ o : Out,
      (draw_text_row E (y : Int) o).emitted = o.emitted ++ bs := by
    intro y
    unfold draw_text_row
    dsimp only
    split_ifs
    · exact ⟨_, fun o => by
        rw [emitted_out_chars, emitted_out_chars, emitted_out_goto, List.append_assoc,
          List.append_assoc]⟩
    · exact ⟨_, fun o => by
        rw [emitted_out_chars, emitted_out_chars, emitted_out_goto, List.append_assoc,
          List.append_assoc]⟩
    · exact ⟨_, fun o => by rw [emitted_out_chars, emitted_out_goto, List.append_assoc]⟩
    · exact ⟨_, fun o => by
        rw [emitted_out_chars, emitted_out_char, emitted_out_goto, List.append_assoc,
          List.append_assoc]⟩
  choose g hg using hrow
  exact ⟨_, fun o => emitted_foldl _ g _ (fun y _ o => hg y o) o⟩

theorem draw_status_appends (E : Editor) :
    ∃ bs : List Nat, ∀ o : Out, (draw_status E o).emitted = o.emitted ++ bs := by
  refine ⟨(draw_status E out_empty).emitted, fun o => ?_⟩
  unfold draw_status out_upto
  simp only [emitted_out_str, emitted_out_chars, emitted_out_goto, List.append_assoc]
  simp [Out.emitted, out_empty]

/-- What `draw_screen` does: the state is the one `adjust_viewport` gives, the
buffer is left empty, and the bytes written are those put out before followed
by a frame that depends on the state only. -/
theorem draw_screen_frame (E : Editor) :
    ∃ bs : List Nat, ∀ o : Out,
      draw_screen E o = (adjust_viewport E, { sent := o.emitted ++ bs, buf := [] }) := by
  obtain ⟨b1, h1⟩ := draw_text_rows_appends (adjust_viewport E)
  obtain ⟨b2, h2⟩ := draw_status_appends (adjust_viewport E)
  refine ⟨ESC_HOME ++ ESC_CURSOR_HIDE ++ b1 ++ b2
    ++ goto_text ((adjust_viewport E).cur_row - (adjust_viewport E).top_line)
        ((adjust_viewport E).cur_col - (adjust_viewport E).left_col)
    ++ ESC_CURSOR_SHOW, fun o => ?_⟩
  unfold draw_screen
  dsimp only
  rw [out_flush_eq, emitted_out_str, emitted_out_goto, h2, h1, emitted_out_str,
    emitted_out_str]
  simp only [List.append_assoc]

theorem draw_screen_adjusted (E : Editor) (o : Out) :
    draw_screen (adjust_viewport E) o = draw_screen E o := by
  unfold draw_screen
  rw [adjust_viewport_idem]

/-- C29: rendering is idempotent.  For every state, of every screen size, and
every output so far: `draw_screen` writes, after the bytes put out before, the
frame it writes on an empty output; a second `draw_screen` right after it
writes the same frame again, and leaves the state, so `top_line` and
`left_col`, as the first run left it. -/
theorem draw_screen_idempotent (E : Editor) (o : Out) :
    (draw_screen E o).2
      = { sent := o.emitted ++ (draw_screen E out_empty).2.sent, buf := [] } ∧
    (draw_screen (draw_screen E o).1 (draw_screen E o).2).2
      = { sent := (draw_screen E o).2.sent ++ (draw_screen E out_empty).2.sent, buf := [] } ∧
    (draw_screen (draw_screen E o).1 (draw_screen E o).2).1 = (draw_screen E o).1 ∧
    (draw_screen (draw_screen E o).1 (draw_screen E o).2).1.top_line
      = (draw_screen E o).1.top_line ∧
    (draw_screen (draw_screen E o).1 (draw_screen E o).2).1.left_col
      = (draw_screen E o).1.left_col := by
  obtain ⟨bs, hbs⟩ := draw_screen_frame E
  have h0 : (draw_screen E out_empty).2.sent = bs := by
    rw [hbs out_empty]
    rfl
  have h1 : (draw_screen E o).1 = adjust_viewport E := by rw [hbs o]
  have h2 : (draw_screen E o).2 = { sent := o.emitted ++ bs, buf := [] } := by rw [hbs o]
  have h3 : draw_screen (draw_screen E o).1 (draw_screen E o).2
      = (adjust_viewport E, { sent := (draw_screen E o).2.sent ++ bs, buf := [] }) := by
    rw [h1, draw_screen_adjusted, hbs, h2]
    simp [Out.emitted]
  rw [h0]
  refine ⟨h2, ?_, ?_, ?_, ?_⟩
  · rw [h3]
  · rw [h3, h1]
  · rw [h3, h1]
  · rw [h3, h1]

/-- C30: the text rows of `draw_screen`.  For every state with `left_col` ≥ 0
and `screen_cols` ≥ 1, each text row puts out its cursor-positioning sequence
followed by the characters of `text_row_spec`, which are `screen_cols` many:
for a row on a Document line, the bytes of the line from `left_col` on, cut to
`screen_cols` and padded with spaces (all spaces when `left_col` is not below
the length of the line); for a row beyond the last line, `~` and
`screen_cols` - 1 spaces.  The loop over the rows puts out `screen_rows` - 1
such rows, and they are what `draw_screen` writes after `ESC_HOME` and
`ESC_CURSOR_HIDE`. -/
theorem text_rows_drawn (E : Editor) (hl : 0 ≤ E.left_col) (hc : 1 ≤ E.screen_cols) :
    (∀ (y : Int) (o : Out),
      (draw_text_row E y o).emitted = o.emitted ++ goto_text y 0 ++ text_row_spec E y) ∧
    (∀ y : Int, ((text_row_spec E y).length : Int) = E.screen_cols) ∧
    (∀ y : Int, E.top_line + y < E.line_count →
      E.left_col ≥ ((E.lines.getD (E.top_line + y).toNat []).length : Int) →
      text_row_spec E y = List.replicate E.screen_cols.toNat 32) ∧
    (∀ o : Out,
      (draw_text_rows E o).emitted
        = o.emitted ++ (List.range (E.screen_rows - 1).toNat).flatMap
            (fun (y : Nat) => goto_text (y : Int) 0 ++ text_row_spec E (y : Int))) ∧
    (∀ (E0 : Editor) (o : Out), adjust_viewport E0 = E →
      ∃ tail : List Nat,
        (draw_screen E0 o).2.sent
          = o.emitted ++ ESC_HOME ++ ESC_CURSOR_HIDE
            ++ (List.range (E.screen_rows - 1).toNat).flatMap
                (fun (y : Nat) => goto_text (y : Int) 0 ++ text_row_spec E (y : Int))
            ++ tail) := by
  refine ⟨fun y o => emitted_draw_text_row E y o hl hc,
    fun y => text_row_spec_length E y hc, fun y h1 h2 => ?_,
    fun o => emitted_draw_text_rows E o hl hc, fun E0 o hE => ?_⟩
  · unfold text_row_spec
    rw [if_pos h1]
    have e1 : (E.lines.getD (E.top_line + y).toNat []).drop E.left_col.toNat = [] :=
      List.drop_eq_nil_of_le (by omega)
    rw [e1]
    simp
  · subst hE
    obtain ⟨b2, h2⟩ := draw_status_appends (adjust_viewport E0)
    refine ⟨b2
      ++ goto_text ((adjust_viewport E0).cur_row - (adjust_viewport E0).top_line)
          ((adjust_viewport E0).cur_col - (adjust_viewport E0).left_col)
      ++ ESC_CURSOR_SHOW, ?_⟩
    unfold draw_screen
    dsimp only
    rw [out_flush_eq, emitted_out_str, emitted_out_goto, h2,
      emitted_draw_text_rows (adjust_viewport E0) _ hl hc, emitted_out_str, emitted_out_str]
    simp only [List.append_assoc]

theorem text_rows_drawn_witness :
    0 ≤ demo_start.left_col ∧ 1 ≤ demo_start.screen_cols ∧
    (draw_text_row demo_start 0 out_empty).emitted
      = goto_text 0 0 ++ (97 :: List.replicate 79 32) ∧
    (draw_text_row demo_start 1 out_empty).emitted
      = goto_text 1 0 ++ (126 :: List.replicate 79 32) ∧
    ((text_row_spec demo_start 0).length : Int) = 80 :=
  ⟨by decide, by decide,
   ((text_rows_drawn demo_start (by decide) (by decide)).1 0 out_empty).trans (by decide),
   ((text_rows_drawn demo_start (by decide) (by decide)).1 1 out_empty).trans (by decide),
   (text_rows_drawn demo_start (by decide) (by decide)).2.1 0⟩

/-! ## The status row -/

/-- The three loops of the status line put out the first `status_width`
characters of the left text, the padding and the right text. -/
theorem emitted_status_loops (l p r : List Nat) (w : Int) (o : Out) :
    (out_upto r (out_upto p (out_upto l 0 w o).1 w (out_upto l 0 w o).2).1 w
        (out_upto p (out_upto l 0 w o).1 w (out_upto l 0 w o).2).2).2.emitted
      = o.emitted ++ (l ++ p ++ r).take w.toNat := by
  unfold out_upto
  dsimp only
  rw [emitted_out_chars, emitted_out_chars, emitted_out_chars, List.append_assoc,
    List.append_assoc]
  congr 1
  rw [List.take_append_eq_append_take, List.take_append_eq_append_take]
  have e0 : (w - 0).toNat = w.toNat := by rw [sub_zero]
  have e1 : (w - (0 + ((l.take (w - 0).toNat).length : Int))).toNat = w.toNat - l.length := by
    rw [List.length_take]
    omega
  have e2 : (w - (0 + ((l.take (w - 0).toNat).length : Int)
        + ((p.take (w - (0 + ((l.take (w - 0).toNat).length : Int))).toNat).length : Int))).toNat
      = w.toNat - l.length - p.length := by
    rw [List.length_take, List.length_take]
    omega
  rw [e2, e1, e0, List.append_assoc, List.length_append, Nat.sub_sub]

theorem emitted_draw_status (E : Editor) (o : Out) :
    (draw_status E o).emitted
      = o.emitted ++ goto_text (E.screen_rows - 1) 0 ++ ESC_REVERSE
        ++ (status_left E
            ++ List.replicate
                (E.screen_cols - 1 - ((status_left E).length : Int)
                  - ((status_right E).length : Int)).toNat 32
            ++ status_right E).take (E.screen_cols - 1).toNat
        ++ ESC_RESET := by
  unfold draw_status
  dsimp only
  rw [emitted_out_str, emitted_status_loops, emitted_out_str, emitted_out_goto]
  have e : (if E.screen_cols - 1 - ((status_left E).length : Int)
        - ((status_right E).length : Int) < 0 then (0 : Int)
      else E.screen_cols - 1 - ((status_left E).length : Int)
        - ((status_right E).length : Int)).toNat
      = (E.screen_cols - 1 - ((status_left E).length : Int)
        - ((status_right E).length : Int)).toNat := by
    split_ifs <;> omega
  rw [e]

set_option maxRecDepth 100000

/-- C31 as stated fails: on a terminal of 24 rows and 80 columns, after the keys
`:`, 62 times `z` and Enter, the status row holds between the reverse-video and
the reset code the 79 characters of `Unknown command: ` followed by the 62
`z`; the right segment is `1,1`, and the row does not end with it. -/
theorem long_status_hides_position :
    Reachable (run_keys fs_demo ((58 : Int) :: List.replicate 62 122 ++ [KEY_ENTER])
      (main_init fs_demo none 24 80)) ∧
    (run_keys fs_demo ((58 : Int) :: List.replicate 62 122 ++ [KEY_ENTER])
      (main_init fs_demo none 24 80)).screen_cols = 80 ∧
    (draw_status (run_keys fs_demo ((58 : Int) :: List.replicate 62 122 ++ [KEY_ENTER])
        (main_init fs_demo none 24 80)) out_empty).emitted
      = goto_text 23 0 ++ ESC_REVERSE
        ++ (str "Unknown command: " ++ List.replicate 62 122) ++ ESC_RESET ∧
    (str "Unknown command: " ++ List.replicate 62 122).length = 79 ∧
    status_right (run_keys fs_demo ((58 : Int) :: List.replicate 62 122 ++ [KEY_ENTER])
      (main_init fs_demo none 24 80)) = str "1,1" ∧
    ¬(str "1,1" <:+ str "Unknown command: " ++ List.replicate 62 122) := by
  refine ⟨run_keys_reachable _ _ _ (Reachable.init _ _ _ _) (by decide), ?_⟩
  decide

/-- C31 (amended): for every state with `screen_cols` ≥ 1 the status row that
`draw_status`, and with it `draw_screen`, puts out holds exactly
`screen_cols` - 1 characters between `ESC_REVERSE` and `ESC_RESET`.  When the
left and the right segment together fit `screen_cols` - 1 characters, the row
is the left segment, the padding spaces and the complete right segment, whose
last character is in column `screen_cols` - 1.  When they do not fit, there is
no padding and the row is the first `screen_cols` - 1 characters of the left
segment followed by the right segment, so the right segment is cut short or
absent. -/
theorem status_row_drawn (E : Editor) (hc : 1 ≤ E.screen_cols) :
    ∃ row : List Nat,
      (∀ o : Out,
        (draw_status E o).emitted
          = o.emitted ++ goto_text (E.screen_rows - 1) 0 ++ ESC_REVERSE ++ row ++ ESC_RESET) ∧
      (∀ o : Out,
        (draw_screen E o).2.sent
          = (draw_text_rows (adjust_viewport E)
              (out_str ESC_CURSOR_HIDE (out_str ESC_HOME o))).emitted
            ++ goto_text (E.screen_rows - 1) 0 ++ ESC_REVERSE ++ row ++ ESC_RESET
            ++ goto_text (E.cur_row - (adjust_viewport E).top_line)
                (E.cur_col - (adjust_viewport E).left_col)
            ++ ESC_CURSOR_SHOW) ∧
      (row.length : Int) = E.screen_cols - 1 ∧
      (((status_left E).length : Int) + ((status_right E).length : Int) ≤ E.screen_cols - 1 →
        row = status_left E
          ++ List.replicate
              (E.screen_cols - 1 - ((status_left E).length : Int)
                - ((status_right E).length : Int)).toNat 32
          ++ status_right E) ∧
      (((status_left E).length : Int) + ((status_right E).length : Int) > E.screen_cols - 1 →
        row = (status_left E ++ status_right E).take (E.screen_cols - 1).toNat) := by
  refine ⟨_, fun o => emitted_draw_status E o, fun o => ?_, ?_, fun hfit => ?_, fun hfit => ?_⟩
  · unfold draw_screen
    dsimp only
    rw [out_flush_eq, emitted_out_str, emitted_out_goto, emitted_draw_status]
    rfl
  · rw [List.length_take, List.length_append, List.length_append, List.length_replicate]
    omega
  · apply List.take_of_length_le
    rw [List.length_append, List.length_append, List.length_replicate]
    omega
  · have e : (E.screen_cols - 1 - ((status_left E).length : Int)
        - ((status_right E).length : Int)).toNat = 0 := by omega
    rw [e]
    simp

theorem status_row_drawn_witness :
    (1 : Int) ≤ demo_start.screen_cols ∧
    ∃ row : List Nat,
      (draw_status demo_start out_empty).emitted
        = out_empty.emitted ++ goto_text (demo_start.screen_rows - 1) 0 ++ ESC_REVERSE
          ++ row ++ ESC_RESET ∧
      (row.length : Int) = demo_start.screen_cols - 1 :=
  ⟨by decide,
   (status_row_drawn demo_start (by decide)).imp (fun row h => ⟨h.1 out_empty, h.2.2.1⟩)⟩

/-! ## Indices handed to the line buffer -/

theorem all_in_nil : ∀ a ∈ ([] : List Access), a.in_range := by
  intro a ha
  cases ha

theorem all_in_append {l1 l2 : List Access} (h1 : ∀ a ∈ l1, a.in_range)
    (h2 : ∀ a ∈ l2, a.in_range) : ∀ a ∈ l1 ++ l2, a.in_range := by
  intro a ha
  rcases List.mem_append.mp ha with h | h
  · exact h1 a h
  · exact h2 a h

theorem all_in_cons {x : Access} {l : List Access} (h1 : x.in_range)
    (h2 : ∀ a ∈ l, a.in_range) : ∀ a ∈ x :: l, a.in_range := by
  intro a ha
  rcases List.mem_cons.mp ha with h | h
  · rw [h]; exact h1
  · exact h2 a h

theorem line_len_log_ok (row : Int) (E : Editor) (h0 : 0 ≤ row) (h1 : row < E.line_count) :
    ∀ a ∈ line_len_log row E, a.in_range := by
  unfold line_len_log
  rw [if_neg (by omega)]
  exact all_in_cons ⟨h0, h1⟩ all_in_nil

theorem insert_line_at_log_ok (idx : Int) (E : Editor) (h0 : 0 ≤ idx)
    (h1 : idx ≤ E.line_count) : ∀ a ∈ insert_line_at_log idx E, a.in_range :=
  all_in_cons ⟨h0, h1⟩ all_in_nil

theorem delete_line_at_log_ok (idx : Int) (E : Editor) (h0 : 0 ≤ idx)
    (h1 : idx < E.line_count) : ∀ a ∈ delete_line_at_log idx E, a.in_range := by
  unfold delete_line_at_log
  rw [if_neg (by omega)]
  dsimp only
  refine all_in_cons ⟨h0, h1⟩ ?_
  refine @ite_elim (List Access) (fun l => ∀ a ∈ l, a.in_range) _ _ _ _
    (fun hz => ?_) (fun _ => all_in_nil)
  exact insert_line_at_log_ok 0 _ (le_refl 0) (by rw [hz])

theorem clamp_cursor_log_ok (E : Editor) (h : 1 ≤ E.line_count) :
    ∀ a ∈ clamp_cursor_log E, a.in_range := by
  have hr := clamp_cursor_row E h
  exact line_len_log_ok _ E (by omega) (by omega)

theorem move_up_log_ok (E : Editor) (h : 1 ≤ E.line_count) :
    ∀ a ∈ move_up_log E, a.in_range := by
  unfold move_up_log
  refine ite_elim (P := fun S : Editor => ∀ a ∈ clamp_cursor_log S, a.in_range)
    (fun _ => clamp_cursor_log_ok _ h) (fun _ => clamp_cursor_log_ok _ h)

theorem move_down_log_ok (E : Editor) (h : 1 ≤ E.line_count) :
    ∀ a ∈ move_down_log E, a.in_range := by
  unfold move_down_log
  refine ite_elim (P := fun S : Editor => ∀ a ∈ clamp_cursor_log S, a.in_range)
    (fun _ => clamp_cursor_log_ok _ h) (fun _ => clamp_cursor_log_ok _ h)

theorem move_left_log_ok (E : Editor) (h : 1 ≤ E.line_count) :
    ∀ a ∈ move_left_log E, a.in_range := by
  unfold move_left_log
  refine ite_elim (P := fun S : Editor => ∀ a ∈ clamp_cursor_log S, a.in_range)
    (fun _ => clamp_cursor_log_ok _ h) (fun _ => clamp_cursor_log_ok _ h)

theorem move_right_log_ok (E : Editor) (h : 1 ≤ E.line_count) :
    ∀ a ∈ move_right_log E, a.in_range :=
  clamp_cursor_log_ok _ h

theorem insert_char_log_ok (E : Editor) (h0 : 0 ≤ E.cur_row) (h1 : E.cur_row < E.line_count)
    (c0 : 0 ≤ E.cur_col) (c1 : E.cur_col ≤ ((cur_line E).length : Int)) :
    ∀ a ∈ insert_char_log E, a.in_range :=
  all_in_cons ⟨h0, h1⟩ (all_in_cons ⟨c0, c1⟩ all_in_nil)

theorem delete_char_at_log_ok (col : Int) (E : Editor) (h0 : 0 ≤ E.cur_row)
    (h1 : E.cur_row < E.line_count) (c0 : 0 ≤ col) (c1 : col < ((cur_line E).length : Int)) :
    ∀ a ∈ delete_char_at_log col E, a.in_range := by
  unfold delete_char_at_log
  dsimp only
  rw [if_neg (by omega)]
  exact all_in_cons ⟨h0, h1⟩
    (all_in_cons ⟨c0, by omega⟩ (all_in_cons ⟨by omega, by omega⟩ all_in_nil))

theorem delete_char_at_log_refused (col : Int) (E : Editor)
    (c1 : col ≥ ((cur_line E).length : Int)) :
    delete_char_at_log col E = [Access.line E.cur_row E.line_count, Access.refused] := by
  unfold delete_char_at_log
  dsimp only
  rw [if_pos (Or.inr c1)]
  rfl

theorem backspace_char_log_ok (E : Editor) (h0 : 0 ≤ E.cur_row)
    (h1 : E.cur_row < E.line_count) (c0 : 0 ≤ E.cur_col)
    (c1 : E.cur_col ≤ ((cur_line E).length : Int)) :
    ∀ a ∈ backspace_char_log E, a.in_range := by
  have hstep := @ite_elim (List Access) (fun l => ∀ a ∈ l, a.in_range)
  unfold backspace_char_log
  refine hstep (fun hc => ?_) (fun hc => hstep (fun hr => ?_) (fun _ => all_in_nil))
  · exact delete_char_at_log_ok (E.cur_col - 1) { E with cur_col := E.cur_col - 1 } h0 h1
      (by omega) (show E.cur_col - 1 < ((cur_line E).length : Int) by omega)
  · dsimp only
    refine all_in_append (all_in_append (line_len_log_ok _ E (by omega) (by omega))
      (all_in_cons ⟨by omega, by omega⟩ (all_in_cons ⟨h0, h1⟩ all_in_nil))) ?_
    refine delete_line_at_log_ok E.cur_row _ h0 ?_
    show E.cur_row < ((E.lines.set _ _).length : Int)
    rw [List.length_set]
    exact h1

theorem insert_newline_log_ok (E : Editor) (h0 : 0 ≤ E.cur_row)
    (h1 : E.cur_row < E.line_count) (c0 : 0 ≤ E.cur_col)
    (c1 : E.cur_col ≤ ((cur_line E).length : Int)) :
    ∀ a ∈ insert_newline_log E, a.in_range := by
  unfold insert_newline_log
  dsimp only
  refine all_in_cons ⟨h0, h1⟩ (all_in_cons ⟨c0, c1⟩ ?_)
  refine insert_line_at_log_ok _ _ (by omega) ?_
  show E.cur_row + 1 ≤ ((E.lines.set _ _).length : Int)
  rw [List.length_set]
  unfold Editor.line_count at h1
  omega

theorem handle_normal_switch_log_ok (key : Int) (E : Editor) (a1 : 1 ≤ E.line_count)
    (a2 : 0 ≤ E.cur_row) (a3 : E.cur_row < E.line_count) (a5 : 0 ≤ E.cur_col)
    (a7 : E.cur_col ≤ max 0 (((cur_line E).length : Int) - 1)) :
    ∀ a ∈ handle_normal_switch_log key E, a.in_range := by
  have hstep := @ite_elim (List Access) (fun l => ∀ a ∈ l, a.in_range)
  unfold handle_normal_switch_log
  refine hstep (fun _ => move_left_log_ok E a1) (fun _ => ?_)
  refine hstep (fun _ => move_down_log_ok E a1) (fun _ => ?_)
  refine hstep (fun _ => move_up_log_ok E a1) (fun _ => ?_)
  refine hstep (fun _ => move_right_log_ok E a1) (fun _ => ?_)
  refine hstep (fun _ => all_in_nil) (fun _ => ?_)
  refine hstep (fun _ => all_in_append (line_len_log_ok _ E a2 a3)
    (clamp_cursor_log_ok _ a1)) (fun _ => ?_)
  refine hstep (fun _ => all_in_nil) (fun _ => ?_)
  refine hstep (fun _ => clamp_cursor_log_ok _ a1) (fun _ => ?_)
  refine hstep (fun _ => line_len_log_ok _ E a2 a3) (fun _ => ?_)
  refine hstep (fun _ => insert_line_at_log_ok _ E (by omega) (by omega)) (fun _ => ?_)
  refine hstep (fun _ => insert_line_at_log_ok _ E a2 (by omega)) (fun _ => ?_)
  refine hstep (fun _ => ?_) (fun _ => ?_)
  · refine all_in_append (line_len_log_ok _ E a2 a3) ?_
    refine hstep (fun hpos => ?_) (fun _ => all_in_nil)
    rw [line_len_eq E E.cur_row a2 a3] at hpos
    have hpos2 : (0 : Int) < ((cur_line E).length : Int) := hpos
    refine all_in_append (delete_char_at_log_ok _ E a2 a3 a5 (by omega)) ?_
    exact clamp_cursor_log_ok _ (by rw [(delete_char_at_fields E.cur_col E).1]; exact a1)
  refine hstep (fun _ => ?_) (fun _ => ?_)
  · exact all_in_append (delete_line_at_log_ok _ E a2 a3)
      (clamp_cursor_log_ok _ (delete_line_at_count _ E a1))
  refine hstep (fun _ => all_in_nil) (fun _ => ?_)
  refine hstep (fun _ => clamp_cursor_log_ok _ a1) (fun _ => ?_)
  refine hstep (fun _ => all_in_nil) (fun _ => all_in_nil)

theorem handle_insert_log_ok (key : Int) (E : Editor) (a1 : 1 ≤ E.line_count)
    (a2 : 0 ≤ E.cur_row) (a3 : E.cur_row < E.line_count) (a5 : 0 ≤ E.cur_col)
    (a6 : E.cur_col ≤ ((cur_line E).length : Int))
    (hd : key = KEY_DELETE → E.cur_col < ((cur_line E).length : Int)) :
    ∀ a ∈ handle_insert_log key E, a.in_range := by
  have hstep := @ite_elim (List Access) (fun l => ∀ a ∈ l, a.in_range)
  unfold handle_insert_log
  refine hstep (fun _ => ?_) (fun _ => ?_)
  · dsimp only
    exact ite_elim (P := fun S : Editor => ∀ a ∈ clamp_cursor_log S, a.in_range)
      (fun _ => clamp_cursor_log_ok _ a1) (fun _ => clamp_cursor_log_ok _ a1)
  refine hstep (fun _ => move_up_log_ok E a1) (fun _ => ?_)
  refine hstep (fun _ => move_down_log_ok E a1) (fun _ => ?_)
  refine hstep (fun _ => move_left_log_ok E a1) (fun _ => ?_)
  refine hstep (fun _ => move_right_log_ok E a1) (fun _ => ?_)
  refine hstep (fun _ => backspace_char_log_ok E a2 a3 a5 a6) (fun _ => ?_)
  refine hstep (fun hk => delete_char_at_log_ok _ E a2 a3 a5 (hd hk)) (fun _ => ?_)
  refine hstep (fun _ => insert_newline_log_ok E a2 a3 a5 a6) (fun _ => ?_)
  refine hstep (fun _ => all_in_nil) (fun _ => ?_)
  refine hstep (fun _ => line_len_log_ok _ E a2 a3) (fun _ => ?_)
  refine hstep (fun _ => insert_char_log_ok E a2 a3 a5 a6) (fun _ => all_in_nil)

theorem save_file_log_ok (fs : FS) (path : Option (List Nat)) (E : Editor) :
    ∀ a ∈ save_file_log fs path E, a.in_range := by
  have hstep := @ite_elim (List Access) (fun l => ∀ a ∈ l, a.in_range)
  unfold save_file_log
  refine hstep (fun _ => all_in_nil) (fun _ => hstep (fun _ => all_in_nil) (fun _ => ?_))
  intro a ha
  obtain ⟨i, hi, rfl⟩ := List.mem_map.mp ha
  have hlt : i < E.lines.length := List.mem_range.mp hi
  show (0 : Int) ≤ (i : Int) ∧ (i : Int) < E.line_count
  unfold Editor.line_count
  omega

theorem exec_command_log_ok (fs : FS) (E : Editor) :
    ∀ a ∈ exec_command_log fs E, a.in_range := by
  have hstep := @ite_elim (List Access) (fun l => ∀ a ∈ l, a.in_range)
  unfold exec_command_log
  refine hstep (fun _ => all_in_nil) (fun _ => ?_)
  refine hstep (fun _ => all_in_nil) (fun _ => ?_)
  refine hstep (fun _ => save_file_log_ok fs _ E) (fun _ => ?_)
  refine hstep (fun _ => save_file_log_ok fs _ E) (fun _ => ?_)
  refine hstep (fun _ => save_file_log_ok fs _ E) (fun _ => all_in_nil)

theorem handle_command_log_ok (fs : FS) (key : Int) (E : Editor) :
    ∀ a ∈ handle_command_log fs key E, a.in_range := by
  have hstep := @ite_elim (List Access) (fun l => ∀ a ∈ l, a.in_range)
  unfold handle_command_log
  refine hstep (fun _ => all_in_nil) (fun _ => ?_)
  refine hstep (fun _ => exec_command_log_ok fs E) (fun _ => all_in_nil)

theorem handle_insert_log_delete (E : Editor) :
    handle_insert_log KEY_DELETE E = delete_char_at_log E.cur_col E := rfl

theorem handle_insert_delete (E : Editor) :
    handle_insert KEY_DELETE E = delete_char_at E.cur_col E := rfl

/-- C32 as stated fails: in the reachable Insert-mode state with the one line
`a` and the cursor behind it (column 1, the length of the line), the Delete key
is handed to `delete_char_at(1)`, whose range check `col >= len` returns early:
the accesses of the key are the line and a refused call, and the state is
unchanged. -/
theorem delete_at_line_end_refused :
    Reachable (run_keys fs_demo [105, 97] (main_init fs_demo none 24 80)) ∧
    decoded_key KEY_DELETE ∧
    (run_keys fs_demo [105, 97] (main_init fs_demo none 24 80)).mode = MODE_INSERT ∧
    (run_keys fs_demo [105, 97] (main_init fs_demo none 24 80)).lines = [str "a"] ∧
    (run_keys fs_demo [105, 97] (main_init fs_demo none 24 80)).cur_col = 1 ∧
    dispatch_key_log fs_demo KEY_DELETE
        (run_keys fs_demo [105, 97] (main_init fs_demo none 24 80))
      = [Access.line 0 1, Access.refused] ∧
    ¬(∀ a ∈ dispatch_key_log fs_demo KEY_DELETE
        (run_keys fs_demo [105, 97] (main_init fs_demo none 24 80)), a.in_range) ∧
    dispatch_key fs_demo KEY_DELETE (run_keys fs_demo [105, 97] (main_init fs_demo none 24 80))
      = run_keys fs_demo [105, 97] (main_init fs_demo none 24 80) := by
  refine ⟨run_keys_reachable _ _ _ (Reachable.init _ _ _ _) (by decide), ?_⟩
  decide

/-- C32 (amended): for every reachable state and every decoded key, unless the
key is Delete in Insert mode with the cursor at the end of the line, every
access made while the key is handled is in range and no range check returns
early: every line read or written has its index in `[0, line_count)`, every
`insert_line_at` call has its index in `[0, line_count]`, and every byte
offset lies in `[0, len]`.  For Delete in Insert mode with the cursor at the
end of the line, the line index is in range, the range check of
`delete_char_at` is the one thing that returns early, and the key changes
nothing. -/
theorem accesses_in_range (fs : FS) (key : Int) (E : Editor) (h : Reachable E)
    (hk : decoded_key key) :
    (¬(E.mode = MODE_INSERT ∧ key = KEY_DELETE ∧ E.cur_col = ((cur_line E).length : Int)) →
      ∀ a ∈ dispatch_key_log fs key E, a.in_range) ∧
    (E.mode = MODE_INSERT ∧ key = KEY_DELETE ∧ E.cur_col = ((cur_line E).length : Int) →
      dispatch_key_log fs key E = [Access.line E.cur_row E.line_count, Access.refused] ∧
      (∀ a ∈ dispatch_key_log fs key E, a ≠ Access.refused → a.in_range) ∧
      dispatch_key fs key E = E) := by
  obtain ⟨a1, a2, a3, a4, a5, a6, a7, a8⟩ := reachable_inv E h
  constructor
  · intro hnot
    have hstep := @ite_elim (List Access) (fun l => ∀ a ∈ l, a.in_range)
    unfold dispatch_key_log
    refine hstep (fun hm => ?_) (fun _ => hstep (fun hm => ?_)
      (fun _ => hstep (fun _ => handle_command_log_ok fs key E) (fun _ => all_in_nil)))
    · exact handle_normal_switch_log_ok key { E with status := [] } a1 a2 a3 a5
        (a7 (by rw [hm]; decide))
    · refine handle_insert_log_ok key E a1 a2 a3 a5 (a6 hm) (fun hkd => ?_)
      have := a6 hm
      have hne : E.cur_col ≠ ((cur_line E).length : Int) := fun he => hnot ⟨hm, hkd, he⟩
      omega
  · rintro ⟨hm, hkd, hc⟩
    subst hkd
    have hlog : dispatch_key_log fs KEY_DELETE E
        = [Access.line E.cur_row E.line_count, Access.refused] := by
      unfold dispatch_key_log
      rw [if_neg (by rw [hm]; decide), if_pos hm, handle_insert_log_delete]
      exact delete_char_at_log_refused _ E (by omega)
    refine ⟨hlog, ?_, ?_⟩
    · rw [hlog]
      intro a ha hne
      rcases List.mem_cons.mp ha with h1 | h1
      · rw [h1]
        exact ⟨a2, a3⟩
      · rcases List.mem_cons.mp h1 with h2 | h2
        · exact absurd h2 hne
        · cases h2
    · rw [dispatch_key_insert fs KEY_DELETE E hm, handle_insert_delete]
      unfold delete_char_at
      exact if_pos (Or.inr (by omega))

theorem accesses_in_range_witness :
    Reachable (run_keys fs_demo [105, 97, 98, KEY_LEFT] (main_init fs_demo none 24 80)) ∧
    decoded_key KEY_DELETE ∧
    dispatch_key_log fs_demo KEY_DELETE
        (run_keys fs_demo [105, 97, 98, KEY_LEFT] (main_init fs_demo none 24 80))
      = [Access.line 0 1, Access.offset 1 2, Access.offset 2 2] ∧
    ∀ a ∈ dispatch_key_log fs_demo KEY_DELETE
        (run_keys fs_demo [105, 97, 98, KEY_LEFT] (main_init fs_demo none 24 80)),
      a.in_range :=
  ⟨run_keys_reachable _ _ _ (Reachable.init _ _ _ _) (by decide), by decide, by decide,
   (accesses_in_range fs_demo KEY_DELETE _
      (run_keys_reachable _ _ _ (Reachable.init fs_demo none 24 80) (by decide))
      (by decide)).1 (by decide)⟩

/-! ## Append after the cursor -/

theorem handle_normal_a (E : Editor) :
    handle_normal 97 E
      = { clamp_cursor { E with status := [], cur_col := E.cur_col + 1 } with
          mode := MODE_INSERT } := rfl

/-- The key `a` in Normal mode on a non-empty line of length L with the cursor at
column c: the column becomes min(c + 1, L - 1), since the cursor is clamped
before the mode changes; on the last character the column stays c. -/
theorem append_key_column (fs : FS) (E : Editor) (h : Reachable E)
    (hm : E.mode = MODE_NORMAL) (hL : 0 < (cur_line E).length) :
    (dispatch_key fs 97 E).mode = MODE_INSERT ∧
    (dispatch_key fs 97 E).lines = E.lines ∧
    (dispatch_key fs 97 E).cur_row = E.cur_row ∧
    (dispatch_key fs 97 E).cur_col = min (E.cur_col + 1) (((cur_line E).length : Int) - 1) ∧
    (E.cur_col = ((cur_line E).length : Int) - 1 →
      (dispatch_key fs 97 E).cur_col = E.cur_col) := by
  obtain ⟨a1, a2, a3, a4, a5, a6, a7, a8⟩ := reachable_inv E h
  have hni : ¬(E.mode = MODE_INSERT) := by rw [hm]; decide
  rw [dispatch_key_normal fs 97 E hm, handle_normal_a]
  have hcl := clamp_cursor_normal { E with status := [], cur_col := E.cur_col + 1 } _
    a2 a3 hni rfl
  dsimp only at hcl
  have hcol : (clamp_cursor { E with status := [], cur_col := E.cur_col + 1 }).cur_col
      = min (E.cur_col + 1) (((cur_line E).length : Int) - 1) := by
    have hLi : (0 : Int) < ((E.lines.getD E.cur_row.toNat []).length : Int) := by
      unfold cur_line at hL
      omega
    refine hcl.2.1.trans ?_
    show _ = min (E.cur_col + 1) (((E.lines.getD E.cur_row.toNat []).length : Int) - 1)
    omega
  refine ⟨rfl, hcl.2.2.1, hcl.1, hcol, fun hc => ?_⟩
  refine hcol.trans ?_
  omega

/-- C33 fails on the last character: in the reachable Normal-mode state with
the one line `abc` and the cursor on `c` (column 2), the key `a` enters Insert
mode with the cursor still at column 2, not 3, and the key `X` typed next gives
the line `abXc`: it is inserted before the character the cursor was on, not
appended after it. -/
theorem append_on_last_char :
    Reachable (run_keys fs_demo [105, 97, 98, 99, KEY_ESC] (main_init fs_demo none 24 80)) ∧
    (run_keys fs_demo [105, 97, 98, 99, KEY_ESC] (main_init fs_demo none 24 80)).mode
      = MODE_NORMAL ∧
    (run_keys fs_demo [105, 97, 98, 99, KEY_ESC] (main_init fs_demo none 24 80)).lines
      = [str "abc"] ∧
    (run_keys fs_demo [105, 97, 98, 99, KEY_ESC] (main_init fs_demo none 24 80)).cur_col = 2 ∧
    (dispatch_key fs_demo 97
      (run_keys fs_demo [105, 97, 98, 99, KEY_ESC] (main_init fs_demo none 24 80))).mode
      = MODE_INSERT ∧
    (dispatch_key fs_demo 97
      (run_keys fs_demo [105, 97, 98, 99, KEY_ESC] (main_init fs_demo none 24 80))).cur_col
      = 2 ∧
    (run_keys fs_demo [97, 88]
      (run_keys fs_demo [105, 97, 98, 99, KEY_ESC] (main_init fs_demo none 24 80))).lines
      = [str "abXc"] := by
  refine ⟨run_keys_reachable _ _ _ (Reachable.init _ _ _ _) (by decide), ?_⟩
  decide

/-! ## Bytes swallowed after an unknown escape prefix -/

/-- No entry of the table is a prefix of a stream whose second byte is neither
`[` nor `O`. -/
theorem no_entry_without_bracket (b1 : Nat) (s : List Nat) (h1 : b1 ≠ 91) (h2 : b1 ≠ 79) :
    ∀ e ∈ esc_table, ¬(e.1 <+: 27 :: b1 :: s) := by
  intro e he hp
  simp only [esc_table, List.mem_cons, List.mem_singleton, List.not_mem_nil, or_false] at he
  rcases he with rfl | rfl | rfl | rfl | rfl | rfl | rfl | rfl | rfl | rfl | rfl <;>
    simp [List.cons_prefix_cons] at hp <;> omega

/-- Six calls of `read_key` on ESC and six more available bytes of which no
prefix is an entry of the table: no key, and the buffer discarded at the
seventh byte. -/
theorem escape_run (char_signed : Bool) (buf : List Nat) (hbuf : buf.length = ESC_BUF_SIZE)
    (b1 b2 b3 b4 b5 b6 : Nat) (rest : List (Option Nat))
    (hno : ∀ e ∈ esc_table, ¬(e.1 <+: [27, b1, b2, b3, b4, b5, b6])) :
    (∀ k, 1 ≤ k → k ≤ 5 →
      (read_keys char_signed k { esc_buf := buf, esc_len := 0 }
          (some 27 :: some b1 :: some b2 :: some b3 :: some b4 :: some b5 :: some b6 :: rest)).1
        = List.replicate k KEY_NONE ∧
      (read_keys char_signed k { esc_buf := buf, esc_len := 0 }
          (some 27 :: some b1 :: some b2 :: some b3 :: some b4 :: some b5 :: some b6
            :: rest)).2.1.esc_len
        = k + 1) ∧
    read_keys char_signed 6 { esc_buf := buf, esc_len := 0 }
        (some 27 :: some b1 :: some b2 :: some b3 :: some b4 :: some b5 :: some b6 :: rest)
      = (List.replicate 6 KEY_NONE,
         { esc_buf := [27, b1, b2, b3, b4, b5, b6] ++ buf.drop 7, esc_len := 0 }, rest) := by
  obtain ⟨c0, c1, c2, c3, c4, c5, c6, c7, rfl⟩ := esc_buf_cells buf hbuf
  have s1 := read_key_esc_start char_signed [c0, c1, c2, c3, c4, c5, c6, c7] b1
    (some b2 :: some b3 :: some b4 :: some b5 :: some b6 :: rest)
  have s2 := read_key_collect char_signed [27, b1, c2, c3, c4, c5, c6, c7] 2 b2
    (some b3 :: some b4 :: some b5 :: some b6 :: rest) (by decide)
    (no_entry_matches _ [27, b1, b2, b3, b4, b5, b6] 3 rfl hno)
  have s3 := read_key_collect char_signed [27, b1, b2, c3, c4, c5, c6, c7] 3 b3
    (some b4 :: some b5 :: some b6 :: rest) (by decide)
    (no_entry_matches _ [27, b1, b2, b3, b4, b5, b6] 4 rfl hno)
  have s4 := read_key_collect char_signed [27, b1, b2, b3, c4, c5, c6, c7] 4 b4
    (some b5 :: some b6 :: rest) (by decide)
    (no_entry_matches _ [27, b1, b2, b3, b4, b5, b6] 5 rfl hno)
  have s5 := read_key_collect char_signed [27, b1, b2, b3, b4, c5, c6, c7] 5 b5
    (some b6 :: rest) (by decide)
    (no_entry_matches _ [27, b1, b2, b3, b4, b5, b6] 6 rfl hno)
  have s6 := read_key_collect char_signed [27, b1, b2, b3, b4, b5, c6, c7] 6 b6
    rest (by decide)
    (no_entry_matches _ [27, b1, b2, b3, b4, b5, b6] 7 rfl hno)
  simp only [List.set_cons_zero, List.set_cons_succ, esc_pending] at s1 s2 s3 s4 s5 s6
  norm_num at s2 s3 s4 s5 s6
  constructor
  · intro k hk1 hk5
    interval_cases k <;> simp [read_keys, s1, s2, s3, s4, s5]
  · simp [read_keys, s1, s2, s3, s4, s5, s6]

/-- A call of `read_key` in Idle on a byte that is ESC: the next read decides
between the lone Esc key and the start of a sequence. -/
theorem read_key_idle_esc (char_signed : Bool) (buf : List Nat) (c : Nat)
    (inp1 : List (Option Nat)) (hc : char_val char_signed c = 27) :
    read_key char_signed { esc_buf := buf, esc_len := 0 } (some c :: inp1)
      = match read_byte inp1 with
        | (none, inp2) => (KEY_ESC, { esc_buf := buf.set 0 c, esc_len := 0 }, inp2)
        | (some c2, inp2) => esc_pending ((buf.set 0 c).set 1 c2) 2 inp2 := by
  unfold read_key
  refine (if_pos (Or.inr hc)).trans ?_
  refine (if_neg (fun h => absurd h.1 (show ¬((0 : Nat) + 1 ≥ 3) by decide))).trans ?_
  refine (if_neg (fun h => absurd h.1 (show ¬((0 : Nat) + 1 ≥ 3) by decide))).trans ?_
  refine (if_neg (fun h => absurd h.1 (show ¬((0 : Nat) + 1 ≥ 3) by decide))).trans ?_
  refine (if_neg (fun h => absurd h.1 (show ¬((0 : Nat) + 1 ≥ 3) by decide))).trans ?_
  refine (if_neg (fun h => absurd h.1 (show ¬((0 : Nat) + 1 ≥ 3) by decide))).trans ?_
  refine (if_neg (fun h => absurd h.1 (show ¬((0 : Nat) + 1 ≥ 3) by decide))).trans ?_
  refine (if_neg (fun h => absurd h.1 (show ¬((0 : Nat) + 1 ≥ 3) by decide))).trans ?_
  refine (if_neg (fun h => absurd h.1 (show ¬((0 : Nat) + 1 ≥ 3) by decide))).trans ?_
  refine (if_neg (fun h => absurd h.1 (show ¬((0 : Nat) + 1 ≥ 4) by decide))).trans ?_
  refine (if_neg (fun h => absurd h.1 (show ¬((0 : Nat) + 1 ≥ 4) by decide))).trans ?_
  refine (if_neg (fun h => absurd h.1 (show ¬((0 : Nat) + 1 ≥ 4) by decide))).trans ?_
  exact if_pos rfl

/-- A call of `read_key` in Idle on a byte that is not ESC. -/
theorem read_key_idle_plain (char_signed : Bool) (d : Decoder) (hd : d.esc_len = 0) (c : Nat)
    (inp1 : List (Option Nat)) (hc : char_val char_signed c ≠ 27) :
    read_key char_signed d (some c :: inp1)
      = if char_val char_signed c = 127 ∨ char_val char_signed c = 8 then
          (KEY_BACKSPACE, d, inp1)
        else if char_val char_signed c = 13 ∨ char_val char_signed c = 10 then
          (KEY_ENTER, d, inp1)
        else if char_val char_signed c ≥ 32 ∧ char_val char_signed c < 127 then
          (char_val char_signed c, d, inp1)
        else (KEY_NONE, d, inp1) := by
  unfold read_key
  refine if_neg ?_
  rintro (h | h)
  · omega
  · exact hc h

/-- In Idle the content of the escape buffer does not matter: the key returned,
the state reached and the bytes consumed are the same for every content. -/
theorem read_key_idle_any (char_signed : Bool) (buf1 buf2 : List Nat)
    (inp : List (Option Nat)) :
    (read_key char_signed { esc_buf := buf1, esc_len := 0 } inp).1
      = (read_key char_signed { esc_buf := buf2, esc_len := 0 } inp).1 ∧
    (read_key char_signed { esc_buf := buf1, esc_len := 0 } inp).2.1.esc_len
      = (read_key char_signed { esc_buf := buf2, esc_len := 0 } inp).2.1.esc_len ∧
    (read_key char_signed { esc_buf := buf1, esc_len := 0 } inp).2.2
      = (read_key char_signed { esc_buf := buf2, esc_len := 0 } inp).2.2 := by
  match inp with
  | [] => exact ⟨rfl, rfl, rfl⟩
  | none :: inp1 => exact ⟨rfl, rfl, rfl⟩
  | some c :: inp1 =>
    by_cases hc : char_val char_signed c = 27
    · rw [read_key_idle_esc char_signed buf1 c inp1 hc,
        read_key_idle_esc char_signed buf2 c inp1 hc]
      match inp1 with
      | [] => exact ⟨rfl, rfl, rfl⟩
      | none :: inp2 => exact ⟨rfl, rfl, rfl⟩
      | some c2 :: inp2 => exact ⟨rfl, rfl, rfl⟩
    · rw [read_key_idle_plain char_signed _ rfl c inp1 hc,
        read_key_idle_plain char_signed _ rfl c inp1 hc]
      split_ifs <;> exact ⟨rfl, rfl, rfl⟩

/-- C34: key loss after an unrecognised escape prefix.  From Idle, for every
stream of available bytes that begins with ESC, a byte other than `[` and `O`,
and five more bytes, whatever they are: each of the first six calls of
`read_key` returns no key, after k calls (k from 1 to 5) the buffer holds k + 1
bytes, and after the sixth call, which reads the seventh byte
(`ESC_BUF_SIZE` - 1), the decoder is in Idle with the rest of the stream
unread.  The next call decodes the eighth byte as in Idle: the key, the state
reached and the bytes consumed are those of a call from the Idle state the
stream started in. -/
theorem key_loss_after_escape (char_signed : Bool) (buf : List Nat)
    (hbuf : buf.length = ESC_BUF_SIZE) (b1 b2 b3 b4 b5 b6 : Nat) (rest : List (Option Nat))
    (h1 : b1 ≠ 91) (h2 : b1 ≠ 79) :
    (∀ k, 1 ≤ k → k ≤ 5 →
      (read_keys char_signed k { esc_buf := buf, esc_len := 0 }
          (some 27 :: some b1 :: some b2 :: some b3 :: some b4 :: some b5 :: some b6 :: rest)).1
        = List.replicate k KEY_NONE ∧
      (read_keys char_signed k { esc_buf := buf, esc_len := 0 }
          (some 27 :: some b1 :: some b2 :: some b3 :: some b4 :: some b5 :: some b6
            :: rest)).2.1.esc_len
        = k + 1) ∧
    read_keys char_signed 6 { esc_buf := buf, esc_len := 0 }
        (some 27 :: some b1 :: some b2 :: some b3 :: some b4 :: some b5 :: some b6 :: rest)
      = (List.replicate 6 KEY_NONE,
         { esc_buf := [27, b1, b2, b3, b4, b5, b6] ++ buf.drop 7, esc_len := 0 }, rest) ∧
    (read_key char_signed
        { esc_buf := [27, b1, b2, b3, b4, b5, b6] ++ buf.drop 7, esc_len := 0 } rest).1
      = (read_key char_signed { esc_buf := buf, esc_len := 0 } rest).1 ∧
    (read_key char_signed
        { esc_buf := [27, b1, b2, b3, b4, b5, b6] ++ buf.drop 7, esc_len := 0 } rest).2.1.esc_len
      = (read_key char_signed { esc_buf := buf, esc_len := 0 } rest).2.1.esc_len ∧
    (read_key char_signed
        { esc_buf := [27, b1, b2, b3, b4, b5, b6] ++ buf.drop 7, esc_len := 0 } rest).2.2
      = (read_key char_signed { esc_buf := buf, esc_len := 0 } rest).2.2 := by
  have hrun := escape_run char_signed buf hbuf b1 b2 b3 b4 b5 b6 rest
    (no_entry_without_bracket b1 [b2, b3, b4, b5, b6] h1 h2)
  exact ⟨hrun.1, hrun.2, read_key_idle_any char_signed _ _ rest⟩

theorem key_loss_after_escape_witness :
    ([0, 0, 0, 0, 0, 0, 0, 0] : List Nat).length = ESC_BUF_SIZE ∧ (120 : Nat) ≠ 91 ∧
    (120 : Nat) ≠ 79 ∧
    read_keys false 6 { esc_buf := [0, 0, 0, 0, 0, 0, 0, 0], esc_len := 0 }
        [some 27, some 120, some 97, some 13, some 127, some 98, some 99, some 100]
      = (List.replicate 6 KEY_NONE,
         { esc_buf := [27, 120, 97, 13, 127, 98, 99] ++ [0, 0, 0, 0, 0, 0, 0, 0].drop 7,
           esc_len := 0 }, [some 100]) ∧
    (read_keys false 7 { esc_buf := [0, 0, 0, 0, 0, 0, 0, 0], esc_len := 0 }
        [some 27, some 120, some 97, some 13, some 127, some 98, some 99, some 100]).1
      = [KEY_NONE, KEY_NONE, KEY_NONE, KEY_NONE, KEY_NONE, KEY_NONE, 100] :=
  ⟨rfl, by decide, by decide,
   (key_loss_after_escape false [0, 0, 0, 0, 0, 0, 0, 0] rfl 120 97 13 127 98 99 [some 100]
      (by decide) (by decide)).2.1,
   by decide⟩

/-! ## Split and join -/

theorem delete_line_at_eq (idx : Int) (E : Editor) (h0 : 0 ≤ idx) (h1 : idx < E.line_count)
    (h2 : 2 ≤ E.line_count) :
    delete_line_at idx E = { E with lines := E.lines.eraseIdx idx.toNat } := by
  unfold delete_line_at
  rw [if_neg (by omega)]
  dsimp only
  rw [if_neg]
  simp only [Editor.line_count] at *
  rw [List.length_eraseIdx, if_pos (by omega)]
  omega

/-- Splitting line `i` of a list of lines at `c` and joining the two parts again
gives the list back. -/
theorem split_join_lines (l : List (List Nat)) (i c : Nat) (h : i < l.length) :
    ((l.take i ++ [(l.getD i []).take c, (l.getD i []).drop c] ++ l.drop (i + 1)).set i
        ((l.getD i []).take c ++ (l.getD i []).drop c)).eraseIdx (i + 1) = l := by
  have hlen : (l.take i).length = i := by rw [List.length_take]; omega
  have e1 : l.take i ++ [(l.getD i []).take c, (l.getD i []).drop c] ++ l.drop (i + 1)
      = l.take i ++ ((l.getD i []).take c :: (l.getD i []).drop c :: l.drop (i + 1)) := by
    simp
  rw [e1, List.set_append_right _ _ (by omega), hlen, Nat.sub_self, List.set_cons_zero,
    List.take_append_drop, List.eraseIdx_append_of_length_le (by omega), hlen]
  have e2 : i + 1 - i = 1 := by omega
  rw [e2]
  show l.take i ++ (l.getD i [] :: l.drop (i + 1)) = l
  rw [List.getD_eq_getElem _ _ h, List.getElem_cons_drop _ _ h, List.take_append_drop]

/-- The join of `backspace_char`: at column 0 of a row below the first, the
line is appended to the one before it and removed. -/
theorem backspace_char_join (E : Editor) (hc : E.cur_col = 0) (h0 : 0 < E.cur_row)
    (h1 : E.cur_row < E.line_count) :
    backspace_char E
      = { E with
          lines := (E.lines.set (E.cur_row - 1).toNat
            (E.lines.getD (E.cur_row - 1).toNat [] ++ E.lines.getD E.cur_row.toNat [])).eraseIdx
              E.cur_row.toNat
          cur_row := E.cur_row - 1
          cur_col := ((E.lines.getD (E.cur_row - 1).toNat []).length : Int)
          modified := 1 } := by
  unfold backspace_char
  rw [if_neg (by omega), if_pos (by omega)]
  dsimp only
  have hn : ((E.lines.set (E.cur_row - 1).toNat
      (E.lines.getD (E.cur_row - 1).toNat [] ++ E.lines.getD E.cur_row.toNat [])).length : Int)
      = E.line_count := by
    rw [List.length_set]
    rfl
  rw [delete_line_at_eq E.cur_row
      { E with
        lines := E.lines.set (E.cur_row - 1).toNat
          (E.lines.getD (E.cur_row - 1).toNat [] ++ E.lines.getD E.cur_row.toNat []) }
      (by omega)
      (show E.cur_row < ((E.lines.set _ _).length : Int) by rw [hn]; exact h1)
      (show (2 : Int) ≤ ((E.lines.set _ _).length : Int) by rw [hn]; omega),
    line_len_eq E (E.cur_row - 1) (by omega) (by omega)]

theorem insert_newline_eq (E : Editor) (h0 : 0 ≤ E.cur_row) (h1 : E.cur_row < E.line_count) :
    insert_newline E
      = { E with
          lines := E.lines.take E.cur_row.toNat
            ++ [(cur_line E).take E.cur_col.toNat, (cur_line E).drop E.cur_col.toNat]
            ++ E.lines.drop (E.cur_row.toNat + 1)
          cur_row := E.cur_row + 1, cur_col := 0, modified := 1 } := by
  have hlt : E.cur_row.toNat < E.lines.length := by
    unfold Editor.line_count at h1
    omega
  have hr : (E.cur_row + 1).toNat = E.cur_row.toNat + 1 := by omega
  obtain ⟨ht, hd⟩ := set_take_succ E.lines E.cur_row.toNat
    ((cur_line E).take E.cur_col.toNat) hlt
  show ({ E with
      lines := ((E.lines.set E.cur_row.toNat ((cur_line E).take E.cur_col.toNat)).take
          (E.cur_row + 1).toNat ++ [(cur_line E).drop E.cur_col.toNat])
        ++ (E.lines.set E.cur_row.toNat ((cur_line E).take E.cur_col.toNat)).drop
          (E.cur_row + 1).toNat
      cur_row := E.cur_row + 1, cur_col := 0, modified := 1 } : Editor) = _
  rw [hr, ht, hd]
  simp

/-- C35: split and join are inverse in Insert mode.  In every reachable state in
Insert mode, Enter followed by Backspace gives the state back with the
modified flag set: the Document, every line in order, and the cursor (r, c) are
those before the two keys. -/
theorem split_then_join (fs : FS) (E : Editor) (h : Reachable E)
    (hm : E.mode = MODE_INSERT) :
    dispatch_key fs KEY_BACKSPACE (dispatch_key fs KEY_ENTER E) = { E with modified := 1 } ∧
    (dispatch_key fs KEY_BACKSPACE (dispatch_key fs KEY_ENTER E)).lines = E.lines ∧
    (dispatch_key fs KEY_BACKSPACE (dispatch_key fs KEY_ENTER E)).cur_row = E.cur_row ∧
    (dispatch_key fs KEY_BACKSPACE (dispatch_key fs KEY_ENTER E)).cur_col = E.cur_col ∧
    (dispatch_key fs KEY_BACKSPACE (dispatch_key fs KEY_ENTER E)).modified = 1 := by
  obtain ⟨a1, a2, a3, a4, a5, a6, a7, a8⟩ := reachable_inv E h
  have a6 := a6 hm
  have hlt : E.cur_row.toNat < E.lines.length := by
    unfold Editor.line_count at a3
    omega
  obtain ⟨ls, hls⟩ : ∃ ls : List (List Nat), ls = E.lines.take E.cur_row.toNat
      ++ [(cur_line E).take E.cur_col.toNat, (cur_line E).drop E.cur_col.toNat]
      ++ E.lines.drop (E.cur_row.toNat + 1) := ⟨_, rfl⟩
  have hlen : (E.lines.take E.cur_row.toNat).length = E.cur_row.toNat := by
    rw [List.length_take]; omega
  have hcount : (ls.length : Int) = E.line_count + 1 := by
    rw [hls]
    simp only [List.length_append, List.length_take, List.length_drop, List.length_cons,
      List.length_nil, Editor.line_count]
    omega
  have g0 : ls.getD E.cur_row.toNat [] = (cur_line E).take E.cur_col.toNat := by
    rw [hls, List.getD_eq_getElem?_getD, List.append_assoc,
      List.getElem?_append_right (by omega), hlen, Nat.sub_self]
    rfl
  have g1 : ls.getD (E.cur_row.toNat + 1) [] = (cur_line E).drop E.cur_col.toNat := by
    rw [hls, List.getD_eq_getElem?_getD, List.append_assoc,
      List.getElem?_append_right (by omega), hlen]
    have e : E.cur_row.toNat + 1 - E.cur_row.toNat = 1 := by omega
    rw [e]
    simp
  have hjoin : (ls.set E.cur_row.toNat
      (ls.getD E.cur_row.toNat [] ++ ls.getD (E.cur_row.toNat + 1) [])).eraseIdx
        (E.cur_row.toNat + 1) = E.lines := by
    rw [g0, g1, hls]
    exact split_join_lines E.lines E.cur_row.toNat E.cur_col.toNat hlt
  have hplen : ((ls.getD E.cur_row.toNat []).length : Int) = E.cur_col := by
    rw [g0, List.length_take]
    omega
  have hr : (E.cur_row + 1).toNat = E.cur_row.toNat + 1 := by omega
  have hr1 : (E.cur_row + 1 - 1).toNat = E.cur_row.toNat := by
    rw [add_sub_cancel_right]
  have hfull : dispatch_key fs KEY_BACKSPACE (dispatch_key fs KEY_ENTER E)
      = { E with modified := 1 } := by
    rw [dispatch_key_insert fs KEY_ENTER E hm, handle_insert_enter, insert_newline_eq E a2 a3,
      ← hls]
    have hb := backspace_char_join
      { E with lines := ls, cur_row := E.cur_row + 1, cur_col := 0, modified := 1 } rfl
      (show (0 : Int) < E.cur_row + 1 by omega)
      (show E.cur_row + 1 < (ls.length : Int) by omega)
    refine (dispatch_key_insert fs KEY_BACKSPACE
      { E with lines := ls, cur_row := E.cur_row + 1, cur_col := 0, modified := 1 } hm).trans ?_
    refine Eq.trans (handle_insert_backspace _) ?_
    refine hb.trans ?_
    dsimp only
    rw [hr, hr1, hjoin, hplen, add_sub_cancel_right]
  rw [hfull]
  exact ⟨rfl, rfl, rfl, rfl, rfl⟩

theorem split_then_join_witness :
    Reachable (run_keys fs_demo [105, 98, 99, KEY_LEFT] demo_start) ∧
    (run_keys fs_demo [105, 98, 99, KEY_LEFT] demo_start).mode = MODE_INSERT ∧
    (run_keys fs_demo [105, 98, 99, KEY_LEFT] demo_start).lines = [str "bca"] ∧
    (run_keys fs_demo [105, 98, 99, KEY_LEFT] demo_start).cur_col = 1 ∧
    (dispatch_key fs_demo KEY_ENTER
      (run_keys fs_demo [105, 98, 99, KEY_LEFT] demo_start)).lines = [str "b", str "ca"] ∧
    (dispatch_key fs_demo KEY_BACKSPACE (dispatch_key fs_demo KEY_ENTER
      (run_keys fs_demo [105, 98, 99, KEY_LEFT] demo_start))).lines = [str "bca"] ∧
    (dispatch_key fs_demo KEY_BACKSPACE (dispatch_key fs_demo KEY_ENTER
      (run_keys fs_demo [105, 98, 99, KEY_LEFT] demo_start))).cur_col = 1 :=
  ⟨run_keys_reachable _ _ _ (main_init_demo ▸ Reachable.init fs_demo (some [102]) 24 80)
      (by decide), by decide, by decide, by decide, by decide,
   (split_then_join fs_demo _
      (run_keys_reachable _ _ _ (main_init_demo ▸ Reachable.init fs_demo (some [102]) 24 80)
        (by decide)) (by decide)).2.1.trans (by decide),
   (split_then_join fs_demo _
      (run_keys_reachable _ _ _ (main_init_demo ▸ Reachable.init fs_demo (some [102]) 24 80)
        (by decide)) (by decide)).2.2.2.1.trans (by decide)⟩

end Vi
